import Mathlib

/-! HDRTools frame scaling and PGM output, HM film grain analyser: a shallow embedding.

The definitions of the namespace `hdrtoolslib` are translated from
`external/HDRTools/common/src/FrameScale.cpp`,
`external/HDRTools/common/src/FrameScaleGaussian.cpp`,
`external/HDRTools/common/src/OutputPGM.cpp` and
`external/HDRTools/common/src/InputJPEG.cpp`; those of the namespace `filmgrain` from
`external/HM/source/Lib/TLibCommon/SEIFilmGrainAnalyzer.h`.  A definition whose comment
starts with "Modelled from the spec" stands for code that the sources declare or call but
do not contain.

Conventions of the embedding.

* Values of the C++ integer types (`int`, `int64`, `imgpel`, `uint16`) are integers of
  `Int`.  Signed arithmetic is exact: the results describe the runs without signed
  overflow, which is undefined behaviour in C++.  The narrowing conversions with which the
  per-sample filters return a sample, `(int)` of an `int64`, `(imgpel)` and `(uint16)`, are
  the functions `toInt32`, `toImgpel` and `toUint16`.  Sizes, tap counts and the precision,
  which the code uses as loop bounds, strides and shift counts, are natural numbers.
* The type `double` is modelled by exact rational arithmetic (`ℚ`); the function `exp` of
  the C library is a parameter `exp : ℚ → ℚ` of the Gaussian kernel.
* A buffer is a `List`; `buf[i]` is `buf.getD i 0` and `buf[i] = v` is `buf.set i v`.  A
  pointer `&buf[k]` is the list `buf.drop k`.  A list has no element past its end: where a
  result is about the indices that the code touches, these are recorded in a list of their
  own (`filterReads`, `intTableAccesses`).
* A `for` loop over `0 .. n-1` is a `List.foldl` over `List.range n` whose accumulator holds
  the variables that the loop body assigns.
* The virtual method `FilterTap` is a parameter of the functions of the base class.
* In `OutputPGM` a byte and a `uint16` sample are natural numbers, reduced modulo 256 or
  split into two bytes where the code converts to a `char`; a character buffer is a
  `List Char` and a C string is the part of it before the first `NUL`.
-/

set_option autoImplicit false
set_option linter.unusedVariables false

namespace hdrtoolslib

/-! ## Helpers of `Global.H` -/

/-- Modelled from the spec: `dAbs` of `Global.H` (not among the sources), the absolute value
of a double, `(x < 0) ? -x : x`. -/
def dAbs (x : ℚ) : ℚ := if x < 0 then -x else x

/-- Modelled from the spec: `iClip` of `Global.H` (not among the sources), the clamp of `x`
to `[low, high]`: `x = iMax(x, low); x = iMin(x, high)`. -/
def iClip (x low high : Int) : Int := min (max x low) high

/-- Conversion `(int) x` of a double: truncation towards zero. -/
def truncToInt (x : ℚ) : Int := if 0 ≤ x then ⌊x⌋ else -⌊-x⌋

/-- Conversion `(int) x` of an `int64`: the low 32 bits of `x`, read as a two's-complement
number. -/
def toInt32 (x : Int) : Int := (x + 2 ^ 31) % 2 ^ 32 - 2 ^ 31

/-- Modelled from the spec: the conversion `(imgpel) x` of an `int`.  The type `imgpel` of
`TypeDefs.H` (not among the sources) is the unsigned 8-bit type of the samples of an 8-bit
plane. -/
def toImgpel (x : Int) : Int := x % 2 ^ 8

/-- Conversion `(uint16) x` of an `int`. -/
def toUint16 (x : Int) : Int := x % 2 ^ 16

/-- Modelled from the spec: `double2int` of `Global.H` (not among the sources), rounding
to the nearest integer: `(int) ((x < 0) ? (x - 0.5) : (x + 0.5))`. -/
def double2int (x : ℚ) : Int := truncToInt (if x < 0 then x - 1 / 2 else x + 1 / 2)

/-- Modelled from the spec: the constant `HDR_PI` of `Global.H` (not among the sources). -/
def HDR_PI : ℚ := 3.14159265358979323846

/-! ## `FrameScale::PrepareFilterCoefficients` -/

/-- The kernel weight of tap `t` of a row with fractional phase `off`: the body of the first
inner loop of `PrepareFilterCoefficients` (FrameScale.cpp, lines 162-169). -/
def tapWeight (FilterTap : ℚ → ℚ → ℚ → Int → ℚ) (filterOffsets : List Int) (factor : ℚ)
    (pi : ℚ) (lobes : Int) (off : ℚ) (t : Nat) : ℚ :=
  let dist : ℚ :=
    if factor ≤ 1 then dAbs ((filterOffsets.getD t 0 : Int) - off)
    else dAbs (-((filterOffsets.getD t 0 : Int) : ℚ) + off)
  FilterTap dist pi (if factor > 1 then factor else 1) lobes

/-- First inner loop (lines 160-171): stores the kernel weights of the row that starts at
`index` and accumulates their sum `coeffSum`. -/
def tapLoop (FilterTap : ℚ → ℚ → ℚ → Int → ℚ) (filterOffsets : List Int) (factor : ℚ)
    (filterTaps : Nat) (pi : ℚ) (lobes : Int) (off : ℚ) (index : Nat)
    (factorCoeffs : List ℚ) : List ℚ × ℚ :=
  (List.range filterTaps).foldl
    (fun (st : List ℚ × ℚ) (t : Nat) =>
      let w := tapWeight FilterTap filterOffsets factor pi lobes off t
      (st.1.set (index + t) w, st.2 + w))
    (factorCoeffs, 0)

/-- Second inner loop (lines 172-174): divides every weight of the row by `coeffSum`. -/
def normLoop (filterTaps : Nat) (index : Nat) (coeffSum : ℚ) (factorCoeffs : List ℚ) :
    List ℚ :=
  (List.range filterTaps).foldl
    (fun (fc : List ℚ) (t : Nat) => fc.set (index + t) (fc.getD (index + t) 0 / coeffSum))
    factorCoeffs

/-- Third inner loop (lines 176-180): rounds the scaled weights into the integer table and
accumulates the integer `coeffSum`. -/
def roundLoop (filterTaps : Nat) (index : Nat) (scale : Int) (factorCoeffs : List ℚ)
    (iFactorCoeffs : List Int) : List Int × Int :=
  (List.range filterTaps).foldl
    (fun (st : List Int × Int) (t : Nat) =>
      let v := double2int (factorCoeffs.getD (index + t) 0 * (scale : ℚ))
      (st.1.set (index + t) v, st.2 + v))
    (iFactorCoeffs, 0)

/-- Fractional phase of output position `x` (lines 157-158):
`posOrig = offset + x * factor; off = posOrig - floor(posOrig)`. -/
def phase (factor offset : ℚ) (x : Nat) : ℚ :=
  let posOrig := offset + (x : ℚ) * factor
  posOrig - (⌊posOrig⌋ : ℚ)

/-- One iteration of the outer loop of the floating-point part (lines 122-142 and 156-174):
the weights of row `x`, normalised by their sum. -/
def floatRow (FilterTap : ℚ → ℚ → ℚ → Int → ℚ) (filterOffsets : List Int) (factor : ℚ)
    (filterTaps : Nat) (offset : ℚ) (pi : ℚ) (lobes : Int) (x : Nat)
    (factorCoeffs : List ℚ) : List ℚ :=
  let index := x * filterTaps
  let off := phase factor offset x
  let r := tapLoop FilterTap filterOffsets factor filterTaps pi lobes off index factorCoeffs
  normLoop filterTaps index r.2 r.1

/-- The overload `FrameScale::PrepareFilterCoefficients(factorCoeffs, filterOffsets, factor,
filterTaps, offset, oSize, lobes)` (lines 113-143), which fills the floating table only. -/
def PrepareFilterCoefficientsLobes (FilterTap : ℚ → ℚ → ℚ → Int → ℚ)
    (factorCoeffs : List ℚ) (filterOffsets : List Int) (factor : ℚ) (filterTaps : Nat)
    (offset : ℚ) (oSize : Nat) (lobes : Int) : List ℚ :=
  let pi : ℚ := HDR_PI / (lobes : ℚ)
  (List.range oSize).foldl
    (fun (fc : List ℚ) (x : Nat) =>
      floatRow FilterTap filterOffsets factor filterTaps offset pi lobes x fc)
    factorCoeffs

/-- One iteration of the outer loop of the overload that fills the integer table
(lines 156-183). -/
def prepareRow (FilterTap : ℚ → ℚ → ℚ → Int → ℚ) (filterOffsets : List Int) (factor : ℚ)
    (filterTaps : Nat) (offset : ℚ) (pi : ℚ) (lobes : Int) (scale : Int) (x : Nat)
    (st : List ℚ × List Int) : List ℚ × List Int :=
  let index := x * filterTaps
  let factorCoeffs :=
    floatRow FilterTap filterOffsets factor filterTaps offset pi lobes x st.1
  let r := roundLoop filterTaps index scale factorCoeffs st.2
  let iFactorCoeffs := r.1
  let coeffSum := r.2
  let c := index + ((filterTaps + 1) >>> 1)
  (factorCoeffs, iFactorCoeffs.set c (iFactorCoeffs.getD c 0 + (scale - coeffSum)))

/-- The overload `FrameScale::PrepareFilterCoefficients(factorCoeffs, iFactorCoeffs,
filterOffsets, factor, filterTaps, offset, oSize, lobes, precision)` (lines 145-195).
Returns the floating and the integer table. -/
def PrepareFilterCoefficients (FilterTap : ℚ → ℚ → ℚ → Int → ℚ)
    (factorCoeffs : List ℚ) (iFactorCoeffs : List Int) (filterOffsets : List Int)
    (factor : ℚ) (filterTaps : Nat) (offset : ℚ) (oSize : Nat) (lobes : Int)
    (precision : Nat) : List ℚ × List Int :=
  let scale : Int := ((1 <<< precision : Nat) : Int)
  let pi : ℚ := HDR_PI / (lobes : ℚ)
  (List.range oSize).foldl
    (fun (st : List ℚ × List Int) (x : Nat) =>
      prepareRow FilterTap filterOffsets factor filterTaps offset pi lobes scale x st)
    (factorCoeffs, iFactorCoeffs)

/-! ## `FrameScale::SetFilterLimits` and the state of a scaler -/

/-- The members of `FrameScale` (declared in `FrameScale.H`) that the functions below read
or write. -/
structure FrameScale where
  m_lobes : Int := 0
  m_lobesX : Int := 0
  m_lobesY : Int := 0
  m_pi : ℚ := 0
  m_piSq : ℚ := 0
  m_factorX : ℚ := 0
  m_factorY : ℚ := 0
  m_offsetX : ℚ := 0
  m_offsetY : ℚ := 0
  m_filterTapsX : Nat := 0
  m_filterTapsY : Nat := 0
  m_filterOffsetsX : List Int := []
  m_filterOffsetsY : List Int := []
  m_filterCoeffsX : List ℚ := []
  m_filterCoeffsY : List ℚ := []
  m_filterPrecision : Nat := 0
  m_filterIntCoeffsX : List Int := []
  m_filterIntCoeffsY : List Int := []
  m_iMinX : Int := 0
  m_iMaxX : Int := 0
  m_oMinX : Int := 0
  m_oMaxX : Int := 0
  m_iMinY : Int := 0
  m_iMaxY : Int := 0
  m_oMinY : Int := 0
  m_oMaxY : Int := 0
  m_chromaFilterTapsX : Nat := 0
  m_chromaFilterTapsY : Nat := 0
  m_chromaFilterOffsetsX : List Int := []
  m_chromaFilterOffsetsY : List Int := []
  m_chromaFilterIntCoeffsX : List Int := []
  m_chromaFilterIntCoeffsY : List Int := []

/-- The values `SetFilterLimits` leaves in its output parameters. -/
structure FilterLimits where
  filterOffsets : List Int
  iMin : Int
  iMax : Int
  oMin : Int
  oMax : Int

/-- The function `FrameScale::SetFilterLimits` (lines 197-215).  `iMin` is the value of `*iMin` before
the call, which the branch `factor == 1` leaves as it is. -/
def SetFilterLimits (filterOffsets : List Int) (filterTaps : Nat) (iDimension oDimension : Nat)
    (factor : ℚ) (iMin : Int) : FilterLimits :=
  let filterOffsets :=
    (List.range filterTaps).foldl
      (fun (fo : List Int) (ix : Nat) =>
        fo.set ix (-(((filterTaps : Int) - 1) >>> 1) + (ix : Int)))
      filterOffsets
  let iMax : Int := (iDimension : Int) - 1
  let r : Int × Int :=
    if factor = 1 then (iMin, 0)
    else
      (((filterTaps : Int) + 1) >>> 1 + 2,
       if factor ≤ 1 then truncToInt (((filterTaps : ℚ) + 1) / factor + 1)
       else (filterTaps : Int) + 2)
  { filterOffsets := filterOffsets, iMin := r.1, iMax := iMax, oMin := r.2,
    oMax := (oDimension : Int) - r.2 }

/-! ## `FrameScaleGaussian` -/

/-- The function `ceil` of `math.h`, followed by the conversion to `int`. -/
def ceilToInt (x : ℚ) : Int := -⌊-x⌋

/-- The method `FrameScaleGaussian::FilterTap` (FrameScaleGaussian.cpp, lines 130-141); `exp` is the
exponential of the C library. -/
def FrameScaleGaussian.FilterTap (exp : ℚ → ℚ) (dist piScaled factor : ℚ) (lobes : Int) : ℚ :=
  let dist := dAbs dist
  let SD := factor * (1 / 2)
  let L := (lobes : ℚ) * SD
  if dist > L then 0
  else
    let xL := dist / SD
    exp (-xL * xL / 2)

/-- The tap count of one axis (FrameScaleGaussian.cpp, lines 88-89):
`(factor == 1.0) ? 1 : (factor > 1.0) ? (int) ceil(factor * 2 * lobes) : 2 * lobes`. -/
def FrameScaleGaussian.filterTaps (factor : ℚ) (lobes : Int) : Int :=
  if factor = 1 then 1
  else if factor > 1 then ceilToInt (factor * 2 * (lobes : ℚ))
  else 2 * lobes

/-- The constructor `FrameScaleGaussian::FrameScaleGaussian` (lines 69-121).  `self` is the
object as the constructor of the base class leaves it. -/
def FrameScaleGaussian.new (exp : ℚ → ℚ) (self : FrameScale) (iWidth iHeight oWidth oHeight : Nat)
    (lobes : Int) (chromaLocationType : Int) : FrameScale :=
  let m_factorY : ℚ := (iHeight : ℚ) / (oHeight : ℚ)
  let m_factorX : ℚ := (iWidth : ℚ) / (oWidth : ℚ)
  let m_filterTapsX : Nat := (FrameScaleGaussian.filterTaps m_factorX lobes).toNat
  let m_filterTapsY : Nat := (FrameScaleGaussian.filterTaps m_factorY lobes).toNat
  let m_filterPrecision : Nat := 14
  let limX := SetFilterLimits (List.replicate m_filterTapsX 0) m_filterTapsX iWidth oWidth
    m_factorX self.m_iMinX
  let limY := SetFilterLimits (List.replicate m_filterTapsY 0) m_filterTapsY iHeight oHeight
    m_factorY self.m_iMinY
  let tabX := PrepareFilterCoefficients (FrameScaleGaussian.FilterTap exp)
    (List.replicate (oWidth * m_filterTapsX) 0) (List.replicate (oWidth * m_filterTapsX) 0)
    limX.filterOffsets m_factorX m_filterTapsX 0 oWidth lobes m_filterPrecision
  let tabY := PrepareFilterCoefficients (FrameScaleGaussian.FilterTap exp)
    (List.replicate (oHeight * m_filterTapsY) 0) (List.replicate (oHeight * m_filterTapsY) 0)
    limY.filterOffsets m_factorY m_filterTapsY 0 oHeight lobes m_filterPrecision
  { self with
    m_lobes := lobes, m_lobesX := lobes, m_lobesY := lobes,
    m_pi := HDR_PI / (lobes : ℚ), m_piSq := HDR_PI * (HDR_PI / (lobes : ℚ)),
    m_factorY := m_factorY, m_factorX := m_factorX,
    m_offsetX := 0, m_offsetY := 0,
    m_filterTapsX := m_filterTapsX, m_filterTapsY := m_filterTapsY,
    m_filterOffsetsX := limX.filterOffsets, m_filterOffsetsY := limY.filterOffsets,
    m_filterCoeffsX := tabX.1, m_filterCoeffsY := tabY.1,
    m_filterPrecision := m_filterPrecision,
    m_filterIntCoeffsX := tabX.2, m_filterIntCoeffsY := tabY.2,
    m_iMinX := limX.iMin, m_iMaxX := limX.iMax, m_oMinX := limX.oMin, m_oMaxX := limX.oMax,
    m_iMinY := limY.iMin, m_iMaxY := limY.iMax, m_oMinY := limY.oMin, m_oMaxY := limY.oMax }

/-! ## `FrameScale::filter`, one sample -/

/-- The index read by tap `(i, j)` of the per-sample filters:
`yPos + iClip(posX + m_filterOffsetsX[i], 0, m_iMaxX)` with
`yPos = iSizeX * iClip(posY + m_filterOffsetsY[j], 0, m_iMaxY)`. -/
def FrameScale.readIndex (s : FrameScale) (posX posY : Int) (iSizeX : Nat) (i j : Nat) : Int :=
  let yPos := (iSizeX : Int) * iClip (posY + s.m_filterOffsetsY.getD j 0) 0 s.m_iMaxY
  yPos + iClip (posX + s.m_filterOffsetsX.getD i 0) 0 s.m_iMaxX

/-- The loop nest of `imgpel FrameScale::filter(imgpel *input, int *filterX, int *filterY,
int filterPrecision, ...)` (lines 289-299).  The accumulator holds `result` and, as a
record of the memory accesses, the indices at which `input` has been read. -/
def FrameScale.filterLoop (s : FrameScale) (input : List Int) (filterX filterY : List Int)
    (posX posY : Int) (iSizeX : Nat) : Int × List Int :=
  (List.range s.m_filterTapsY).foldl
    (fun (st : Int × List Int) (j : Nat) =>
      if filterY.getD j 0 = 0 then st
      else
        (List.range s.m_filterTapsX).foldl
          (fun (st : Int × List Int) (i : Nat) =>
            (st.1 + filterY.getD j 0 * filterX.getD i 0
                * input.getD (s.readIndex posX posY iSizeX i j).toNat 0,
             st.2 ++ [s.readIndex posX posY iSizeX i j]))
          st)
    (0, [])

/-- The loop nest of `uint16 FrameScale::filter(uint16 *input, int *filterX, int *filterY,
int filterPrecision, ...)` (lines 367-376): as `filterLoop`, without the test of
`*pFilterY`. -/
def FrameScale.filterLoop16 (s : FrameScale) (input : List Int) (filterX filterY : List Int)
    (posX posY : Int) (iSizeX : Nat) : Int × List Int :=
  (List.range s.m_filterTapsY).foldl
    (fun (st : Int × List Int) (j : Nat) =>
      (List.range s.m_filterTapsX).foldl
        (fun (st : Int × List Int) (i : Nat) =>
          (st.1 + filterY.getD j 0 * filterX.getD i 0
              * input.getD (s.readIndex posX posY iSizeX i j).toNat 0,
           st.2 ++ [s.readIndex posX posY iSizeX i j]))
        st)
    (0, [])

/-- The rounding shift and the clip that end both integer per-sample filters
(lines 302-306 and 379-383): `result += ((int64) 1 << (2 * filterPrecision - 1));
result >>= (2 * filterPrecision);` and `iClip((int) result, vMin, vMax)`, before the
conversion to the return type.  In C the two shifts are defined for
`1 <= filterPrecision <= 31` only. -/
def roundShiftClip (result : Int) (filterPrecision : Nat) (vMin vMax : Int) : Int :=
  let result := result + (1 : Int) * 2 ^ (2 * filterPrecision - 1)
  let result := result >>> (2 * filterPrecision)
  iClip (toInt32 result) vMin vMax

/-- The function `imgpel FrameScale::filter(imgpel *input, int *filterX, int *filterY,
int filterPrecision, int posX, int posY, int iSizeX, int vMin, int vMax)` (lines 282-307). -/
def FrameScale.filter (s : FrameScale) (input : List Int) (filterX filterY : List Int)
    (filterPrecision : Nat) (posX posY : Int) (iSizeX : Nat) (vMin vMax : Int) : Int :=
  toImgpel
    (roundShiftClip (s.filterLoop input filterX filterY posX posY iSizeX).1 filterPrecision
      vMin vMax)

/-- The indices of `input` read by the call of `FrameScale.filter`, in the order of the
reads. -/
def FrameScale.filterReads (s : FrameScale) (input : List Int) (filterX filterY : List Int)
    (posX posY : Int) (iSizeX : Nat) : List Int :=
  (s.filterLoop input filterX filterY posX posY iSizeX).2

/-- The function `uint16 FrameScale::filter(uint16 *input, int *filterX, int *filterY,
int filterPrecision, int posX, int posY, int iSizeX, int vMin, int vMax)` (lines 359-384). -/
def FrameScale.filter16 (s : FrameScale) (input : List Int) (filterX filterY : List Int)
    (filterPrecision : Nat) (posX posY : Int) (iSizeX : Nat) (vMin vMax : Int) : Int :=
  toUint16
    (roundShiftClip (s.filterLoop16 input filterX filterY posX posY iSizeX).1 filterPrecision
      vMin vMax)

/-- The indices of `input` read by the call of `FrameScale.filter16`. -/
def FrameScale.filterReads16 (s : FrameScale) (input : List Int) (filterX filterY : List Int)
    (posX posY : Int) (iSizeX : Nat) : List Int :=
  (s.filterLoop16 input filterX filterY posX posY iSizeX).2

/-- The function `imgpel FrameScale::filter(imgpel *input, double *filterX, double *filterY, int posX,
int posY, int iSizeX, int vMin, int vMax)` (lines 309-331), the floating path. -/
def FrameScale.filterDouble (s : FrameScale) (input : List Int) (filterX filterY : List ℚ)
    (posX posY : Int) (iSizeX : Nat) (vMin vMax : Int) : Int :=
  let result : ℚ :=
    (List.range s.m_filterTapsY).foldl
      (fun (result : ℚ) (j : Nat) =>
        (List.range s.m_filterTapsX).foldl
          (fun (result : ℚ) (i : Nat) =>
            let value : ℚ := filterY.getD j 0 * filterX.getD i 0
            let value : ℚ :=
              value * ((input.getD (s.readIndex posX posY iSizeX i j).toNat 0 : Int) : ℚ)
            result + value)
          result)
      0
  toImgpel (iClip (truncToInt (result + 1 / 2)) vMin vMax)

/-! ## `FrameScale::filter`, a whole plane -/

/-- The function `void FrameScale::filter(imgpel *input, imgpel *output, int iSizeX, int iSizeY,
int oSizeX, int oSizeY, int vMin, int vMax, int iFilter)` (lines 480-521).  Returns the
scaler, whose members `m_iMaxX` and `m_iMaxY` the call assigns, and the output plane. -/
def FrameScale.filterPlane (s : FrameScale) (input output : List Int) (iSizeX iSizeY : Nat)
    (oSizeX oSizeY : Nat) (vMin vMax : Int) (iFilter : Int) : FrameScale × List Int :=
  let s : FrameScale := { s with m_iMaxX := (iSizeX : Int) - 1, m_iMaxY := (iSizeY : Int) - 1 }
  let r : List Int × Nat :=
    (List.range oSizeY).foldl
      (fun (st : List Int × Nat) (y : Nat) =>
        let origY : Int := truncToInt ((y : ℚ) * s.m_factorY)
        let row : List Int × Nat :=
          (List.range oSizeX).foldl
            (fun (st2 : List Int × Nat) (x : Nat) =>
              let origX : Int := truncToInt ((x : ℚ) * s.m_factorX)
              let v : Int :=
                if iFilter = 0 then
                  s.filterDouble input (s.m_filterCoeffsX.drop st2.2)
                    (s.m_filterCoeffsY.drop st.2) origX origY iSizeX vMin vMax
                else
                  s.filter input (s.m_filterIntCoeffsX.drop st2.2)
                    (s.m_filterIntCoeffsY.drop st.2) s.m_filterPrecision origX origY iSizeX
                    vMin vMax
              (st2.1.set (oSizeX * y + x) v, st2.2 + s.m_filterTapsX))
            (st.1, 0)
        (row.1, st.2 + s.m_filterTapsY))
      (output, 0)
  (s, r.1)

/-! ## Definitions used to state the results -/

/-- A loop that stores `g t` at `index + t` for `t = 0 .. n-1`. -/
def writeLoop {α : Type} (g : Nat → α) (index n : Nat) (l : List α) : List α :=
  (List.range n).foldl (fun (b : List α) (t : Nat) => b.set (index + t) (g t)) l

/-- Pre-normalisation weight sum of row `x`: the value of `coeffSum` after the first inner
loop of `PrepareFilterCoefficients`. -/
def rowCoeffSum (FilterTap : ℚ → ℚ → ℚ → Int → ℚ) (filterOffsets : List Int) (factor : ℚ)
    (filterTaps : Nat) (offset : ℚ) (lobes : Int) (x : Nat) : ℚ :=
  ∑ j ∈ Finset.range filterTaps,
    tapWeight FilterTap filterOffsets factor (HDR_PI / (lobes : ℚ)) lobes
      (phase factor offset x) j

/-- The rounded coefficient of tap `t` of row `x`: the value the third inner loop stores. -/
def roundedTap (FilterTap : ℚ → ℚ → ℚ → Int → ℚ) (filterOffsets : List Int) (factor : ℚ)
    (filterTaps : Nat) (offset pi : ℚ) (lobes : Int) (scale : Int) (x t : Nat) : Int :=
  double2int
    (tapWeight FilterTap filterOffsets factor pi lobes (phase factor offset x) t
        / (∑ j ∈ Finset.range filterTaps,
            tapWeight FilterTap filterOffsets factor pi lobes (phase factor offset x) j)
      * (scale : ℚ))

/-- The exact sum `S` over all tap pairs `(i, j)` of `filterY[j] * filterX[i] *
input[iSizeX * clamp(posY + offsetsY[j], 0, iMaxY) + clamp(posX + offsetsX[i], 0, iMaxX)]`. -/
def FrameScale.tapSum (s : FrameScale) (input filterX filterY : List Int) (posX posY : Int)
    (iSizeX : Nat) : Int :=
  ∑ j ∈ Finset.range s.m_filterTapsY, ∑ i ∈ Finset.range s.m_filterTapsX,
    filterY.getD j 0 * filterX.getD i 0
      * input.getD ((iSizeX : Int) * iClip (posY + s.m_filterOffsetsY.getD j 0) 0 s.m_iMaxY
          + iClip (posX + s.m_filterOffsetsX.getD i 0) 0 s.m_iMaxX).toNat 0

/-- The rounded quotient `floor((S + 2^(2p-1)) / 2^(2p))`. -/
def roundedShift (S : Int) (p : Nat) : Int :=
  ⌊((S : ℚ) + (2 : ℚ) ^ ((2 * p : ℤ) - 1)) / (2 : ℚ) ^ (2 * p)⌋

/-- The term that tap `(i, j)` adds to `result`. -/
def tapTerm (s : FrameScale) (input : List Int) (filterX filterY : List Int)
    (posX posY : Int) (iSizeX : Nat) (i j : Nat) : Int :=
  filterY.getD j 0 * filterX.getD i 0
    * input.getD (s.readIndex posX posY iSizeX i j).toNat 0

/-! ## The other per-sample filters -/

/-- Modelled from the spec: `i64ShiftRightRound` of `Global.H` (not among the sources), the
rounding right shift of a 64-bit value: the bias `1 << (a - 1)` is added before the shift
by `a` bits. -/
def i64ShiftRightRound (x : Int) (a : Nat) : Int := (x + (1 : Int) * 2 ^ (a - 1)) >>> a

/-- The function `uint16 FrameScale::filter(uint16 *input, double *filterX, double *filterY,
int posX, int posY, int iSizeX, int vMin, int vMax)` (lines 406-426), the floating path for
16-bit samples. -/
def FrameScale.filterDouble16 (s : FrameScale) (input : List Int) (filterX filterY : List ℚ)
    (posX posY : Int) (iSizeX : Nat) (vMin vMax : Int) : Int :=
  let result : ℚ :=
    (List.range s.m_filterTapsY).foldl
      (fun (result : ℚ) (j : Nat) =>
        (List.range s.m_filterTapsX).foldl
          (fun (result : ℚ) (i : Nat) =>
            result + filterY.getD j 0 * filterX.getD i 0
              * ((input.getD (s.readIndex posX posY iSizeX i j).toNat 0 : Int) : ℚ))
          result)
      0
  toUint16 (iClip (truncToInt (result + 1 / 2)) vMin vMax)

/-- The function `uint16 FrameScale::filter(uint16 *input, int *filterX, int *filterY,
int filterTapsX, int filterTapsY, int *filterOffsetsX, int *filterOffsetsY, int posX,
int posY, int iSizeX, int vMin, int vMax)` (lines 428-457): the taps and the offsets are
arguments, the result is rounded by a shift of 28 bits. -/
def FrameScale.filterTaps16 (s : FrameScale) (input : List Int) (filterX filterY : List Int)
    (filterTapsX filterTapsY : Nat) (filterOffsetsX filterOffsetsY : List Int)
    (posX posY : Int) (iSizeX : Nat) (vMin vMax : Int) : Int :=
  let result : Int :=
    (List.range filterTapsY).foldl
      (fun (result : Int) (j : Nat) =>
        let yPos : Int := (iSizeX : Int) * iClip (posY + filterOffsetsY.getD j 0) 0 s.m_iMaxY
        (List.range filterTapsX).foldl
          (fun (result : Int) (i : Nat) =>
            result + filterY.getD j 0 * filterX.getD i 0
              * input.getD (yPos + iClip (posX + filterOffsetsX.getD i 0) 0 s.m_iMaxX).toNat 0)
          result)
      0
  toUint16 (iClip (toInt32 (i64ShiftRightRound result 28)) vMin vMax)

/-- The function `imgpel FrameScale::filter(imgpel *input, int *filterX, int *filterY,
int filterTapsX, int filterTapsY, int *filterOffsetsX, int *filterOffsetsY, int posX,
int posY, int iSizeX, int vMin, int vMax)` (lines 333-357): as `filterTaps16`, for 8-bit
samples. -/
def FrameScale.filterTaps8 (s : FrameScale) (input : List Int) (filterX filterY : List Int)
    (filterTapsX filterTapsY : Nat) (filterOffsetsX filterOffsetsY : List Int)
    (posX posY : Int) (iSizeX : Nat) (vMin vMax : Int) : Int :=
  let result : Int :=
    (List.range filterTapsY).foldl
      (fun (result : Int) (j : Nat) =>
        let yPos : Int := (iSizeX : Int) * iClip (posY + filterOffsetsY.getD j 0) 0 s.m_iMaxY
        (List.range filterTapsX).foldl
          (fun (result : Int) (i : Nat) =>
            result + filterY.getD j 0 * filterX.getD i 0
              * input.getD (yPos + iClip (posX + filterOffsetsX.getD i 0) 0 s.m_iMaxX).toNat 0)
          result)
      0
  toImgpel (iClip (toInt32 (i64ShiftRightRound result 28)) vMin vMax)

/-- The function `uint16 FrameScale::filter(uint16 *input, double *filterX, int *offsetX,
int tapsX, int maxX, double *filterY, int *offsetY, int tapsY, int maxY, int posX,
int posY, int iSizeX, int vMin, int vMax, int scale)` (lines 386-404).  The accumulator
`result` is an `int64`: every `result += ...` converts the double sum back to an integer.
The last line is `(uint16) (iClip((int) (result + scale / 2) / scale, vMin, vMax))`: the
sum is converted to `int` and then divided, with the division of C, which truncates. -/
def FrameScale.filterScale16 (input : List Int) (filterX : List ℚ) (offsetX : List Int)
    (tapsX : Nat) (maxX : Int) (filterY : List ℚ) (offsetY : List Int) (tapsY : Nat)
    (maxY : Int) (posX posY : Int) (iSizeX : Nat) (vMin vMax : Int) (scale : Int) : Int :=
  let result : Int :=
    (List.range tapsY).foldl
      (fun (result : Int) (j : Nat) =>
        let yPos : Int := (iSizeX : Int) * iClip (posY + offsetY.getD j 0) 0 maxY
        (List.range tapsX).foldl
          (fun (result : Int) (i : Nat) =>
            truncToInt ((result : ℚ) + filterY.getD j 0 * filterX.getD i 0
              * ((input.getD (yPos + iClip (posX + offsetX.getD i 0) 0 maxX).toNat 0 : Int) : ℚ)))
          result)
      0
  toUint16 (iClip (Int.tdiv (toInt32 (result + Int.tdiv scale 2)) scale) vMin vMax)

/-- The function `float FrameScale::filter(float *input, double *filterX, double *filterY,
int posX, int posY, int iSizeX, double vMin, double vMax)` (lines 459-478).  The last line
of the source is `return (float) result; //(dClip(result, vMin, vMax));`. -/
def FrameScale.filterFloat (s : FrameScale) (input : List ℚ) (filterX filterY : List ℚ)
    (posX posY : Int) (iSizeX : Nat) (vMin vMax : ℚ) : ℚ :=
  let result : ℚ :=
    (List.range s.m_filterTapsY).foldl
      (fun (result : ℚ) (j : Nat) =>
        (List.range s.m_filterTapsX).foldl
          (fun (result : ℚ) (i : Nat) =>
            result + filterY.getD j 0 * filterX.getD i 0
              * input.getD (s.readIndex posX posY iSizeX i j).toNat 0)
          result)
      0
  result

/-! ## The other plane-level filters -/

/-- The function `void FrameScale::filter(uint16 *input, uint16 *output, int iSizeX,
int iSizeY, int oSizeX, int oSizeY, int vMin, int vMax)` (lines 609-633). -/
def FrameScale.filterPlane16 (s : FrameScale) (input output : List Int) (iSizeX iSizeY : Nat)
    (oSizeX oSizeY : Nat) (vMin vMax : Int) : FrameScale × List Int :=
  let s : FrameScale := { s with m_iMaxX := (iSizeX : Int) - 1, m_iMaxY := (iSizeY : Int) - 1 }
  let r : List Int × Nat :=
    (List.range oSizeY).foldl
      (fun (st : List Int × Nat) (y : Nat) =>
        let origY : Int := truncToInt ((y : ℚ) * s.m_factorY)
        let row : List Int × Nat :=
          (List.range oSizeX).foldl
            (fun (st2 : List Int × Nat) (x : Nat) =>
              let origX : Int := truncToInt ((x : ℚ) * s.m_factorX)
              (st2.1.set (oSizeX * y + x)
                (s.filterDouble16 input (s.m_filterCoeffsX.drop st2.2)
                  (s.m_filterCoeffsY.drop st.2) origX origY iSizeX vMin vMax),
               st2.2 + s.m_filterTapsX))
            (st.1, 0)
        (row.1, st.2 + s.m_filterTapsY))
      (output, 0)
  (s, r.1)

/-- The function `void FrameScale::filter(uint16 *input, uint16 *output, int iSizeX,
int iSizeY, int oSizeX, int oSizeY, int vMin, int vMax, bool isChroma)` (lines 635-696). -/
def FrameScale.filterPlane16Chroma (s : FrameScale) (input output : List Int)
    (iSizeX iSizeY : Nat) (oSizeX oSizeY : Nat) (vMin vMax : Int) (isChroma : Bool) :
    FrameScale × List Int :=
  let s : FrameScale := { s with m_iMaxX := (iSizeX : Int) - 1, m_iMaxY := (iSizeY : Int) - 1 }
  let r : List Int × Nat :=
    if isChroma then
      (List.range oSizeY).foldl
        (fun (st : List Int × Nat) (y : Nat) =>
          let origY : Int := truncToInt ((y : ℚ) * s.m_factorY)
          let row : List Int × Nat :=
            (List.range oSizeX).foldl
              (fun (st2 : List Int × Nat) (x : Nat) =>
                let origX : Int := truncToInt ((x : ℚ) * s.m_factorX)
                (st2.1.set (oSizeX * y + x)
                  (s.filterTaps16 input (s.m_chromaFilterIntCoeffsX.drop st2.2)
                    (s.m_chromaFilterIntCoeffsY.drop st.2) s.m_chromaFilterTapsX
                    s.m_chromaFilterTapsY (s.m_chromaFilterOffsetsX.drop st2.2)
                    (s.m_chromaFilterOffsetsY.drop st.2) origX origY iSizeX vMin vMax),
                 st2.2 + s.m_chromaFilterTapsX))
              (st.1, 0)
          (row.1, st.2 + s.m_chromaFilterTapsY))
        (output, 0)
    else
      (List.range oSizeY).foldl
        (fun (st : List Int × Nat) (y : Nat) =>
          let origY : Int := truncToInt ((y : ℚ) * s.m_factorY)
          let row : List Int × Nat :=
            (List.range oSizeX).foldl
              (fun (st2 : List Int × Nat) (x : Nat) =>
                let origX : Int := truncToInt ((x : ℚ) * s.m_factorX)
                (st2.1.set (oSizeX * y + x)
                  (s.filterTaps16 input (s.m_filterIntCoeffsX.drop st2.2)
                    (s.m_filterIntCoeffsY.drop st.2) s.m_filterTapsX s.m_filterTapsY
                    (s.m_filterOffsetsX.drop st2.2) (s.m_filterOffsetsY.drop st.2) origX origY
                    iSizeX vMin vMax),
                 st2.2 + s.m_filterTapsX))
              (st.1, 0)
          (row.1, st.2 + s.m_filterTapsY))
        (output, 0)
  (s, r.1)

/-- The function `void FrameScale::filter(float *input, float *output, int iSizeX,
int iSizeY, int oSizeX, int oSizeY, double vMin, double vMax)` (lines 699-723). -/
def FrameScale.filterPlaneFloat (s : FrameScale) (input output : List ℚ) (iSizeX iSizeY : Nat)
    (oSizeX oSizeY : Nat) (vMin vMax : ℚ) : FrameScale × List ℚ :=
  let s : FrameScale := { s with m_iMaxX := (iSizeX : Int) - 1, m_iMaxY := (iSizeY : Int) - 1 }
  let r : List ℚ × Nat :=
    (List.range oSizeY).foldl
      (fun (st : List ℚ × Nat) (y : Nat) =>
        let origY : Int := truncToInt ((y : ℚ) * s.m_factorY + s.m_offsetY)
        let row : List ℚ × Nat :=
          (List.range oSizeX).foldl
            (fun (st2 : List ℚ × Nat) (x : Nat) =>
              let origX : Int := truncToInt ((x : ℚ) * s.m_factorX + s.m_offsetX)
              (st2.1.set (oSizeX * y + x)
                (s.filterFloat input (s.m_filterCoeffsX.drop st2.2)
                  (s.m_filterCoeffsY.drop st.2) origX origY iSizeX vMin vMax),
               st2.2 + s.m_filterTapsX))
            (st.1, 0)
        (row.1, st.2 + s.m_filterTapsY))
      (output, 0)
  (s, r.1)

/-! ## `FrameScale::create` -/

/-- Modelled from the spec: the scaling modes, an enumeration declared in a header that is
not among the sources.  The constructors with a name are the case labels of
`FrameScale::create`; `other` stands for every other value of `m_mode`. -/
inductive ScalingMode where
  | SC_NULL
  | SC_NN
  | SC_LINEAR
  | SC_BILINEAR
  | SC_LANCZOS
  | SC_HANNING
  | SC_HAMMING
  | SC_SINWINDOW
  | SC_GAUSSIAN
  | SC_BICUBIC
  | SC_SHVC
  | SC_LANCZOS_INT
  | SC_LANCZOS_CTC
  | other (code : Int)
  deriving DecidableEq

/-- The members of `FrameScaleParams` that `FrameScale::create` reads. -/
structure FrameScaleParams where
  m_mode : ScalingMode
  m_lanczosLobes : Int
  deriving DecidableEq

/-- The scaler that `FrameScale::create` constructs: the class and the arguments of its
constructor. -/
inductive Scaler where
  | FrameScaleNull
  | FrameScaleCopy (iWidth iHeight oWidth oHeight : Int)
  | FrameScaleNN (iWidth iHeight oWidth oHeight : Int)
  | FrameScaleHalf (iWidth iHeight : Int) (filter : Int) (chromaLocationType : Int)
      (useMinMax : Int)
  | FrameScaleBilinear (iWidth iHeight oWidth oHeight : Int)
  | FrameScaleLanczos (iWidth iHeight oWidth oHeight : Int) (lobes : Int)
      (chromaLocationType : Int)
  | FrameScaleHanning (iWidth iHeight oWidth oHeight : Int) (lobes : Int)
      (chromaLocationType : Int)
  | FrameScaleHamming (iWidth iHeight oWidth oHeight : Int) (lobes : Int)
      (chromaLocationType : Int)
  | FrameScaleSineWindow (iWidth iHeight oWidth oHeight : Int) (lobes : Int)
      (chromaLocationType : Int)
  | FrameScaleGaussian (iWidth iHeight oWidth oHeight : Int) (lobes : Int)
      (chromaLocationType : Int)
  | FrameScaleBiCubic (iWidth iHeight oWidth oHeight : Int)
  | FrameScaleSHVC (iWidth iHeight oWidth oHeight : Int)
  | FrameScaleLanczosInt (iWidth iHeight oWidth oHeight : Int) (lobes : Int)
      (chromaLocationType : Int) (offset : Int) (precision : Int)
  | FrameScaleLanczosCTC (iWidth iHeight oWidth oHeight : Int)
  deriving DecidableEq

/-- The outcome of a call of `FrameScale::create`: the process ends in
`exit(EXIT_FAILURE)` after the message "Unsupported Scaling mode", or the call returns a
scaler. -/
inductive CreateResult where
  | exitFailure (mode : ScalingMode)
  | returns (result : Scaler)
  deriving DecidableEq

/-- The function `FrameScale::create` (lines 221-280); `params = none` is `params == NULL`. -/
def FrameScale.create (iWidth iHeight oWidth oHeight : Int) (params : Option FrameScaleParams)
    (filter : Int) (chromaLocationType : Int) (useMinMax : Int) : CreateResult :=
  match params with
  | none => CreateResult.returns Scaler.FrameScaleNull
  | some params =>
    if iWidth = oWidth ∧ iHeight = oHeight then CreateResult.returns Scaler.FrameScaleNull
    else
      match params.m_mode with
      | ScalingMode.SC_NULL =>
        CreateResult.returns (Scaler.FrameScaleCopy iWidth iHeight oWidth oHeight)
      | ScalingMode.SC_NN =>
        CreateResult.returns (Scaler.FrameScaleNN iWidth iHeight oWidth oHeight)
      | ScalingMode.SC_LINEAR =>
        if iWidth = 2 * oWidth ∧ iHeight = 2 * oHeight then
          CreateResult.returns
            (Scaler.FrameScaleHalf iWidth iHeight filter chromaLocationType useMinMax)
        else CreateResult.returns (Scaler.FrameScaleBilinear iWidth iHeight oWidth oHeight)
      | ScalingMode.SC_BILINEAR =>
        CreateResult.returns (Scaler.FrameScaleBilinear iWidth iHeight oWidth oHeight)
      | ScalingMode.SC_LANCZOS =>
        CreateResult.returns
          (Scaler.FrameScaleLanczos iWidth iHeight oWidth oHeight params.m_lanczosLobes
            chromaLocationType)
      | ScalingMode.SC_HANNING =>
        CreateResult.returns
          (Scaler.FrameScaleHanning iWidth iHeight oWidth oHeight params.m_lanczosLobes
            chromaLocationType)
      | ScalingMode.SC_HAMMING =>
        CreateResult.returns
          (Scaler.FrameScaleHamming iWidth iHeight oWidth oHeight params.m_lanczosLobes
            chromaLocationType)
      | ScalingMode.SC_SINWINDOW =>
        CreateResult.returns
          (Scaler.FrameScaleSineWindow iWidth iHeight oWidth oHeight params.m_lanczosLobes
            chromaLocationType)
      | ScalingMode.SC_GAUSSIAN =>
        CreateResult.returns
          (Scaler.FrameScaleGaussian iWidth iHeight oWidth oHeight params.m_lanczosLobes
            chromaLocationType)
      | ScalingMode.SC_BICUBIC =>
        CreateResult.returns (Scaler.FrameScaleBiCubic iWidth iHeight oWidth oHeight)
      | ScalingMode.SC_SHVC =>
        CreateResult.returns (Scaler.FrameScaleSHVC iWidth iHeight oWidth oHeight)
      | ScalingMode.SC_LANCZOS_INT =>
        CreateResult.returns
          (Scaler.FrameScaleLanczosInt iWidth iHeight oWidth oHeight params.m_lanczosLobes
            chromaLocationType 0 14)
      | ScalingMode.SC_LANCZOS_CTC =>
        CreateResult.returns (Scaler.FrameScaleLanczosCTC iWidth iHeight oWidth oHeight)
      | ScalingMode.other code => CreateResult.exitFailure (ScalingMode.other code)

/-! ## `FrameScaleGaussian::process` -/

/-- Modelled from the spec: the members of `Frame` (declared in `Frame.H`, not among the
sources) that `process` reads or writes.  The lists indexed by a colour component have one
entry for each of `Y_COMP`, `U_COMP` and `V_COMP` (0, 1, 2). -/
structure Frame where
  m_isFloat : Bool := false
  m_bitDepth : Int := 8
  m_frameNo : Int := 0
  m_isAvailable : Bool := false
  m_minPelValue : List Int := [0, 0, 0]
  m_midPelValue : List Int := [0, 0, 0]
  m_maxPelValue : List Int := [0, 0, 0]
  m_width : List Nat := [0, 0, 0]
  m_height : List Nat := [0, 0, 0]
  m_comp : List (List Int) := [[], [], []]
  m_ui16Comp : List (List Int) := [[], [], []]
  m_floatComp : List (List ℚ) := [[], [], []]

/-- The method `FrameScaleGaussian::process` (FrameScaleGaussian.cpp, lines 147-180).  The
result is `none` when the call ends in `exit(EXIT_FAILURE)`, otherwise the scaler and the
output frame after the call.  The call for 16-bit data has nine arguments, the last one the
literal `1`: of the overloads for `uint16` planes in FrameScale.cpp only the one with
`bool isChroma` takes nine arguments. -/
def FrameScaleGaussian.process (s : FrameScale) (out inp : Frame) :
    Option (FrameScale × Frame) :=
  if out.m_isFloat ≠ inp.m_isFloat ∨ (inp.m_isFloat = false ∧ out.m_bitDepth ≠ inp.m_bitDepth)
  then none
  else
    let out : Frame := { out with m_frameNo := inp.m_frameNo, m_isAvailable := true }
    let out : Frame :=
      (List.range 3).foldl
        (fun (out : Frame) (c : Nat) =>
          { out with
            m_minPelValue := out.m_minPelValue.set c (inp.m_minPelValue.getD c 0),
            m_midPelValue := out.m_midPelValue.set c (inp.m_midPelValue.getD c 0),
            m_maxPelValue := out.m_maxPelValue.set c (inp.m_maxPelValue.getD c 0) })
        out
    if out.m_isFloat = true then
      some ((List.range 3).foldl
        (fun (st : FrameScale × Frame) (c : Nat) =>
          let r := st.1.filterPlaneFloat (inp.m_floatComp.getD c []) (st.2.m_floatComp.getD c [])
            (inp.m_width.getD c 0) (inp.m_height.getD c 0) (st.2.m_width.getD c 0)
            (st.2.m_height.getD c 0) ((st.2.m_minPelValue.getD c 0 : Int) : ℚ)
            ((st.2.m_maxPelValue.getD c 0 : Int) : ℚ)
          (r.1, { st.2 with m_floatComp := st.2.m_floatComp.set c r.2 }))
        (s, out))
    else if out.m_bitDepth = 8 then
      some ((List.range 3).foldl
        (fun (st : FrameScale × Frame) (c : Nat) =>
          let r := st.1.filterPlane (inp.m_comp.getD c []) (st.2.m_comp.getD c [])
            (inp.m_width.getD c 0) (inp.m_height.getD c 0) (st.2.m_width.getD c 0)
            (st.2.m_height.getD c 0) (st.2.m_minPelValue.getD c 0)
            (st.2.m_maxPelValue.getD c 0) 1
          (r.1, { st.2 with m_comp := st.2.m_comp.set c r.2 }))
        (s, out))
    else
      some ((List.range 3).foldl
        (fun (st : FrameScale × Frame) (c : Nat) =>
          let r := st.1.filterPlane16Chroma (inp.m_ui16Comp.getD c [])
            (st.2.m_ui16Comp.getD c []) (inp.m_width.getD c 0) (inp.m_height.getD c 0)
            (st.2.m_width.getD c 0) (st.2.m_height.getD c 0) (st.2.m_minPelValue.getD c 0)
            (st.2.m_maxPelValue.getD c 0) true
          (r.1, { st.2 with m_ui16Comp := st.2.m_ui16Comp.set c r.2 }))
        (s, out))

/-- All members of the scaler `r` other than `m_iMaxX` and `m_iMaxY` (and the members of
the chroma filter) equal those of `s`: coefficient tables, tap counts, tap offsets, scale
factors, offsets, precision and the limits `iMin`, `oMin`, `oMax`. -/
def FrameScale.sameButMax (r s : FrameScale) : Prop :=
  r.m_filterCoeffsX = s.m_filterCoeffsX ∧ r.m_filterCoeffsY = s.m_filterCoeffsY ∧
  r.m_filterIntCoeffsX = s.m_filterIntCoeffsX ∧
  r.m_filterIntCoeffsY = s.m_filterIntCoeffsY ∧
  r.m_filterTapsX = s.m_filterTapsX ∧ r.m_filterTapsY = s.m_filterTapsY ∧
  r.m_filterOffsetsX = s.m_filterOffsetsX ∧ r.m_filterOffsetsY = s.m_filterOffsetsY ∧
  r.m_factorX = s.m_factorX ∧ r.m_factorY = s.m_factorY ∧
  r.m_offsetX = s.m_offsetX ∧ r.m_offsetY = s.m_offsetY ∧
  r.m_filterPrecision = s.m_filterPrecision ∧
  r.m_iMinX = s.m_iMinX ∧ r.m_iMinY = s.m_iMinY ∧
  r.m_oMinX = s.m_oMinX ∧ r.m_oMinY = s.m_oMinY ∧
  r.m_oMaxX = s.m_oMaxX ∧ r.m_oMaxY = s.m_oMaxY

/-! ## The first overload of `PrepareFilterCoefficients` -/

/-- The kernel weight of tap `t` in the overload
`PrepareFilterCoefficients(factorCoeffs, filterOffsets, factor, filterTaps, offset, oSize)`
(lines 95-102), whose `FilterTap` takes the distance only. -/
def tapWeightBasic (FilterTap : ℚ → ℚ) (filterOffsets : List Int) (factor : ℚ) (off : ℚ)
    (t : Nat) : ℚ :=
  let dist : ℚ :=
    if factor ≤ 1 then dAbs ((filterOffsets.getD t 0 : Int) - off)
    else dAbs (-((filterOffsets.getD t 0 : Int) : ℚ) + off)
  FilterTap dist

/-- First inner loop of the first overload (lines 94-105). -/
def tapLoopBasic (FilterTap : ℚ → ℚ) (filterOffsets : List Int) (factor : ℚ)
    (filterTaps : Nat) (off : ℚ) (index : Nat) (factorCoeffs : List ℚ) : List ℚ × ℚ :=
  (List.range filterTaps).foldl
    (fun (st : List ℚ × ℚ) (t : Nat) =>
      let w := tapWeightBasic FilterTap filterOffsets factor off t
      (st.1.set (index + t) w, st.2 + w))
    (factorCoeffs, 0)

/-- The overload `FrameScale::PrepareFilterCoefficients(factorCoeffs, filterOffsets, factor,
filterTaps, offset, oSize)` (lines 82-111). -/
def PrepareFilterCoefficientsBasic (FilterTap : ℚ → ℚ) (factorCoeffs : List ℚ)
    (filterOffsets : List Int) (factor : ℚ) (filterTaps : Nat) (offset : ℚ) (oSize : Nat) :
    List ℚ :=
  (List.range oSize).foldl
    (fun (fc : List ℚ) (x : Nat) =>
      let index := x * filterTaps
      let off := phase factor offset x
      let r := tapLoopBasic FilterTap filterOffsets factor filterTaps off index fc
      normLoop filterTaps index r.2 r.1)
    factorCoeffs

/-! ## The indices of the tables that `PrepareFilterCoefficients` touches -/

/-- The indices of `factorCoeffs` that row `x` of `PrepareFilterCoefficients` (the overload
that fills the integer table) writes and reads, in the order of the accesses: the first
inner loop (lines 161-171), the second (lines 172-174) and the reads of the third
(line 178), each at `tapIndex = index .. index + filterTaps - 1`. -/
def floatRowAccesses (filterTaps : Nat) (x : Nat) : List Nat :=
  let index := x * filterTaps
  (List.range filterTaps).map (fun t => index + t)
    ++ (List.range filterTaps).map (fun t => index + t)
    ++ (List.range filterTaps).map (fun t => index + t)

/-- The indices of `iFactorCoeffs` that row `x` of `PrepareFilterCoefficients` writes and
reads: the third inner loop at `tapIndex = index .. index + filterTaps - 1`
(lines 177-180), then the update
`iFactorCoeffs[index + ((filterTaps + 1) >> 1)] += (scale - coeffSum)` (line 182). -/
def intRowAccesses (filterTaps : Nat) (x : Nat) : List Nat :=
  let index := x * filterTaps
  (List.range filterTaps).map (fun t => index + t) ++ [index + ((filterTaps + 1) >>> 1)]

/-- All indices of `factorCoeffs` touched by a call of `PrepareFilterCoefficients` with
`oSize` rows (the outer loop of line 156). -/
def floatTableAccesses (filterTaps oSize : Nat) : List Nat :=
  (List.range oSize).foldl (fun (acc : List Nat) (x : Nat) => acc ++ floatRowAccesses filterTaps x)
    []

/-- All indices of `iFactorCoeffs` touched by a call of `PrepareFilterCoefficients` with
`oSize` rows. -/
def intTableAccesses (filterTaps oSize : Nat) : List Nat :=
  (List.range oSize).foldl (fun (acc : List Nat) (x : Nat) => acc ++ intRowAccesses filterTaps x)
    []

/-! ## `OutputPGM`: the image data of a PGM file -/

/-- The two functions that `allocateMemory` can store in `m_pgm.setU16`. -/
inductive U16Setter where
  | setU16
  | setSwappedU16
  deriving DecidableEq

/-- The members of `PGraphics` (declared in `OutputPGM.H`) that the functions below read or
write.  `img` is the image buffer as the code reads it, through a `uint16 *`;
`fileInMemory` is the byte buffer and `mp` the position of the write pointer in it. -/
structure PGraphics where
  m_height : Nat := 0
  m_width : Nat := 0
  BitsPerSample : List Nat := [0, 0, 0]
  le : Int := 0
  img : List Nat := []
  fileInMemory : List Nat := []
  mp : Nat := 0
  setU16 : U16Setter := U16Setter.setU16

/-- The members of `FrameFormat` that `allocateMemory` reads. -/
structure FrameFormat where
  m_chromaFormat : Int := 0
  m_sampleRange : Int := 0
  m_height : List Nat := [0, 0, 0, 0]
  m_width : List Nat := [0, 0, 0, 0]
  m_bitDepthComp : List Nat := [0, 0, 0, 0]

/-- The members of `OutputPGM` that `allocateMemory` and `writeImageData` read or write. -/
structure OutputPGM where
  m_memoryAllocated : Bool := false
  m_chromaFormat : Int := 0
  m_height : List Nat := [0, 0, 0, 0]
  m_width : List Nat := [0, 0, 0, 0]
  m_compSize : List Nat := [0, 0, 0, 0]
  m_size : Nat := 0
  m_sampleRange : Int := 0
  m_bitDepthComp : List Nat := [0, 0, 0, 0]
  m_pgmSize : Nat := 0
  m_pgm : PGraphics := { }

/-- The object representation of a `uint16` on the host, as the bytes `pIn[0]`, `pIn[1]`
that `char *pIn = (char *) &in` reads: low byte first on a little-endian host, high byte
first on a big-endian one. -/
def objectBytes16 (machineLittleEndian : Bool) (v : Nat) : List Nat :=
  if machineLittleEndian then [v % 256, v / 256 % 256] else [v / 256 % 256, v % 256]

/-- The function `setU16` (OutputPGM.cpp, lines 120-127): stores `pIn[0]`, `pIn[1]` at the
write pointer and returns 2. -/
def setU16 (machineLittleEndian : Bool) (t : PGraphics) (v : Nat) : PGraphics × Nat :=
  let pIn := objectBytes16 machineLittleEndian v
  let t : PGraphics := { t with fileInMemory := t.fileInMemory.set t.mp (pIn.getD 0 0),
                                mp := t.mp + 1 }
  let t : PGraphics := { t with fileInMemory := t.fileInMemory.set t.mp (pIn.getD 1 0),
                                mp := t.mp + 1 }
  (t, 2)

/-- The function `setSwappedU16` (lines 158-165): stores `pIn[1]`, `pIn[0]` at the write
pointer and returns 2. -/
def setSwappedU16 (machineLittleEndian : Bool) (t : PGraphics) (v : Nat) : PGraphics × Nat :=
  let pIn := objectBytes16 machineLittleEndian v
  let t : PGraphics := { t with fileInMemory := t.fileInMemory.set t.mp (pIn.getD 1 0),
                                mp := t.mp + 1 }
  let t : PGraphics := { t with fileInMemory := t.fileInMemory.set t.mp (pIn.getD 0 0),
                                mp := t.mp + 1 }
  (t, 2)

/-- The call `t->setU16(t, in)` through the function pointer of `t`. -/
def PGraphics.callSetU16 (machineLittleEndian : Bool) (t : PGraphics) (v : Nat) :
    PGraphics × Nat :=
  match t.setU16 with
  | U16Setter.setU16 => hdrtoolslib.setU16 machineLittleEndian t v
  | U16Setter.setSwappedU16 => hdrtoolslib.setSwappedU16 machineLittleEndian t v

/-- The method `resize` of `std::vector`: keeps the first `n` elements and fills with 0. -/
def vectorResize (l : List Nat) (n : Nat) : List Nat :=
  l.take n ++ List.replicate (n - l.length) 0

/-- The function `OutputPGM::allocateMemory` (lines 323-428), for the members listed in
`OutputPGM`; `none` is the exit of line 329.  `machineLittleEndian` is the value the code
reads from the first byte of an `int` equal to 1; `CF_400` and `SR_SDI_SCALED` are
enumerators of headers that are not among the sources.  The image buffer of `m_pgmSize`
bytes holds `m_pgmSize / 2` cells of type `uint16`. -/
def OutputPGM.allocateMemory (machineLittleEndian : Bool) (CF_400 SR_SDI_SCALED : Int)
    (self : OutputPGM) (format : FrameFormat) : Option OutputPGM :=
  if format.m_chromaFormat ≠ CF_400 then none
  else
    let hY := format.m_height.getD 0 0
    let wY := format.m_width.getD 0 0
    let m_height : List Nat := [hY, 0, 0, 0]
    let m_width : List Nat := [wY, 0, 0, 0]
    let m_compSize : List Nat := [hY * wY, 0 * 0, 0 * 0, 0 * 0]
    let m_size : Nat := hY * wY + 0 * 0 + 0 * 0 + 0 * 0
    let m_sampleRange := format.m_sampleRange
    let bY : Nat :=
      if m_sampleRange = SR_SDI_SCALED ∧ format.m_bitDepthComp.getD 0 0 > 8 then 16
      else format.m_bitDepthComp.getD 0 0
    let bU : Nat :=
      if m_sampleRange = SR_SDI_SCALED ∧ format.m_bitDepthComp.getD 1 0 > 8 then 16
      else format.m_bitDepthComp.getD 1 0
    let bV : Nat :=
      if m_sampleRange = SR_SDI_SCALED ∧ format.m_bitDepthComp.getD 1 0 > 8 then 16
      else format.m_bitDepthComp.getD 2 0
    let BitsPerSample : List Nat :=
      [if bY > 8 then 16 else 8, if bU > 8 then 16 else 8, if bV > 8 then 16 else 8]
    let m_pgmSize : Nat := m_size * (if BitsPerSample.getD 0 0 > 8 then 2 else 1)
    let le : Int := 1
    let setter : U16Setter :=
      if le = (if machineLittleEndian then 1 else 0) then U16Setter.setSwappedU16
      else U16Setter.setU16
    some
      { self with
        m_memoryAllocated := true,
        m_chromaFormat := format.m_chromaFormat,
        m_height := m_height, m_width := m_width, m_compSize := m_compSize, m_size := m_size,
        m_sampleRange := m_sampleRange,
        m_bitDepthComp := [bY, bU, bV, format.m_bitDepthComp.getD 3 0],
        m_pgmSize := m_pgmSize,
        m_pgm :=
          { self.m_pgm with
            m_height := hY, m_width := wY,
            BitsPerSample := BitsPerSample,
            img := vectorResize self.m_pgm.img (m_pgmSize / 2),
            fileInMemory := vectorResize self.m_pgm.fileInMemory (m_size * 4),
            le := le, setU16 := setter, mp := 0 } }

/-- The function `OutputPGM::writeImageData` (lines 216-243), called with `t = &m_pgm`
(line 523).  Returns the object, whose `m_pgm.fileInMemory` the call fills, and
`byteCounter`. -/
def OutputPGM.writeImageData (machineLittleEndian : Bool) (self : OutputPGM) :
    OutputPGM × Nat :=
  let t := self.m_pgm
  if t.BitsPerSample.getD 0 0 = 8 then
    let r : List Nat × Nat :=
      (List.range (t.m_height * t.m_width)).foldl
        (fun (st : List Nat × Nat) (i : Nat) =>
          (st.1.set i (t.img.getD i 0 % 256), st.2 + 1))
        (t.fileInMemory, 0)
    ({ self with m_pgm := { t with fileInMemory := r.1 } }, r.2)
  else if t.BitsPerSample.getD 0 0 = 16 then
    let mp := t.mp
    let r : PGraphics × Nat :=
      (List.range (t.m_height * t.m_width)).foldl
        (fun (st : PGraphics × Nat) (i : Nat) =>
          let c := st.1.callSetU16 machineLittleEndian (st.1.img.getD i 0)
          (c.1, st.2 + c.2))
        (t, 0)
    ({ self with m_pgm := { r.1 with mp := mp } }, r.2)
  else (self, 0)

/-! ## `openFrameFile`: the name of a frame file -/

/-- The terminator of a C string. -/
def NUL : Char := Char.ofNat 0

/-- The C string held by a character buffer: the characters before the first `NUL`. -/
def cString (buf : List Char) : List Char := buf.takeWhile (fun c => c ≠ NUL)

/-- The function `strlen` of the C library on a character buffer. -/
def strlen (buf : List Char) : Nat := (cString buf).length

/-- The function `strncpy` of the C library: writes `n` characters to `dst`, those of the
string `src` followed by `NUL`s. -/
def strncpy (dst src : List Char) (n : Nat) : List Char :=
  (List.range n).foldl (fun (d : List Char) (i : Nat) => d.set i (src.getD i NUL)) dst

/-- The function `strncat` of the C library: appends at most `n` characters of the string
`src` to the string in `dst`, then a `NUL`. -/
def strncat (dst src : List Char) (n : Nat) : List Char :=
  let l := strlen dst
  let k := min n src.length
  let d := (List.range k).foldl (fun (d : List Char) (i : Nat) => d.set (l + i) (src.getD i NUL))
    dst
  d.set (l + k) NUL

/-- The conversions `%0*d` (`zeroPad`) and `%*d` of the C library's `printf` family for
the field width `width` and the value `value`; a negative width left-justifies. -/
def formatD (zeroPad : Bool) (width : Int) (value : Int) : List Char :=
  let sign : List Char := if value < 0 then ['-'] else []
  let digits : List Char := Nat.toDigits 10 value.natAbs
  let body := sign ++ digits
  if width < 0 then body ++ List.replicate (width.natAbs - body.length) ' '
  else if zeroPad then sign ++ List.replicate (width.toNat - body.length) '0' ++ digits
  else List.replicate (width.toNat - body.length) ' ' ++ body

/-- The string that `snprintf(outNumber, 16, ...)` leaves in the 16-character buffer: at
most 15 characters of the formatted number. -/
def snprintf16 (zeroPad : Bool) (width : Int) (value : Int) : List Char :=
  (formatD zeroPad width value).take 15

/-- The members of `IOVideo` that `openFrameFile` reads; `m_fHead` and `m_fTail` are the
strings held by the character arrays. -/
structure IOVideo where
  m_fHead : List Char := []
  m_fTail : List Char := []
  m_zeroPad : Bool := false
  m_numDigits : Int := 0
  m_fileNum : Int := 0

/-- Subtraction of two `size_t` values (64 bits), which wraps around below 0. -/
def sizeSub (a b : Nat) : Nat := (a + 2 ^ 64 - b % 2 ^ 64) % 2 ^ 64

/-- The function `OutputPGM::openFrameFile` (OutputPGM.cpp, lines 293-321).  `outFile` is
the caller's buffer of `outSize` characters; the result is the buffer after the call and
the returned `m_fileNum`. -/
def OutputPGM.openFrameFile (outputFile : IOVideo) (outFile : List Char)
    (FrameNumberInFile : Int) (outSize : Nat) : List Char × Int :=
  let length : Nat := outputFile.m_fHead.length
  let outFile := strncpy outFile outputFile.m_fHead outSize
  let outFile := outFile.set length NUL
  if outputFile.m_fTail.length ≠ 0 then
    let outNumber := snprintf16 outputFile.m_zeroPad outputFile.m_numDigits FrameNumberInFile
    let outFile := strncat outFile outNumber (sizeSub (strlen outFile) 1)
    let length := length + 16
    let outFile := outFile.set length NUL
    let outFile := strncat outFile outputFile.m_fTail (sizeSub (strlen outFile) 1)
    let length := length + outputFile.m_fTail.length
    let outFile := outFile.set length NUL
    (outFile, outputFile.m_fileNum)
  else (outFile, outputFile.m_fileNum)

/-- The function `InputJPEG::openFrameFile` (InputJPEG.cpp, lines 131-161), up to the call
of `fopen`: the result is the buffer `inFile` whose string is the name passed to `fopen`.
`inFile` is the local array of `FILE_NAME_SIZE` characters as the function finds it;
`FILE_NAME_SIZE` is a constant of a header that is not among the sources. -/
def InputJPEG.openFrameFile (FILE_NAME_SIZE : Nat) (inputFile : IOVideo) (inFile : List Char)
    (FrameNumberInFile : Int) : List Char :=
  let length : Nat := inputFile.m_fHead.length
  let inFile := strncpy inFile inputFile.m_fHead FILE_NAME_SIZE
  let inFile := inFile.set length NUL
  if inputFile.m_fTail.length ≠ 0 then
    let in_number := snprintf16 inputFile.m_zeroPad inputFile.m_numDigits FrameNumberInFile
    let inFile := strncat inFile in_number (sizeSub (sizeSub FILE_NAME_SIZE (strlen inFile)) 1)
    let length := length + 16
    let inFile := inFile.set length NUL
    let inFile := strncat inFile inputFile.m_fTail
      (sizeSub (sizeSub FILE_NAME_SIZE (strlen inFile)) 1)
    let length := length + inputFile.m_fTail.length
    let inFile := inFile.set length NUL
    inFile
  else inFile

/-! ## The builder of coefficient tables with the single distance `|o - off|` -/

/-- As `tapWeight`, with the distance `|o - off|` whatever the factor, in place of the
test `factor <= 1.0` of lines 162-167. -/
def tapWeightUniform (FilterTap : ℚ → ℚ → ℚ → Int → ℚ) (filterOffsets : List Int) (factor : ℚ)
    (pi : ℚ) (lobes : Int) (off : ℚ) (t : Nat) : ℚ :=
  let dist : ℚ := dAbs ((filterOffsets.getD t 0 : Int) - off)
  FilterTap dist pi (if factor > 1 then factor else 1) lobes

/-- As `tapLoop`, with `tapWeightUniform`. -/
def tapLoopUniform (FilterTap : ℚ → ℚ → ℚ → Int → ℚ) (filterOffsets : List Int) (factor : ℚ)
    (filterTaps : Nat) (pi : ℚ) (lobes : Int) (off : ℚ) (index : Nat)
    (factorCoeffs : List ℚ) : List ℚ × ℚ :=
  (List.range filterTaps).foldl
    (fun (st : List ℚ × ℚ) (t : Nat) =>
      let w := tapWeightUniform FilterTap filterOffsets factor pi lobes off t
      (st.1.set (index + t) w, st.2 + w))
    (factorCoeffs, 0)

/-- As `floatRow`, with `tapLoopUniform`. -/
def floatRowUniform (FilterTap : ℚ → ℚ → ℚ → Int → ℚ) (filterOffsets : List Int) (factor : ℚ)
    (filterTaps : Nat) (offset : ℚ) (pi : ℚ) (lobes : Int) (x : Nat)
    (factorCoeffs : List ℚ) : List ℚ :=
  let index := x * filterTaps
  let off := phase factor offset x
  let r :=
    tapLoopUniform FilterTap filterOffsets factor filterTaps pi lobes off index factorCoeffs
  normLoop filterTaps index r.2 r.1

/-- As `PrepareFilterCoefficientsLobes`, with the distance `|o - off|` whatever the
factor. -/
def PrepareFilterCoefficientsLobesUniform (FilterTap : ℚ → ℚ → ℚ → Int → ℚ)
    (factorCoeffs : List ℚ) (filterOffsets : List Int) (factor : ℚ) (filterTaps : Nat)
    (offset : ℚ) (oSize : Nat) (lobes : Int) : List ℚ :=
  let pi : ℚ := HDR_PI / (lobes : ℚ)
  (List.range oSize).foldl
    (fun (fc : List ℚ) (x : Nat) =>
      floatRowUniform FilterTap filterOffsets factor filterTaps offset pi lobes x fc)
    factorCoeffs

/-- As `prepareRow`, with `floatRowUniform`. -/
def prepareRowUniform (FilterTap : ℚ → ℚ → ℚ → Int → ℚ) (filterOffsets : List Int)
    (factor : ℚ) (filterTaps : Nat) (offset : ℚ) (pi : ℚ) (lobes : Int) (scale : Int) (x : Nat)
    (st : List ℚ × List Int) : List ℚ × List Int :=
  let index := x * filterTaps
  let factorCoeffs :=
    floatRowUniform FilterTap filterOffsets factor filterTaps offset pi lobes x st.1
  let r := roundLoop filterTaps index scale factorCoeffs st.2
  let iFactorCoeffs := r.1
  let coeffSum := r.2
  let c := index + ((filterTaps + 1) >>> 1)
  (factorCoeffs, iFactorCoeffs.set c (iFactorCoeffs.getD c 0 + (scale - coeffSum)))

/-- As `PrepareFilterCoefficients`, with the distance `|o - off|` whatever the factor. -/
def PrepareFilterCoefficientsUniform (FilterTap : ℚ → ℚ → ℚ → Int → ℚ)
    (factorCoeffs : List ℚ) (iFactorCoeffs : List Int) (filterOffsets : List Int)
    (factor : ℚ) (filterTaps : Nat) (offset : ℚ) (oSize : Nat) (lobes : Int)
    (precision : Nat) : List ℚ × List Int :=
  let scale : Int := ((1 <<< precision : Nat) : Int)
  let pi : ℚ := HDR_PI / (lobes : ℚ)
  (List.range oSize).foldl
    (fun (st : List ℚ × List Int) (x : Nat) =>
      prepareRowUniform FilterTap filterOffsets factor filterTaps offset pi lobes scale x st)
    (factorCoeffs, iFactorCoeffs)

/-- As `tapWeightBasic`, with the distance `|o - off|` whatever the factor. -/
def tapWeightBasicUniform (FilterTap : ℚ → ℚ) (filterOffsets : List Int) (factor : ℚ)
    (off : ℚ) (t : Nat) : ℚ :=
  let dist : ℚ := dAbs ((filterOffsets.getD t 0 : Int) - off)
  FilterTap dist

/-- As `tapLoopBasic`, with `tapWeightBasicUniform`. -/
def tapLoopBasicUniform (FilterTap : ℚ → ℚ) (filterOffsets : List Int) (factor : ℚ)
    (filterTaps : Nat) (off : ℚ) (index : Nat) (factorCoeffs : List ℚ) : List ℚ × ℚ :=
  (List.range filterTaps).foldl
    (fun (st : List ℚ × ℚ) (t : Nat) =>
      let w := tapWeightBasicUniform FilterTap filterOffsets factor off t
      (st.1.set (index + t) w, st.2 + w))
    (factorCoeffs, 0)

/-- As `PrepareFilterCoefficientsBasic`, with the distance `|o - off|` whatever the
factor. -/
def PrepareFilterCoefficientsBasicUniform (FilterTap : ℚ → ℚ) (factorCoeffs : List ℚ)
    (filterOffsets : List Int) (factor : ℚ) (filterTaps : Nat) (offset : ℚ) (oSize : Nat) :
    List ℚ :=
  (List.range oSize).foldl
    (fun (fc : List ℚ) (x : Nat) =>
      let index := x * filterTaps
      let off := phase factor offset x
      let r := tapLoopBasicUniform FilterTap filterOffsets factor filterTaps off index fc
      normLoop filterTaps index r.2 r.1)
    factorCoeffs

/-- A bound on the rounding error of the integer coefficient of a Gaussian tap at offset
`k` or `-k`: one half near the centre, and the size of the weight itself far from it. -/
def roundingMajorant (k : Nat) : ℚ :=
  if k < 15 then 1 / 2 else (3 / 5) / (((k : ℚ) - 1) * ((k : ℚ) - 2))

end hdrtoolslib

namespace filmgrain

/-! ## `Canny::detect_edges` (SEIFilmGrainAnalyzer.h)

The header `SEIFilmGrainAnalyzer.h` declares the class `Canny`; the bodies of its methods
are in a file that is not among the sources.  The stages are modelled from section 4.4 of
the specification. -/

/-- Modelled from the spec: one component plane of a picture (`TComPicYuv` is not among the
sources): width, height and the samples in raster order. -/
structure PelPlane where
  width : Nat
  height : Nat
  data : List Int

/-- Modelled from the spec: the sample at `(x, y)`, "boundary pixels handled by clamping
(never reading outside the plane)". -/
def PelPlane.at (p : PelPlane) (x y : Int) : Int :=
  let cx : Nat := (min (max x 0) ((p.width : Int) - 1)).toNat
  let cy : Nat := (min (max y 0) ((p.height : Int) - 1)).toNat
  p.data.getD (cy * p.width + cx) 0

/-- The plane of the given size whose sample at `(x, y)` is `f x y`. -/
def PelPlane.build (width height : Nat) (f : Nat → Nat → Int) : PelPlane :=
  { width := width, height := height,
    data := (List.range (width * height)).map (fun k => f (k % width) (k / width)) }

/-- The plane of the given size whose samples all equal `v`. -/
def PelPlane.const (width height : Nat) (v : Int) : PelPlane :=
  { width := width, height := height, data := List.replicate (width * height) v }

/-- Modelled from the spec: the convolution of the neighbourhood of `(x, y)` with a square
kernel given by its rows, centred on the middle entry. -/
def convolve (kernel : List (List Int)) (p : PelPlane) (x y : Nat) : Int :=
  ((List.range kernel.length).map
    (fun j =>
      ((List.range (kernel.getD j []).length).map
        (fun i =>
          (kernel.getD j []).getD i 0
            * p.at ((x : Int) + (i : Int) - ((kernel.getD j []).length / 2 : Nat))
                ((y : Int) + (j : Int) - (kernel.length / 2 : Nat)))).sum)).sum

/-- The sum of the entries of a kernel. -/
def kernelSum (kernel : List (List Int)) : Int :=
  ((List.range kernel.length).map
    (fun j =>
      ((List.range (kernel.getD j []).length).map
        (fun i => (kernel.getD j []).getD i 0)).sum)).sum

/-- The members of `Canny` with an initialiser in the header (lines 96-108). -/
structure Canny where
  m_convWidthG : Nat := 5
  m_convHeightG : Nat := 5
  m_convWidthS : Nat := 3
  m_convHeightS : Nat := 3
  m_lowThresholdRatio : ℚ := 1 / 10
  m_highThresholdRatio : Int := 3

/-- Modelled from the spec: the Sobel kernel `m_gx` ("3x3 Sobel kernels (Gx, Gy)"); the
header declares the array without its values. -/
def Canny.m_gx : List (List Int) := [[-1, 0, 1], [-2, 0, 2], [-1, 0, 1]]

/-- Modelled from the spec: the Sobel kernel `m_gy`. -/
def Canny.m_gy : List (List Int) := [[-1, -2, -1], [0, 0, 0], [1, 2, 1]]

/-- Modelled from the spec: stage 1, "Smooth: 5x5 integer-approximated Gaussian
convolution".  The weights `m_gauss5x5` and their normaliser are not in the header or the
spec and are parameters. -/
def Canny.smooth (m_gauss5x5 : List (List Int)) (norm : Int) (p : PelPlane) : PelPlane :=
  PelPlane.build p.width p.height (fun x y => convolve m_gauss5x5 p x y / norm)

/-- Modelled from the spec: stage 2, "Gradient: 3x3 Sobel kernels (Gx, Gy) -> gradient
magnitude and quantized direction".  The magnitude is the integer square root of
`gx^2 + gy^2`; the quantiser of the direction is a parameter.  Returns the magnitude plane
and the direction plane. -/
def Canny.gradient (quantDir : Int → Int → Int) (p : PelPlane) : PelPlane × PelPlane :=
  (PelPlane.build p.width p.height
    (fun x y =>
      let gx := convolve Canny.m_gx p x y
      let gy := convolve Canny.m_gy p x y
      ((Nat.sqrt (gx * gx + gy * gy).toNat : Nat) : Int)),
   PelPlane.build p.width p.height
    (fun x y => quantDir (convolve Canny.m_gx p x y) (convolve Canny.m_gy p x y)))

/-- The step to the neighbour along a quantised direction (four buckets). -/
def Canny.dirStep (d : Int) : Int × Int :=
  if d % 4 = 0 then (1, 0) else if d % 4 = 1 then (1, 1) else if d % 4 = 2 then (0, 1)
  else (-1, 1)

/-- Modelled from the spec: stage 3, "Non-max suppression: zero out any pixel whose
magnitude is not a local maximum along its gradient direction". -/
def Canny.suppressNonMax (mag dir : PelPlane) : PelPlane :=
  PelPlane.build mag.width mag.height
    (fun x y =>
      let m := mag.at x y
      let st := Canny.dirStep (dir.at x y)
      if mag.at ((x : Int) + st.1) ((y : Int) + st.2) ≤ m
          ∧ mag.at ((x : Int) - st.1) ((y : Int) - st.2) ≤ m then m
      else 0)

/-- The value that marks a strong edge: the largest sample of the bit depth. -/
def Canny.strongPel (bitDepth : Nat) : Int := 2 ^ bitDepth - 1

/-- The value that marks a weak edge. -/
def Canny.weakPel (bitDepth : Nat) : Int := 2 ^ (bitDepth - 1) - 1

/-- Modelled from the spec: stage 4, "Double threshold: classify pixels as
strong/weak/none using lowThresholdRatio x highThresholdRatio derived from the image's max
gradient": the low threshold is `m_lowThresholdRatio` times the largest magnitude, the high
threshold `m_highThresholdRatio` times the low one; a pixel above the high threshold is
strong, one above the low threshold is weak, every other pixel is none (0). -/
def Canny.doubleThreshold (c : Canny) (p : PelPlane) (bitDepth : Nat) : PelPlane :=
  let maxGradient : Int := p.data.foldl max 0
  let lowThreshold : Int := ⌊c.m_lowThresholdRatio * (maxGradient : ℚ)⌋
  let highThreshold : Int := c.m_highThresholdRatio * lowThreshold
  PelPlane.build p.width p.height
    (fun x y =>
      let m := p.at x y
      if highThreshold < m then Canny.strongPel bitDepth
      else if lowThreshold < m then Canny.weakPel bitDepth
      else 0)

/-- Modelled from the spec: stage 5, "Edge tracking: promote weak edges connected (within
a small window) to a strong edge; all others suppressed". -/
def Canny.edgeTracking (p : PelPlane) (windowWidth windowHeight : Nat) (bitDepth : Nat) :
    PelPlane :=
  PelPlane.build p.width p.height
    (fun x y =>
      let v := p.at x y
      if v = Canny.strongPel bitDepth then Canny.strongPel bitDepth
      else if v = Canny.weakPel bitDepth
          ∧ (List.range windowHeight).any (fun j =>
              (List.range windowWidth).any (fun i =>
                decide (p.at ((x : Int) + (i : Int) - (windowWidth / 2 : Nat))
                    ((y : Int) + (j : Int) - (windowHeight / 2 : Nat))
                  = Canny.strongPel bitDepth))) = true
        then Canny.strongPel bitDepth
      else 0)

/-- Modelled from the spec: `Canny::detect_edges` (declared at line 98 of the header), the
five stages of section 4.4 in their order, each on the complete output of the stage before.
Returns the mask plane `dest`. -/
def Canny.detect_edges (c : Canny) (m_gauss5x5 : List (List Int)) (norm : Int)
    (quantDir : Int → Int → Int) (orig : PelPlane) (uiBitDepth : Nat) : PelPlane :=
  let smoothed := Canny.smooth m_gauss5x5 norm orig
  let grad := Canny.gradient quantDir smoothed
  let thin := Canny.suppressNonMax grad.1 grad.2
  let marked := c.doubleThreshold thin uiBitDepth
  Canny.edgeTracking marked c.m_convWidthS c.m_convHeightS uiBitDepth

/-! ## Constants of the film grain analyser -/

/-- The constant `MAXORDER` (SEIFilmGrainAnalyzer.h, line 56): maximum order of the
polynomial fitting. -/
def MAXORDER : Int := 8

/-- The constant `ORDER` (line 58): order of the polynomial function. -/
def ORDER : Int := 4

/-- The constant `QUANT_LEVELS` (line 59): number of quantization levels in the Lloyd-Max
quantization. -/
def QUANT_LEVELS : Int := 4

/-- The constant `NUM_PASSES` (line 69): number of passes when fitting the function. -/
def NUM_PASSES : Int := 2

end filmgrain

/-! # Theorems -/

namespace hdrtoolslib

/-! ## Buffers and loops -/

theorem getD_set_eq {α : Type} (l : List α) (i : Nat) (a d : α) (h : i < l.length) :
    (l.set i a).getD i d = a := by
  simp [List.getD_eq_getElem?_getD, List.getElem?_set, h]

theorem getD_set_ne {α : Type} (l : List α) (i j : Nat) (a d : α) (h : i ≠ j) :
    (l.set i a).getD j d = l.getD j d := by
  simp [List.getD_eq_getElem?_getD, List.getElem?_set, h]

theorem writeLoop_succ {α : Type} (g : Nat → α) (index n : Nat) (l : List α) :
    writeLoop g index (n + 1) l = (writeLoop g index n l).set (index + n) (g n) := by
  simp [writeLoop, List.range_succ, List.foldl_append]

theorem length_writeLoop {α : Type} (g : Nat → α) (index n : Nat) (l : List α) :
    (writeLoop g index n l).length = l.length := by
  induction n with
  | zero => simp [writeLoop]
  | succ n ih => rw [writeLoop_succ, List.length_set, ih]

theorem getD_writeLoop_out {α : Type} (g : Nat → α) (index n : Nat) (l : List α) (k : Nat)
    (d : α) (h : k < index ∨ index + n ≤ k) :
    (writeLoop g index n l).getD k d = l.getD k d := by
  induction n with
  | zero => simp [writeLoop]
  | succ n ih =>
    rw [writeLoop_succ, getD_set_ne _ _ _ _ _ (by omega)]
    exact ih (by omega)

theorem getD_writeLoop_in {α : Type} (g : Nat → α) (index n : Nat) (l : List α) (t : Nat)
    (d : α) (ht : t < n) (hl : index + t < l.length) :
    (writeLoop g index n l).getD (index + t) d = g t := by
  induction n with
  | zero => omega
  | succ n ih =>
    rw [writeLoop_succ]
    by_cases h : t = n
    · subst h
      exact getD_set_eq _ _ _ _ (by rw [length_writeLoop]; exact hl)
    · rw [getD_set_ne _ _ _ _ _ (by omega)]
      exact ih (by omega)

theorem foldl_pair {α β : Type} (F : α → Nat → α) (G : Nat → β) [AddCommMonoid β]
    (l : List Nat) (a : α) (s : β) :
    l.foldl (fun (st : α × β) (t : Nat) => (F st.1 t, st.2 + G t)) (a, s)
      = (l.foldl F a, s + (l.map G).sum) := by
  induction l generalizing a s with
  | nil => simp
  | cons x xs ih => simp [List.foldl_cons, ih, add_assoc]

theorem sum_map_range {β : Type} [AddCommMonoid β] (G : Nat → β) (n : Nat) :
    ((List.range n).map G).sum = ∑ i ∈ Finset.range n, G i := by
  induction n with
  | zero => simp
  | succ n ih => rw [List.sum_range_succ, Finset.sum_range_succ, ih]

theorem tapLoop_eq (FilterTap : ℚ → ℚ → ℚ → Int → ℚ) (filterOffsets : List Int)
    (factor : ℚ) (filterTaps : Nat) (pi : ℚ) (lobes : Int) (off : ℚ) (index : Nat)
    (fc : List ℚ) :
    tapLoop FilterTap filterOffsets factor filterTaps pi lobes off index fc
      = (writeLoop (tapWeight FilterTap filterOffsets factor pi lobes off) index filterTaps fc,
         ∑ t ∈ Finset.range filterTaps,
           tapWeight FilterTap filterOffsets factor pi lobes off t) := by
  unfold tapLoop writeLoop
  rw [foldl_pair (fun (b : List ℚ) (t : Nat) =>
      b.set (index + t) (tapWeight FilterTap filterOffsets factor pi lobes off t))
    (tapWeight FilterTap filterOffsets factor pi lobes off), sum_map_range, zero_add]

theorem normLoop_eq (filterTaps index : Nat) (coeffSum : ℚ) (fc : List ℚ) :
    normLoop filterTaps index coeffSum fc
      = writeLoop (fun t => fc.getD (index + t) 0 / coeffSum) index filterTaps fc := by
  unfold normLoop
  induction filterTaps with
  | zero => simp [writeLoop]
  | succ n ih =>
    rw [writeLoop_succ, List.range_succ, List.foldl_append, ih]
    simp only [List.foldl_cons, List.foldl_nil]
    rw [getD_writeLoop_out _ _ _ _ _ _ (Or.inr (le_refl _))]

theorem roundLoop_eq (filterTaps index : Nat) (scale : Int) (fc : List ℚ) (ic : List Int) :
    roundLoop filterTaps index scale fc ic
      = (writeLoop (fun t => double2int (fc.getD (index + t) 0 * (scale : ℚ))) index
            filterTaps ic,
         ∑ t ∈ Finset.range filterTaps, double2int (fc.getD (index + t) 0 * (scale : ℚ))) := by
  unfold roundLoop writeLoop
  rw [foldl_pair (fun (b : List Int) (t : Nat) =>
      b.set (index + t) (double2int (fc.getD (index + t) 0 * (scale : ℚ))))
    (fun t => double2int (fc.getD (index + t) 0 * (scale : ℚ))), sum_map_range, zero_add]

/-! ## Rows of the coefficient tables -/

theorem length_floatRow (FilterTap : ℚ → ℚ → ℚ → Int → ℚ) (filterOffsets : List Int)
    (factor : ℚ) (filterTaps : Nat) (offset pi : ℚ) (lobes : Int) (x : Nat) (fc : List ℚ) :
    (floatRow FilterTap filterOffsets factor filterTaps offset pi lobes x fc).length
      = fc.length := by
  simp only [floatRow, tapLoop_eq, normLoop_eq, length_writeLoop]

theorem getD_floatRow_out (FilterTap : ℚ → ℚ → ℚ → Int → ℚ) (filterOffsets : List Int)
    (factor : ℚ) (filterTaps : Nat) (offset pi : ℚ) (lobes : Int) (x : Nat) (fc : List ℚ)
    (k : Nat) (h : k < x * filterTaps ∨ x * filterTaps + filterTaps ≤ k) :
    (floatRow FilterTap filterOffsets factor filterTaps offset pi lobes x fc).getD k 0
      = fc.getD k 0 := by
  simp only [floatRow, tapLoop_eq, normLoop_eq]
  rw [getD_writeLoop_out _ _ _ _ _ _ h, getD_writeLoop_out _ _ _ _ _ _ h]

theorem getD_floatRow_in (FilterTap : ℚ → ℚ → ℚ → Int → ℚ) (filterOffsets : List Int)
    (factor : ℚ) (filterTaps : Nat) (offset pi : ℚ) (lobes : Int) (x : Nat) (fc : List ℚ)
    (t : Nat) (ht : t < filterTaps) (hl : x * filterTaps + t < fc.length) :
    (floatRow FilterTap filterOffsets factor filterTaps offset pi lobes x fc).getD
        (x * filterTaps + t) 0
      = tapWeight FilterTap filterOffsets factor pi lobes (phase factor offset x) t
          / ∑ j ∈ Finset.range filterTaps,
              tapWeight FilterTap filterOffsets factor pi lobes (phase factor offset x) j := by
  simp only [floatRow, tapLoop_eq, normLoop_eq]
  rw [getD_writeLoop_in _ _ _ _ _ _ ht (by rw [length_writeLoop]; exact hl),
    getD_writeLoop_in _ _ _ _ _ _ ht hl]

theorem prepareRow_fst (FilterTap : ℚ → ℚ → ℚ → Int → ℚ) (filterOffsets : List Int)
    (factor : ℚ) (filterTaps : Nat) (offset pi : ℚ) (lobes : Int) (scale : Int) (x : Nat)
    (st : List ℚ × List Int) :
    (prepareRow FilterTap filterOffsets factor filterTaps offset pi lobes scale x st).1
      = floatRow FilterTap filterOffsets factor filterTaps offset pi lobes x st.1 := rfl

theorem length_prepareRow_snd (FilterTap : ℚ → ℚ → ℚ → Int → ℚ) (filterOffsets : List Int)
    (factor : ℚ) (filterTaps : Nat) (offset pi : ℚ) (lobes : Int) (scale : Int) (x : Nat)
    (st : List ℚ × List Int) :
    (prepareRow FilterTap filterOffsets factor filterTaps offset pi lobes scale x st).2.length
      = st.2.length := by
  simp only [prepareRow, roundLoop_eq, List.length_set, length_writeLoop]

theorem getD_prepareRow_snd_low (FilterTap : ℚ → ℚ → ℚ → Int → ℚ) (filterOffsets : List Int)
    (factor : ℚ) (filterTaps : Nat) (offset pi : ℚ) (lobes : Int) (scale : Int) (x : Nat)
    (st : List ℚ × List Int) (k : Nat) (h : k < x * filterTaps) :
    (prepareRow FilterTap filterOffsets factor filterTaps offset pi lobes scale x st).2.getD k 0
      = st.2.getD k 0 := by
  simp only [prepareRow, roundLoop_eq]
  rw [getD_set_ne _ _ _ _ _ (by omega), getD_writeLoop_out _ _ _ _ _ _ (Or.inl h)]

theorem getD_prepareRow_snd_in (FilterTap : ℚ → ℚ → ℚ → Int → ℚ) (filterOffsets : List Int)
    (factor : ℚ) (filterTaps : Nat) (offset pi : ℚ) (lobes : Int) (scale : Int) (x : Nat)
    (st : List ℚ × List Int) (t : Nat) (ht : t < filterTaps)
    (hl1 : x * filterTaps + filterTaps ≤ st.1.length)
    (hl2 : x * filterTaps + filterTaps ≤ st.2.length) :
    (prepareRow FilterTap filterOffsets factor filterTaps offset pi lobes scale x st).2.getD
        (x * filterTaps + t) 0
      = roundedTap FilterTap filterOffsets factor filterTaps offset pi lobes scale x t
        + (if t = (filterTaps + 1) >>> 1 then
            scale - ∑ j ∈ Finset.range filterTaps,
              roundedTap FilterTap filterOffsets factor filterTaps offset pi lobes scale x j
           else 0) := by
  have hround : ∀ j, j < filterTaps →
      double2int ((floatRow FilterTap filterOffsets factor filterTaps offset pi lobes x
          st.1).getD (x * filterTaps + j) 0 * (scale : ℚ))
        = roundedTap FilterTap filterOffsets factor filterTaps offset pi lobes scale x j := by
    intro j hj
    rw [getD_floatRow_in _ _ _ _ _ _ _ _ _ _ hj (by omega)]
    rfl
  have hsum : (∑ j ∈ Finset.range filterTaps,
      double2int ((floatRow FilterTap filterOffsets factor filterTaps offset pi lobes x
          st.1).getD (x * filterTaps + j) 0 * (scale : ℚ)))
      = ∑ j ∈ Finset.range filterTaps,
          roundedTap FilterTap filterOffsets factor filterTaps offset pi lobes scale x j :=
    Finset.sum_congr rfl (fun j hj => hround j (Finset.mem_range.mp hj))
  simp only [prepareRow, roundLoop_eq]
  rw [hsum]
  by_cases hc : t = (filterTaps + 1) >>> 1
  · rw [if_pos hc, ← hc, getD_set_eq _ _ _ _ (by rw [length_writeLoop]; omega),
      getD_writeLoop_in _ _ _ _ _ _ ht (by omega), hround t ht]
  · rw [if_neg hc, getD_set_ne _ _ _ _ _ (by omega),
      getD_writeLoop_in _ _ _ _ _ _ ht (by omega), hround t ht, add_zero]

/-! ## The whole tables -/

theorem prepareFold_succ (FilterTap : ℚ → ℚ → ℚ → Int → ℚ) (filterOffsets : List Int)
    (factor : ℚ) (filterTaps : Nat) (offset pi : ℚ) (lobes : Int) (scale : Int) (n : Nat)
    (st : List ℚ × List Int) :
    (List.range (n + 1)).foldl
        (fun (s : List ℚ × List Int) (x : Nat) =>
          prepareRow FilterTap filterOffsets factor filterTaps offset pi lobes scale x s) st
      = prepareRow FilterTap filterOffsets factor filterTaps offset pi lobes scale n
          ((List.range n).foldl
            (fun (s : List ℚ × List Int) (x : Nat) =>
              prepareRow FilterTap filterOffsets factor filterTaps offset pi lobes scale x s)
            st) := by
  simp [List.range_succ, List.foldl_append]

theorem length_prepareFold (FilterTap : ℚ → ℚ → ℚ → Int → ℚ) (filterOffsets : List Int)
    (factor : ℚ) (filterTaps : Nat) (offset pi : ℚ) (lobes : Int) (scale : Int) (n : Nat)
    (st : List ℚ × List Int) :
    ((List.range n).foldl
        (fun (s : List ℚ × List Int) (x : Nat) =>
          prepareRow FilterTap filterOffsets factor filterTaps offset pi lobes scale x s)
        st).1.length = st.1.length ∧
    ((List.range n).foldl
        (fun (s : List ℚ × List Int) (x : Nat) =>
          prepareRow FilterTap filterOffsets factor filterTaps offset pi lobes scale x s)
        st).2.length = st.2.length := by
  induction n with
  | zero => simp
  | succ n ih =>
    rw [prepareFold_succ, prepareRow_fst, length_floatRow, length_prepareRow_snd]
    exact ih

theorem getD_prepareFold (FilterTap : ℚ → ℚ → ℚ → Int → ℚ) (filterOffsets : List Int)
    (factor : ℚ) (filterTaps : Nat) (offset pi : ℚ) (lobes : Int) (scale : Int) (n : Nat)
    (st : List ℚ × List Int)
    (hl1 : n * filterTaps ≤ st.1.length) (hl2 : n * filterTaps ≤ st.2.length)
    (x t : Nat) (hx : x < n) (ht : t < filterTaps) :
    ((List.range n).foldl
        (fun (s : List ℚ × List Int) (x : Nat) =>
          prepareRow FilterTap filterOffsets factor filterTaps offset pi lobes scale x s)
        st).1.getD (x * filterTaps + t) 0
      = tapWeight FilterTap filterOffsets factor pi lobes (phase factor offset x) t
          / ∑ j ∈ Finset.range filterTaps,
              tapWeight FilterTap filterOffsets factor pi lobes (phase factor offset x) j ∧
    ((List.range n).foldl
        (fun (s : List ℚ × List Int) (x : Nat) =>
          prepareRow FilterTap filterOffsets factor filterTaps offset pi lobes scale x s)
        st).2.getD (x * filterTaps + t) 0
      = roundedTap FilterTap filterOffsets factor filterTaps offset pi lobes scale x t
        + (if t = (filterTaps + 1) >>> 1 then
            scale - ∑ j ∈ Finset.range filterTaps,
              roundedTap FilterTap filterOffsets factor filterTaps offset pi lobes scale x j
           else 0) := by
  induction n with
  | zero => omega
  | succ n ih =>
    have hmul : (n + 1) * filterTaps = n * filterTaps + filterTaps := Nat.succ_mul _ _
    have hlen := length_prepareFold FilterTap filterOffsets factor filterTaps offset pi lobes
      scale n st
    rw [prepareFold_succ, prepareRow_fst]
    by_cases hxn : x = n
    · subst hxn
      refine ⟨?_, ?_⟩
      · exact getD_floatRow_in _ _ _ _ _ _ _ _ _ _ ht (by rw [hlen.1]; omega)
      · exact getD_prepareRow_snd_in _ _ _ _ _ _ _ _ _ _ _ ht (by rw [hlen.1]; omega)
          (by rw [hlen.2]; omega)
    · have hlt : x < n := by omega
      have hk : x * filterTaps + t < n * filterTaps := by
        have : (x + 1) * filterTaps ≤ n * filterTaps := Nat.mul_le_mul_right _ hlt
        rw [Nat.succ_mul] at this
        omega
      rw [getD_floatRow_out _ _ _ _ _ _ _ _ _ _ (Or.inl hk),
        getD_prepareRow_snd_low _ _ _ _ _ _ _ _ _ _ _ hk]
      exact ih (by omega) (by omega) hlt

theorem scale_eq (precision : Nat) : ((1 <<< precision : Nat) : Int) = 2 ^ precision := by
  rw [Nat.shiftLeft_eq, one_mul]; push_cast; rfl

theorem double2int_intCast (n : Int) : double2int (n : ℚ) = n := by
  unfold double2int truncToInt
  by_cases hn : (n : ℚ) < 0
  · have h1 : ¬ (0 : ℚ) ≤ (n : ℚ) - 1 / 2 := by linarith
    rw [if_pos hn, if_neg h1]
    have : ⌊-((n : ℚ) - 1 / 2)⌋ = -n := by
      rw [Int.floor_eq_iff]; push_cast; constructor <;> linarith
    rw [this, neg_neg]
  · have h1 : (0 : ℚ) ≤ (n : ℚ) + 1 / 2 := by linarith
    rw [if_neg hn, if_pos h1, Int.floor_eq_iff]
    constructor <;> linarith

theorem double2int_near (x : ℚ) : |(double2int x : ℚ) - x| ≤ 1 / 2 := by
  unfold double2int truncToInt
  by_cases hx : x < 0
  · have h1 : ¬ (0 : ℚ) ≤ x - 1 / 2 := by linarith
    rw [if_pos hx, if_neg h1]
    have hf := Int.floor_le (-(x - 1 / 2))
    have hf2 := Int.lt_floor_add_one (-(x - 1 / 2))
    push_cast
    rw [abs_le]; constructor <;> linarith
  · have h1 : (0 : ℚ) ≤ x + 1 / 2 := by linarith
    rw [if_neg hx, if_pos h1]
    have hf := Int.floor_le (x + 1 / 2)
    have hf2 := Int.lt_floor_add_one (x + 1 / 2)
    rw [abs_le]; constructor <;> linarith

theorem rowCoeffSum_eq_tapLoop (FilterTap : ℚ → ℚ → ℚ → Int → ℚ) (filterOffsets : List Int)
    (factor : ℚ) (filterTaps : Nat) (offset : ℚ) (lobes : Int) (x : Nat) (fc : List ℚ) :
    (tapLoop FilterTap filterOffsets factor filterTaps (HDR_PI / (lobes : ℚ)) lobes
      (phase factor offset x) (x * filterTaps) fc).2
      = rowCoeffSum FilterTap filterOffsets factor filterTaps offset lobes x := by
  rw [tapLoop_eq]; rfl

theorem foldl_acc_trace (G : Nat → Int) (H : Nat → Int) (l : List Nat) (a : Int)
    (b : List Int) :
    l.foldl (fun (st : Int × List Int) (t : Nat) => (st.1 + G t, st.2 ++ [H t])) (a, b)
      = (a + (l.map G).sum, b ++ l.map H) := by
  induction l generalizing a b with
  | nil => simp
  | cons x xs ih => simp [List.foldl_cons, ih, add_assoc]

theorem filterInner_eq (s : FrameScale) (input : List Int) (filterX filterY : List Int)
    (posX posY : Int) (iSizeX : Nat) (j n : Nat) (st : Int × List Int) :
    (List.range n).foldl
        (fun (st : Int × List Int) (i : Nat) =>
          (st.1 + filterY.getD j 0 * filterX.getD i 0
              * input.getD (s.readIndex posX posY iSizeX i j).toNat 0,
           st.2 ++ [s.readIndex posX posY iSizeX i j]))
        st
      = (st.1 + ∑ i ∈ Finset.range n, tapTerm s input filterX filterY posX posY iSizeX i j,
         st.2 ++ (List.range n).map (fun i => s.readIndex posX posY iSizeX i j)) := by
  obtain ⟨a, b⟩ := st
  rw [← sum_map_range]
  exact foldl_acc_trace (fun i => tapTerm s input filterX filterY posX posY iSizeX i j)
    (fun i => s.readIndex posX posY iSizeX i j) (List.range n) a b

theorem filterLoop16_eq (s : FrameScale) (input : List Int) (filterX filterY : List Int)
    (posX posY : Int) (iSizeX : Nat) :
    (s.filterLoop16 input filterX filterY posX posY iSizeX).1
      = ∑ j ∈ Finset.range s.m_filterTapsY, ∑ i ∈ Finset.range s.m_filterTapsX,
          tapTerm s input filterX filterY posX posY iSizeX i j := by
  unfold FrameScale.filterLoop16
  generalize s.m_filterTapsY = n
  induction n with
  | zero => simp
  | succ n ih =>
    rw [List.range_succ, List.foldl_append, Finset.sum_range_succ, ← ih]
    simp only [List.foldl_cons, List.foldl_nil]
    rw [filterInner_eq]

theorem filterLoop_eq (s : FrameScale) (input : List Int) (filterX filterY : List Int)
    (posX posY : Int) (iSizeX : Nat) :
    (s.filterLoop input filterX filterY posX posY iSizeX).1
      = ∑ j ∈ Finset.range s.m_filterTapsY, ∑ i ∈ Finset.range s.m_filterTapsX,
          tapTerm s input filterX filterY posX posY iSizeX i j := by
  unfold FrameScale.filterLoop
  generalize s.m_filterTapsY = n
  induction n with
  | zero => simp
  | succ n ih =>
    rw [List.range_succ, List.foldl_append, Finset.sum_range_succ, ← ih]
    simp only [List.foldl_cons, List.foldl_nil]
    by_cases h0 : filterY.getD n 0 = 0
    · rw [if_pos h0]
      have : ∑ i ∈ Finset.range s.m_filterTapsX,
          tapTerm s input filterX filterY posX posY iSizeX i n = 0 :=
        Finset.sum_eq_zero (fun i _ => by unfold tapTerm; rw [h0, zero_mul, zero_mul])
      rw [this, add_zero]
    · rw [if_neg h0, filterInner_eq]

theorem filterLoop_reads (s : FrameScale) (input : List Int) (filterX filterY : List Int)
    (posX posY : Int) (iSizeX : Nat) (idx : Int)
    (h : idx ∈ (s.filterLoop input filterX filterY posX posY iSizeX).2) :
    ∃ i j, idx = s.readIndex posX posY iSizeX i j := by
  unfold FrameScale.filterLoop at h
  generalize s.m_filterTapsY = n at h
  induction n with
  | zero => simp at h
  | succ n ih =>
    rw [List.range_succ, List.foldl_append] at h
    simp only [List.foldl_cons, List.foldl_nil] at h
    by_cases h0 : filterY.getD n 0 = 0
    · rw [if_pos h0] at h
      exact ih h
    · rw [if_neg h0, filterInner_eq] at h
      rcases List.mem_append.mp h with h | h
      · exact ih h
      · obtain ⟨i, _, hi⟩ := List.mem_map.mp h
        exact ⟨i, n, hi.symm⟩

theorem filterLoop16_reads (s : FrameScale) (input : List Int) (filterX filterY : List Int)
    (posX posY : Int) (iSizeX : Nat) (idx : Int)
    (h : idx ∈ (s.filterLoop16 input filterX filterY posX posY iSizeX).2) :
    ∃ i j, idx = s.readIndex posX posY iSizeX i j := by
  unfold FrameScale.filterLoop16 at h
  generalize s.m_filterTapsY = n at h
  induction n with
  | zero => simp at h
  | succ n ih =>
    rw [List.range_succ, List.foldl_append] at h
    simp only [List.foldl_cons, List.foldl_nil] at h
    rw [filterInner_eq] at h
    rcases List.mem_append.mp h with h | h
    · exact ih h
    · obtain ⟨i, _, hi⟩ := List.mem_map.mp h
      exact ⟨i, n, hi.symm⟩

theorem iClip_mem (x low high : Int) (h : low ≤ high) :
    low ≤ iClip x low high ∧ iClip x low high ≤ high := by
  unfold iClip
  constructor
  · exact le_min (le_max_right _ _) h
  · exact min_le_right _ _

theorem iClip_of_mem (x low high : Int) (h1 : low ≤ x) (h2 : x ≤ high) :
    iClip x low high = x := by
  unfold iClip
  rw [max_eq_left h1, min_eq_left h2]

theorem toInt32_of_mem (x : Int) (h1 : -2 ^ 31 ≤ x) (h2 : x < 2 ^ 31) : toInt32 x = x := by
  unfold toInt32
  omega

theorem toImgpel_of_mem (x : Int) (h1 : 0 ≤ x) (h2 : x ≤ 255) : toImgpel x = x := by
  unfold toImgpel
  omega

theorem toUint16_of_mem (x : Int) (h1 : 0 ≤ x) (h2 : x ≤ 65535) : toUint16 x = x := by
  unfold toUint16
  omega

theorem toImgpel_iClip (x vMin vMax : Int) (h0 : 0 ≤ vMin) (h1 : vMin ≤ vMax)
    (h2 : vMax ≤ 255) : toImgpel (iClip x vMin vMax) = iClip x vMin vMax := by
  have h := iClip_mem x vMin vMax h1
  exact toImgpel_of_mem _ (by omega) (by omega)

theorem toUint16_iClip (x vMin vMax : Int) (h0 : 0 ≤ vMin) (h1 : vMin ≤ vMax)
    (h2 : vMax ≤ 65535) : toUint16 (iClip x vMin vMax) = iClip x vMin vMax := by
  have h := iClip_mem x vMin vMax h1
  exact toUint16_of_mem _ (by omega) (by omega)

theorem readIndex_bounds (s : FrameScale) (posX posY : Int) (iSizeX iSizeY : Nat) (i j : Nat)
    (hX : 1 ≤ iSizeX) (hY : 1 ≤ iSizeY)
    (hmx : s.m_iMaxX = (iSizeX : Int) - 1) (hmy : s.m_iMaxY = (iSizeY : Int) - 1) :
    0 ≤ s.readIndex posX posY iSizeX i j ∧
      s.readIndex posX posY iSizeX i j < (iSizeX : Int) * (iSizeY : Int) := by
  unfold FrameScale.readIndex
  simp only []
  have hx := iClip_mem (posX + s.m_filterOffsetsX.getD i 0) 0 s.m_iMaxX (by rw [hmx]; omega)
  have hy := iClip_mem (posY + s.m_filterOffsetsY.getD j 0) 0 s.m_iMaxY (by rw [hmy]; omega)
  generalize iClip (posX + s.m_filterOffsetsX.getD i 0) 0 s.m_iMaxX = cx at hx ⊢
  generalize iClip (posY + s.m_filterOffsetsY.getD j 0) 0 s.m_iMaxY = cy at hy ⊢
  rw [hmx] at hx
  rw [hmy] at hy
  have hS : (0 : Int) ≤ (iSizeX : Int) := by omega
  constructor
  · have := mul_nonneg hS hy.1
    omega
  · have h1 : (iSizeX : Int) * cy ≤ (iSizeX : Int) * ((iSizeY : Int) - 1) :=
      mul_le_mul_of_nonneg_left hy.2 hS
    have h2 : (iSizeX : Int) * ((iSizeY : Int) - 1)
        = (iSizeX : Int) * (iSizeY : Int) - (iSizeX : Int) := by ring
    omega

theorem roundShift_exact (c : Int) (p : Nat) (hp : 1 ≤ p) :
    (c * 2 ^ (2 * p) + (1 : Int) * 2 ^ (2 * p - 1)) >>> (2 * p) = c := by
  rw [Int.shiftRight_eq_div_pow]
  have h2 : (2 : Int) ^ (2 * p) = 2 * 2 ^ (2 * p - 1) := by
    rw [← pow_succ']; congr 1; omega
  have hpos : (0 : Int) < 2 ^ (2 * p - 1) := by positivity
  push_cast
  rw [h2]
  generalize (2 : Int) ^ (2 * p - 1) = m at hpos
  rw [add_comm, Int.add_mul_ediv_right _ _ (by omega), one_mul,
    Int.ediv_eq_zero_of_lt (by omega) (by omega), zero_add]

theorem roundedShift_eq (S : Int) (p : Nat) (hp : 1 ≤ p) :
    roundedShift S p = (S + 1 * 2 ^ (2 * p - 1)) >>> (2 * p) := by
  unfold roundedShift
  rw [Int.shiftRight_eq_div_pow]
  have hz : ((2 * p : ℤ) - 1) = ((2 * p - 1 : ℕ) : ℤ) := by omega
  have hq : ((S : ℚ) + (2 : ℚ) ^ ((2 * p : ℤ) - 1)) / (2 : ℚ) ^ (2 * p)
      = (((S + 1 * 2 ^ (2 * p - 1) : ℤ) : ℚ)) / ((2 ^ (2 * p) : ℕ) : ℚ) := by
    rw [hz, zpow_natCast]; push_cast; ring
  rw [hq, Rat.floor_intCast_div_natCast]

theorem roundShiftClip_eq_floor (S : Int) (p : Nat) (vMin vMax : Int) (hp : 1 ≤ p) :
    roundShiftClip S p vMin vMax = iClip (toInt32 (roundedShift S p)) vMin vMax := by
  unfold roundShiftClip
  simp only []
  rw [roundedShift_eq S p hp]

theorem filter_eq_tapSum (s : FrameScale) (input filterX filterY : List Int)
    (p : Nat) (posX posY : Int) (iSizeX : Nat) (vMin vMax : Int) (hp : 1 ≤ p) :
    s.filter input filterX filterY p posX posY iSizeX vMin vMax
      = toImgpel (iClip
          (toInt32 (roundedShift (s.tapSum input filterX filterY posX posY iSizeX) p))
          vMin vMax) := by
  unfold FrameScale.filter
  rw [filterLoop_eq, roundShiftClip_eq_floor _ _ _ _ hp]
  rfl

/-- C5: no out-of-bounds sample read.  With `m_iMaxX = iSizeX - 1` and
`m_iMaxY = iSizeY - 1` for a plane of `iSizeX >= 1` by `iSizeY >= 1` samples, every index at
which the per-sample filters read `input` lies in `[0, iSizeX * iSizeY)`, whatever the
position and the tap offsets. -/
theorem C5_no_out_of_bounds_read (s : FrameScale) (input filterX filterY : List Int)
    (posX posY : Int) (iSizeX iSizeY : Nat)
    (hX : 1 ≤ iSizeX) (hY : 1 ≤ iSizeY)
    (hmx : s.m_iMaxX = (iSizeX : Int) - 1) (hmy : s.m_iMaxY = (iSizeY : Int) - 1) :
    (∀ idx ∈ s.filterReads input filterX filterY posX posY iSizeX,
      0 ≤ idx ∧ idx < (iSizeX : Int) * (iSizeY : Int)) ∧
    (∀ idx ∈ s.filterReads16 input filterX filterY posX posY iSizeX,
      0 ≤ idx ∧ idx < (iSizeX : Int) * (iSizeY : Int)) := by
  constructor
  · intro idx h
    obtain ⟨i, j, rfl⟩ := filterLoop_reads s input filterX filterY posX posY iSizeX idx h
    exact readIndex_bounds s posX posY iSizeX iSizeY i j hX hY hmx hmy
  · intro idx h
    obtain ⟨i, j, rfl⟩ := filterLoop16_reads s input filterX filterY posX posY iSizeX idx h
    exact readIndex_bounds s posX posY iSizeX iSizeY i j hX hY hmx hmy

/-- Witness of C5: the reads of a 2x2-tap filter at the corner `(-5, 9)` of a 3x2 plane. -/
theorem C5_no_out_of_bounds_read_witness :
    FrameScale.filterReads
        { m_filterTapsX := 2, m_filterTapsY := 2, m_filterOffsetsX := [0, 1],
          m_filterOffsetsY := [-7, 40], m_iMaxX := 2, m_iMaxY := 1 }
        [10, 20, 30, 40, 50, 60] [3, 1] [1, 3] (-5) 9 3 = [3, 3, 3, 3] ∧
    ((0 : Int) ≤ 3 ∧ (3 : Int) < ((3 : Nat) : Int) * ((2 : Nat) : Int)) :=
  ⟨by decide,
   (C5_no_out_of_bounds_read
      { m_filterTapsX := 2, m_filterTapsY := 2, m_filterOffsetsX := [0, 1],
        m_filterOffsetsY := [-7, 40], m_iMaxX := 2, m_iMaxY := 1 }
      [10, 20, 30, 40, 50, 60] [3, 1] [1, 3] (-5) 9 3 2 (by decide) (by decide) (by decide)
      (by decide)).1 3 (by decide)⟩

/-! ## The plane-level filter -/

theorem planeInner_eq (f : Nat → Nat → Nat → Nat → Int) (tx W : Nat) (cy y n : Nat)
    (l : List Int) :
    (List.range n).foldl
        (fun (st2 : List Int × Nat) (x : Nat) =>
          (st2.1.set (W * y + x) (f st2.2 cy x y), st2.2 + tx))
        (l, 0)
      = (writeLoop (fun x => f (x * tx) cy x y) (W * y) n l, n * tx) := by
  induction n with
  | zero => simp [writeLoop]
  | succ n ih =>
    rw [List.range_succ, List.foldl_append, ih, writeLoop_succ]
    simp only [List.foldl_cons, List.foldl_nil, Nat.succ_mul]

theorem planeLoop_succ (f : Nat → Nat → Nat → Nat → Int) (tx ty W : Nat) (out : List Int)
    (m : Nat) :
    (List.range (m + 1)).foldl
        (fun (st : List Int × Nat) (y : Nat) =>
          (((List.range W).foldl
              (fun (st2 : List Int × Nat) (x : Nat) =>
                (st2.1.set (W * y + x) (f st2.2 st.2 x y), st2.2 + tx))
              (st.1, 0)).1, st.2 + ty))
        (out, 0)
      = (writeLoop (fun x => f (x * tx)
            ((List.range m).foldl
              (fun (st : List Int × Nat) (y : Nat) =>
                (((List.range W).foldl
                    (fun (st2 : List Int × Nat) (x : Nat) =>
                      (st2.1.set (W * y + x) (f st2.2 st.2 x y), st2.2 + tx))
                    (st.1, 0)).1, st.2 + ty))
              (out, 0)).2 x m) (W * m) W
          ((List.range m).foldl
            (fun (st : List Int × Nat) (y : Nat) =>
              (((List.range W).foldl
                  (fun (st2 : List Int × Nat) (x : Nat) =>
                    (st2.1.set (W * y + x) (f st2.2 st.2 x y), st2.2 + tx))
                  (st.1, 0)).1, st.2 + ty))
            (out, 0)).1,
         ((List.range m).foldl
            (fun (st : List Int × Nat) (y : Nat) =>
              (((List.range W).foldl
                  (fun (st2 : List Int × Nat) (x : Nat) =>
                    (st2.1.set (W * y + x) (f st2.2 st.2 x y), st2.2 + tx))
                  (st.1, 0)).1, st.2 + ty))
            (out, 0)).2 + ty) := by
  rw [List.range_succ, List.foldl_append]
  simp only [List.foldl_cons, List.foldl_nil]
  rw [planeInner_eq]

theorem planeLoop_spec (f : Nat → Nat → Nat → Nat → Int) (tx ty W : Nat) (out : List Int)
    (m : Nat) (hlen : W * m ≤ out.length) :
    ((List.range m).foldl
        (fun (st : List Int × Nat) (y : Nat) =>
          (((List.range W).foldl
              (fun (st2 : List Int × Nat) (x : Nat) =>
                (st2.1.set (W * y + x) (f st2.2 st.2 x y), st2.2 + tx))
              (st.1, 0)).1, st.2 + ty))
        (out, 0)).2 = m * ty ∧
    ((List.range m).foldl
        (fun (st : List Int × Nat) (y : Nat) =>
          (((List.range W).foldl
              (fun (st2 : List Int × Nat) (x : Nat) =>
                (st2.1.set (W * y + x) (f st2.2 st.2 x y), st2.2 + tx))
              (st.1, 0)).1, st.2 + ty))
        (out, 0)).1.length = out.length ∧
    ∀ x y, x < W → y < m →
      ((List.range m).foldl
        (fun (st : List Int × Nat) (y : Nat) =>
          (((List.range W).foldl
              (fun (st2 : List Int × Nat) (x : Nat) =>
                (st2.1.set (W * y + x) (f st2.2 st.2 x y), st2.2 + tx))
              (st.1, 0)).1, st.2 + ty))
        (out, 0)).1.getD (W * y + x) 0 = f (x * tx) (y * ty) x y := by
  induction m with
  | zero => simp
  | succ m ih =>
    have hmul : W * (m + 1) = W * m + W := Nat.mul_succ _ _
    obtain ⟨ih2, ihl, ihg⟩ := ih (by omega)
    rw [planeLoop_succ]
    refine ⟨?_, ?_, ?_⟩
    · simp only [ih2, Nat.succ_mul]
    · simp only [length_writeLoop, ihl]
    · intro x y hx hy
      simp only []
      by_cases hym : y = m
      · subst hym
        rw [getD_writeLoop_in _ _ _ _ _ _ hx (by rw [ihl]; omega), ih2]
      · have hlt : y < m := by omega
        have hk : W * y + x < W * m := by
          have : W * (y + 1) ≤ W * m := Nat.mul_le_mul_left _ hlt
          rw [Nat.mul_succ] at this
          omega
        rw [getD_writeLoop_out _ _ _ _ _ _ (Or.inl hk)]
        exact ihg x y hx hlt

theorem filterPlane_getD (s : FrameScale) (input output : List Int) (iSizeX iSizeY : Nat)
    (oSizeX oSizeY : Nat) (vMin vMax : Int) (iFilter : Int)
    (hlen : oSizeX * oSizeY ≤ output.length) (x y : Nat) (hx : x < oSizeX) (hy : y < oSizeY) :
    (s.filterPlane input output iSizeX iSizeY oSizeX oSizeY vMin vMax iFilter).2.getD
        (oSizeX * y + x) 0
      = if iFilter = 0 then
          FrameScale.filterDouble
            { s with m_iMaxX := (iSizeX : Int) - 1, m_iMaxY := (iSizeY : Int) - 1 } input
            (s.m_filterCoeffsX.drop (x * s.m_filterTapsX))
            (s.m_filterCoeffsY.drop (y * s.m_filterTapsY))
            (truncToInt ((x : ℚ) * s.m_factorX)) (truncToInt ((y : ℚ) * s.m_factorY)) iSizeX
            vMin vMax
        else
          FrameScale.filter
            { s with m_iMaxX := (iSizeX : Int) - 1, m_iMaxY := (iSizeY : Int) - 1 } input
            (s.m_filterIntCoeffsX.drop (x * s.m_filterTapsX))
            (s.m_filterIntCoeffsY.drop (y * s.m_filterTapsY)) s.m_filterPrecision
            (truncToInt ((x : ℚ) * s.m_factorX)) (truncToInt ((y : ℚ) * s.m_factorY)) iSizeX
            vMin vMax :=
  (planeLoop_spec
    (fun cx cy x y =>
      if iFilter = 0 then
        FrameScale.filterDouble
          { s with m_iMaxX := (iSizeX : Int) - 1, m_iMaxY := (iSizeY : Int) - 1 } input
          (s.m_filterCoeffsX.drop cx) (s.m_filterCoeffsY.drop cy)
          (truncToInt ((x : ℚ) * s.m_factorX)) (truncToInt ((y : ℚ) * s.m_factorY)) iSizeX
          vMin vMax
      else
        FrameScale.filter
          { s with m_iMaxX := (iSizeX : Int) - 1, m_iMaxY := (iSizeY : Int) - 1 } input
          (s.m_filterIntCoeffsX.drop cx) (s.m_filterIntCoeffsY.drop cy) s.m_filterPrecision
          (truncToInt ((x : ℚ) * s.m_factorX)) (truncToInt ((y : ℚ) * s.m_factorY)) iSizeX
          vMin vMax)
    s.m_filterTapsX s.m_filterTapsY oSizeX output oSizeY hlen).2.2 x y hx hy

/-! ## Unit scale -/

theorem getD_drop_zero (l : List Int) (n : Nat) : (l.drop n).getD 0 0 = l.getD n 0 := by
  simp [List.getD_eq_getElem?_getD, List.getElem?_drop]

theorem truncToInt_natCast (n : Nat) : truncToInt ((n : ℚ) * 1) = (n : Int) := by
  unfold truncToInt
  rw [mul_one, if_pos (Nat.cast_nonneg n)]
  exact Int.floor_natCast n

theorem phase_unit (x : Nat) : phase 1 0 x = 0 := by
  unfold phase
  simp

theorem offsets_unit (W : Nat) (iMin : Int) :
    (SetFilterLimits (List.replicate 1 0) 1 W W 1 iMin).filterOffsets = [0] := by
  simp [SetFilterLimits, List.range_succ]

theorem filterTap_zero (exp : ℚ → ℚ) (hexp : exp 0 = 1) (pi : ℚ) (lobes : Int)
    (hl : 1 ≤ lobes) : FrameScaleGaussian.FilterTap exp 0 pi 1 lobes = 1 := by
  unfold FrameScaleGaussian.FilterTap dAbs
  have hL : ¬ ((0 : ℚ) > (lobes : ℚ) * (1 * (1 / 2))) := by
    have : (1 : ℚ) ≤ (lobes : ℚ) := by exact_mod_cast hl
    linarith
  simp only [lt_irrefl, if_false, hL]
  simpa using hexp

theorem tapWeight_unit (exp : ℚ → ℚ) (hexp : exp 0 = 1) (pi : ℚ) (lobes : Int)
    (hl : 1 ≤ lobes) (x : Nat) :
    tapWeight (FrameScaleGaussian.FilterTap exp) [0] 1 pi lobes (phase 1 0 x) 0 = 1 := by
  unfold tapWeight
  rw [phase_unit]
  simp only [le_refl, if_true, gt_iff_lt, lt_irrefl, if_false]
  have : dAbs (((([0] : List Int).getD 0 0 : Int) : ℚ) - 0) = 0 := by simp [dAbs]
  rw [this]
  exact filterTap_zero exp hexp pi lobes hl

theorem roundedTap_single (FilterTap : ℚ → ℚ → ℚ → Int → ℚ) (filterOffsets : List Int)
    (factor : ℚ) (offset pi : ℚ) (lobes : Int) (scale : Int) (x : Nat)
    (h : tapWeight FilterTap filterOffsets factor pi lobes (phase factor offset x) 0 ≠ 0) :
    roundedTap FilterTap filterOffsets factor 1 offset pi lobes scale x 0 = scale := by
  unfold roundedTap
  rw [Finset.sum_range_one, div_self h, one_mul]
  exact double2int_intCast scale

theorem unit_table (exp : ℚ → ℚ) (hexp : exp 0 = 1) (W : Nat) (lobes : Int) (hl : 1 ≤ lobes)
    (iMin : Int) (x : Nat) (hx : x < W) :
    (PrepareFilterCoefficients (FrameScaleGaussian.FilterTap exp)
        (List.replicate (W * 1) 0) (List.replicate (W * 1) 0)
        (SetFilterLimits (List.replicate 1 0) 1 W W 1 iMin).filterOffsets 1 1 0 W lobes
        14).2.getD x 0 = 2 ^ 14 := by
  rw [offsets_unit]
  have h := (getD_prepareFold (FrameScaleGaussian.FilterTap exp) [0] 1 1 0
    (HDR_PI / (lobes : ℚ)) lobes ((1 <<< 14 : Nat) : Int) W
    (List.replicate (W * 1) 0, List.replicate (W * 1) 0) (by simp) (by simp) x 0 hx
    (by decide)).2
  unfold PrepareFilterCoefficients
  simp only [Nat.mul_one, Nat.add_zero] at h ⊢
  rw [h, roundedTap_single _ _ _ _ _ _ _ _ (by
    rw [tapWeight_unit exp hexp _ lobes hl x]; exact one_ne_zero)]
  simp

theorem new_unit_fields (exp : ℚ → ℚ) (self : FrameScale) (W H : Nat) (hW : 1 ≤ W) (hH : 1 ≤ H)
    (lobes : Int) (chromaLocationType : Int) :
    (FrameScaleGaussian.new exp self W H W H lobes chromaLocationType).m_factorX = 1 ∧
    (FrameScaleGaussian.new exp self W H W H lobes chromaLocationType).m_factorY = 1 ∧
    (FrameScaleGaussian.new exp self W H W H lobes chromaLocationType).m_filterTapsX = 1 ∧
    (FrameScaleGaussian.new exp self W H W H lobes chromaLocationType).m_filterTapsY = 1 ∧
    (FrameScaleGaussian.new exp self W H W H lobes chromaLocationType).m_filterOffsetsX = [0] ∧
    (FrameScaleGaussian.new exp self W H W H lobes chromaLocationType).m_filterOffsetsY = [0] ∧
    (FrameScaleGaussian.new exp self W H W H lobes chromaLocationType).m_filterPrecision = 14 ∧
    (FrameScaleGaussian.new exp self W H W H lobes chromaLocationType).m_filterIntCoeffsX
      = (PrepareFilterCoefficients (FrameScaleGaussian.FilterTap exp)
        (List.replicate (W * 1) 0) (List.replicate (W * 1) 0)
        (SetFilterLimits (List.replicate 1 0) 1 W W 1 self.m_iMinX).filterOffsets 1 1 0 W lobes
        14).2 ∧
    (FrameScaleGaussian.new exp self W H W H lobes chromaLocationType).m_filterIntCoeffsY
      = (PrepareFilterCoefficients (FrameScaleGaussian.FilterTap exp)
        (List.replicate (H * 1) 0) (List.replicate (H * 1) 0)
        (SetFilterLimits (List.replicate 1 0) 1 H H 1 self.m_iMinY).filterOffsets 1 1 0 H lobes
        14).2 := by
  have hWq : ((W : ℚ) / (W : ℚ)) = 1 := div_self (by positivity)
  have hHq : ((H : ℚ) / (H : ℚ)) = 1 := div_self (by positivity)
  have ht : (FrameScaleGaussian.filterTaps 1 lobes).toNat = 1 := by
    simp [FrameScaleGaussian.filterTaps]
  unfold FrameScaleGaussian.new
  simp only [hWq, hHq, ht, offsets_unit]
  simp

/-- C3: identity at unit scale.  For a `FrameScaleGaussian` constructed with
`iWidth = oWidth` and `iHeight = oHeight` (`lobes >= 1`), the plane-level integer-path
filter writes `output[y * oSizeX + x] = input[y * iSizeX + x]` for every output position,
for every input plane of `imgpel` samples (`0 .. 255`) that lie in `[vMin, vMax]`. -/
theorem C3_identity_at_unit_scale (exp : ℚ → ℚ) (hexp : exp 0 = 1) (self : FrameScale)
    (W H : Nat) (hW : 1 ≤ W) (hH : 1 ≤ H) (lobes : Int) (hl : 1 ≤ lobes)
    (chromaLocationType : Int) (input output : List Int)
    (hin : input.length = W * H) (hout : output.length = W * H) (vMin vMax : Int)
    (hrange : ∀ v ∈ input, vMin ≤ v ∧ v ≤ vMax) (himgpel : ∀ v ∈ input, 0 ≤ v ∧ v ≤ 255)
    (iFilter : Int) (hif : iFilter ≠ 0) (x y : Nat) (hx : x < W) (hy : y < H) :
    ((FrameScaleGaussian.new exp self W H W H lobes chromaLocationType).filterPlane input
        output W H W H vMin vMax iFilter).2.getD (y * W + x) 0
      = input.getD (y * W + x) 0 := by
  obtain ⟨hfx, hfy, htx, hty, hox, hoy, hprec, hix, hiy⟩ :=
    new_unit_fields exp self W H hW hH lobes chromaLocationType
  have hcx := unit_table exp hexp W lobes hl self.m_iMinX x hx
  have hcy := unit_table exp hexp H lobes hl self.m_iMinY y hy
  rw [← hix] at hcx
  rw [← hiy] at hcy
  generalize FrameScaleGaussian.new exp self W H W H lobes chromaLocationType = s at *
  have hidx : W * y + x < W * H := by
    have : W * (y + 1) ≤ W * H := Nat.mul_le_mul_left _ hy
    rw [Nat.mul_succ] at this
    omega
  rw [Nat.mul_comm y W, filterPlane_getD s input output W H W H vMin vMax iFilter
    (le_of_eq hout.symm) x y hx hy, if_neg hif]
  unfold FrameScale.filter
  rw [filterLoop_eq]
  dsimp only
  rw [htx, hty, Finset.sum_range_one, Finset.sum_range_one]
  unfold tapTerm FrameScale.readIndex
  dsimp only
  rw [hox, hoy, hfx, hfy, hprec, getD_drop_zero, getD_drop_zero, Nat.mul_one, Nat.mul_one,
    hcx, hcy, truncToInt_natCast, truncToInt_natCast]
  have h1 : iClip ((y : Int) + ([0] : List Int).getD 0 0) 0 ((H : Int) - 1) = (y : Int) := by
    exact iClip_of_mem _ _ _ (by simp) (by simp; omega)
  have h2 : iClip ((x : Int) + ([0] : List Int).getD 0 0) 0 ((W : Int) - 1) = (x : Int) := by
    exact iClip_of_mem _ _ _ (by simp) (by simp; omega)
  rw [h1, h2]
  have h3 : ((W : Int) * (y : Int) + (x : Int)).toNat = W * y + x := by
    rw [← Int.toNat_ofNat (W * y + x)]; push_cast; rfl
  rw [h3]
  have hmem : input.getD (W * y + x) 0 ∈ input := by
    rw [List.getD_eq_getElem _ _ (by rw [hin]; exact hidx)]
    exact List.getElem_mem _
  have hv := hrange _ hmem
  have hi := himgpel _ hmem
  unfold roundShiftClip
  dsimp only
  have hs : (2 : Int) ^ 14 * 2 ^ 14 * input.getD (W * y + x) 0 + 1 * 2 ^ (2 * 14 - 1)
      = input.getD (W * y + x) 0 * 2 ^ (2 * 14) + 1 * 2 ^ (2 * 14 - 1) := by ring
  rw [hs, roundShift_exact _ 14 (by decide), toInt32_of_mem _ (by omega) (by omega),
    iClip_of_mem _ _ _ hv.1 hv.2, toImgpel_of_mem _ hi.1 hi.2]

/-- Witness of C3: a 3x2 plane through the scaler built for 3x2 -> 3x2 with 2 lobes. -/
theorem C3_identity_at_unit_scale_witness :
    ((FrameScaleGaussian.new (fun t => 1 / (1 - t)) {} 3 2 3 2 2 0).filterPlane
        [1, 2, 3, 4, 5, 6] [0, 0, 0, 0, 0, 0] 3 2 3 2 0 255 1).2.getD (1 * 3 + 2) 0
      = ([1, 2, 3, 4, 5, 6] : List Int).getD (1 * 3 + 2) 0 :=
  C3_identity_at_unit_scale (fun t => 1 / (1 - t)) (by norm_num) {} 3 2 (by decide) (by decide)
    2 (by decide) 0 [1, 2, 3, 4, 5, 6] [0, 0, 0, 0, 0, 0] (by decide) (by decide) 0 255
    (by decide) (by decide) 1 (by decide) 2 1 (by decide) (by decide)

/-! ## The floating table and the rounding of its rows -/

theorem floatFold_succ (FilterTap : ℚ → ℚ → ℚ → Int → ℚ) (filterOffsets : List Int)
    (factor : ℚ) (filterTaps : Nat) (offset pi : ℚ) (lobes : Int) (n : Nat) (fc : List ℚ) :
    (List.range (n + 1)).foldl
        (fun (b : List ℚ) (x : Nat) =>
          floatRow FilterTap filterOffsets factor filterTaps offset pi lobes x b) fc
      = floatRow FilterTap filterOffsets factor filterTaps offset pi lobes n
          ((List.range n).foldl
            (fun (b : List ℚ) (x : Nat) =>
              floatRow FilterTap filterOffsets factor filterTaps offset pi lobes x b) fc) := by
  simp [List.range_succ, List.foldl_append]

theorem length_floatFold (FilterTap : ℚ → ℚ → ℚ → Int → ℚ) (filterOffsets : List Int)
    (factor : ℚ) (filterTaps : Nat) (offset pi : ℚ) (lobes : Int) (n : Nat) (fc : List ℚ) :
    ((List.range n).foldl
        (fun (b : List ℚ) (x : Nat) =>
          floatRow FilterTap filterOffsets factor filterTaps offset pi lobes x b) fc).length
      = fc.length := by
  induction n with
  | zero => simp
  | succ n ih => rw [floatFold_succ, length_floatRow, ih]

theorem getD_floatFold (FilterTap : ℚ → ℚ → ℚ → Int → ℚ) (filterOffsets : List Int)
    (factor : ℚ) (filterTaps : Nat) (offset pi : ℚ) (lobes : Int) (n : Nat) (fc : List ℚ)
    (hl : n * filterTaps ≤ fc.length) (x t : Nat) (hx : x < n) (ht : t < filterTaps) :
    ((List.range n).foldl
        (fun (b : List ℚ) (x : Nat) =>
          floatRow FilterTap filterOffsets factor filterTaps offset pi lobes x b)
        fc).getD (x * filterTaps + t) 0
      = tapWeight FilterTap filterOffsets factor pi lobes (phase factor offset x) t
          / ∑ j ∈ Finset.range filterTaps,
              tapWeight FilterTap filterOffsets factor pi lobes (phase factor offset x) j := by
  induction n with
  | zero => omega
  | succ n ih =>
    have hmul : (n + 1) * filterTaps = n * filterTaps + filterTaps := Nat.succ_mul _ _
    have hlen := length_floatFold FilterTap filterOffsets factor filterTaps offset pi lobes n fc
    rw [floatFold_succ]
    by_cases hxn : x = n
    · subst hxn
      exact getD_floatRow_in _ _ _ _ _ _ _ _ _ _ ht (by rw [hlen]; omega)
    · have hlt : x < n := by omega
      have hk : x * filterTaps + t < n * filterTaps := by
        have : (x + 1) * filterTaps ≤ n * filterTaps := Nat.mul_le_mul_right _ hlt
        rw [Nat.succ_mul] at this
        omega
      rw [getD_floatRow_out _ _ _ _ _ _ _ _ _ _ (Or.inl hk)]
      exact ih (by omega) hlt

/-- C6: for every row `x < oSize` whose pre-normalisation weight sum is non-zero, the
floating coefficients that `PrepareFilterCoefficients` (both overloads with `lobes`) writes
for row `x` are the tap weights divided by their sum, and over exact arithmetic the row sums
to 1. -/
theorem C6_float_row_normalised (FilterTap : ℚ → ℚ → ℚ → Int → ℚ)
    (factorCoeffs : List ℚ) (iFactorCoeffs : List Int) (filterOffsets : List Int)
    (factor : ℚ) (filterTaps : Nat) (offset : ℚ) (oSize : Nat) (lobes : Int)
    (precision : Nat) (x : Nat) (hx : x < oSize)
    (hfc : factorCoeffs.length = oSize * filterTaps)
    (hic : iFactorCoeffs.length = oSize * filterTaps)
    (hsum : rowCoeffSum FilterTap filterOffsets factor filterTaps offset lobes x ≠ 0) :
    (∀ t, t < filterTaps →
      (PrepareFilterCoefficients FilterTap factorCoeffs iFactorCoeffs filterOffsets factor
          filterTaps offset oSize lobes precision).1.getD (x * filterTaps + t) 0
        = tapWeight FilterTap filterOffsets factor (HDR_PI / (lobes : ℚ)) lobes
            (phase factor offset x) t
          / rowCoeffSum FilterTap filterOffsets factor filterTaps offset lobes x) ∧
    (∑ t ∈ Finset.range filterTaps,
      (PrepareFilterCoefficients FilterTap factorCoeffs iFactorCoeffs filterOffsets factor
          filterTaps offset oSize lobes precision).1.getD (x * filterTaps + t) 0) = 1 ∧
    (∀ t, t < filterTaps →
      (PrepareFilterCoefficientsLobes FilterTap factorCoeffs filterOffsets factor filterTaps
          offset oSize lobes).getD (x * filterTaps + t) 0
        = tapWeight FilterTap filterOffsets factor (HDR_PI / (lobes : ℚ)) lobes
            (phase factor offset x) t
          / rowCoeffSum FilterTap filterOffsets factor filterTaps offset lobes x) ∧
    (∑ t ∈ Finset.range filterTaps,
      (PrepareFilterCoefficientsLobes FilterTap factorCoeffs filterOffsets factor filterTaps
          offset oSize lobes).getD (x * filterTaps + t) 0) = 1 := by
  have h1 : ∀ t, t < filterTaps →
      (PrepareFilterCoefficients FilterTap factorCoeffs iFactorCoeffs filterOffsets factor
          filterTaps offset oSize lobes precision).1.getD (x * filterTaps + t) 0
        = tapWeight FilterTap filterOffsets factor (HDR_PI / (lobes : ℚ)) lobes
            (phase factor offset x) t
          / rowCoeffSum FilterTap filterOffsets factor filterTaps offset lobes x :=
    fun t ht =>
      (getD_prepareFold FilterTap filterOffsets factor filterTaps offset
        (HDR_PI / (lobes : ℚ)) lobes ((1 <<< precision : Nat) : Int) oSize
        (factorCoeffs, iFactorCoeffs) (le_of_eq hfc.symm) (le_of_eq hic.symm) x t hx ht).1
  have h2 : ∀ t, t < filterTaps →
      (PrepareFilterCoefficientsLobes FilterTap factorCoeffs filterOffsets factor filterTaps
          offset oSize lobes).getD (x * filterTaps + t) 0
        = tapWeight FilterTap filterOffsets factor (HDR_PI / (lobes : ℚ)) lobes
            (phase factor offset x) t
          / rowCoeffSum FilterTap filterOffsets factor filterTaps offset lobes x :=
    fun t ht =>
      getD_floatFold FilterTap filterOffsets factor filterTaps offset
        (HDR_PI / (lobes : ℚ)) lobes oSize factorCoeffs (le_of_eq hfc.symm) x t hx ht
  have hone : (∑ t ∈ Finset.range filterTaps,
      tapWeight FilterTap filterOffsets factor (HDR_PI / (lobes : ℚ)) lobes
          (phase factor offset x) t
        / rowCoeffSum FilterTap filterOffsets factor filterTaps offset lobes x) = 1 := by
    rw [← Finset.sum_div]
    exact div_self hsum
  refine ⟨h1, ?_, h2, ?_⟩
  · rw [Finset.sum_congr rfl (fun t ht => h1 t (Finset.mem_range.mp ht))]
    exact hone
  · rw [Finset.sum_congr rfl (fun t ht => h2 t (Finset.mem_range.mp ht))]
    exact hone

/-- Witness of C6: the second row of a two-row, three-tap table. -/
theorem C6_float_row_normalised_witness :
    (∑ t ∈ Finset.range 3,
      (PrepareFilterCoefficients (fun d _ _ _ => 1 / (1 + d)) (List.replicate 6 0)
          (List.replicate 6 0) [0, 1, 2] (2 / 3) 3 0 2 1 4).1.getD (1 * 3 + t) 0) = 1 :=
  (C6_float_row_normalised (fun d _ _ _ => 1 / (1 + d)) (List.replicate 6 0)
    (List.replicate 6 0) [0, 1, 2] (2 / 3) 3 0 2 1 4 1 (by decide) (by decide) (by decide)
    (by norm_num [rowCoeffSum, tapWeight, phase, dAbs, Finset.sum_range_succ])).2.1

theorem prepare_eq_fold (FilterTap : ℚ → ℚ → ℚ → Int → ℚ)
    (factorCoeffs : List ℚ) (iFactorCoeffs : List Int) (filterOffsets : List Int)
    (factor : ℚ) (filterTaps : Nat) (offset : ℚ) (oSize : Nat) (lobes : Int)
    (precision : Nat) :
    PrepareFilterCoefficients FilterTap factorCoeffs iFactorCoeffs filterOffsets factor
        filterTaps offset oSize lobes precision
      = (List.range oSize).foldl
          (fun (st : List ℚ × List Int) (x : Nat) =>
            prepareRow FilterTap filterOffsets factor filterTaps offset (HDR_PI / (lobes : ℚ))
              lobes (2 ^ precision) x st)
          (factorCoeffs, iFactorCoeffs) := by
  unfold PrepareFilterCoefficients
  dsimp only
  rw [scale_eq]

theorem dAbs_eq_abs (x : ℚ) : dAbs x = |x| := by
  unfold dAbs
  split_ifs with h
  · exact (abs_of_neg h).symm
  · exact (abs_of_nonneg (not_lt.mp h)).symm

theorem ceilToInt_eq_ceil (x : ℚ) : ceilToInt x = ⌈x⌉ := by
  unfold ceilToInt
  rw [Int.floor_neg, neg_neg]

theorem filterTaps_of_eq (factor : ℚ) (lobes : Int) (h : factor = 1) :
    FrameScaleGaussian.filterTaps factor lobes = 1 := by
  unfold FrameScaleGaussian.filterTaps
  rw [if_pos h]

theorem filterTaps_of_gt (factor : ℚ) (lobes : Int) (h : factor > 1) :
    FrameScaleGaussian.filterTaps factor lobes = ⌈factor * 2 * (lobes : ℚ)⌉ := by
  unfold FrameScaleGaussian.filterTaps
  rw [if_neg (ne_of_gt h), if_pos h, ceilToInt_eq_ceil]

theorem filterTaps_of_lt (factor : ℚ) (lobes : Int) (h : factor < 1) :
    FrameScaleGaussian.filterTaps factor lobes = 2 * lobes := by
  unfold FrameScaleGaussian.filterTaps
  rw [if_neg (ne_of_lt h), if_neg (not_lt.mpr (le_of_lt h))]

/-- C9: for `factor > 0` and `lobes >= 0`, `FilterTap(dist, piScaled, factor, lobes)` is
`exp(-x^2 / 2)` with `x = |dist| / (0.5 * factor)` when `|dist| <= lobes * 0.5 * factor` and
0 when `|dist| > lobes * 0.5 * factor`; the result does not depend on `piScaled`. -/
theorem C9_gaussian_filter_tap (exp : ℚ → ℚ) (dist piScaled factor : ℚ) (lobes : Int)
    (hf : 0 < factor) (hl : 0 ≤ lobes) :
    (|dist| ≤ (lobes : ℚ) * (1 / 2) * factor →
      FrameScaleGaussian.FilterTap exp dist piScaled factor lobes
        = exp (-(|dist| / ((1 / 2) * factor)) ^ 2 / 2)) ∧
    (|dist| > (lobes : ℚ) * (1 / 2) * factor →
      FrameScaleGaussian.FilterTap exp dist piScaled factor lobes = 0) ∧
    (∀ piScaled' : ℚ,
      FrameScaleGaussian.FilterTap exp dist piScaled' factor lobes
        = FrameScaleGaussian.FilterTap exp dist piScaled factor lobes) := by
  have hL : (lobes : ℚ) * (factor * (1 / 2)) = (lobes : ℚ) * (1 / 2) * factor := by ring
  refine ⟨?_, ?_, fun _ => rfl⟩
  · intro h
    unfold FrameScaleGaussian.FilterTap
    dsimp only
    rw [dAbs_eq_abs, hL, if_neg (not_lt.mpr h)]
    congr 1
    ring
  · intro h
    unfold FrameScaleGaussian.FilterTap
    dsimp only
    rw [dAbs_eq_abs, hL, if_pos h]

/-- Witness of C9: distance 3/4 at factor 2 with 1 lobe. -/
theorem C9_gaussian_filter_tap_witness :
    FrameScaleGaussian.FilterTap (fun t => 1 / (1 - t)) (-3 / 4) 0 2 1
      = (fun t : ℚ => 1 / (1 - t)) (-(|(-3 / 4 : ℚ)| / ((1 / 2) * 2)) ^ 2 / 2) :=
  (C9_gaussian_filter_tap (fun t => 1 / (1 - t)) (-3 / 4) 0 2 1 (by norm_num) (by decide)).1
    (by norm_num [abs_le])

/-- C10: the Gaussian kernel is symmetric in the distance:
`FilterTap(-dist, piScaled, factor, lobes) = FilterTap(dist, piScaled, factor, lobes)`. -/
theorem C10_gaussian_filter_tap_symmetric (exp : ℚ → ℚ) (dist piScaled factor : ℚ)
    (lobes : Int) :
    FrameScaleGaussian.FilterTap exp (-dist) piScaled factor lobes
      = FrameScaleGaussian.FilterTap exp dist piScaled factor lobes := by
  unfold FrameScaleGaussian.FilterTap
  dsimp only
  rw [dAbs_eq_abs, dAbs_eq_abs, abs_neg]

/-! ## The offsets and the limits of `SetFilterLimits` -/

theorem shiftRight_one (a : Int) : a >>> 1 = a / 2 := by
  cases a with
  | ofNat m =>
    have h := Int.shiftRight_coe_nat m 1
    simp only [Nat.cast_one] at h
    rw [Int.ofNat_eq_coe, h, Nat.shiftRight_eq_div_pow]
    norm_num
  | negSucc m =>
    have h := Int.shiftRight_negSucc m 1
    simp only [Nat.cast_one] at h
    rw [h, Nat.shiftRight_eq_div_pow]
    simp only [pow_one]
    rfl

theorem setFilterLimits_offsets_eq (fo : List Int) (T iDim oDim : Nat) (factor : ℚ)
    (iMin : Int) :
    (SetFilterLimits fo T iDim oDim factor iMin).filterOffsets
      = writeLoop (fun ix => -(((T : Int) - 1) >>> 1) + (ix : Int)) 0 T fo := by
  unfold SetFilterLimits writeLoop
  simp only [Nat.zero_add]

theorem length_setFilterLimits_offsets (fo : List Int) (T iDim oDim : Nat) (factor : ℚ)
    (iMin : Int) :
    (SetFilterLimits fo T iDim oDim factor iMin).filterOffsets.length = fo.length := by
  rw [setFilterLimits_offsets_eq, length_writeLoop]

theorem getD_setFilterLimits_offsets (fo : List Int) (T iDim oDim : Nat) (factor : ℚ)
    (iMin : Int) (t : Nat) (ht : t < T) (hlen : T ≤ fo.length) :
    (SetFilterLimits fo T iDim oDim factor iMin).filterOffsets.getD t 0
      = (t : Int) - ((T : Int) - 1) / 2 := by
  rw [setFilterLimits_offsets_eq]
  have h := getD_writeLoop_in (fun ix => -(((T : Int) - 1) >>> 1) + (ix : Int)) 0 T fo t 0 ht
    (by omega)
  rw [Nat.zero_add] at h
  rw [h, shiftRight_one]
  ring

theorem setFilterLimits_offsets_map (fo : List Int) (T iDim oDim : Nat) (factor : ℚ)
    (iMin : Int) (hlen : fo.length = T) :
    (SetFilterLimits fo T iDim oDim factor iMin).filterOffsets
      = (List.range T).map (fun (i : Nat) => (i : Int) - ((T : Int) - 1) / 2) := by
  apply List.ext_getElem
  · rw [length_setFilterLimits_offsets, List.length_map, List.length_range, hlen]
  · intro n h1 h2
    have hn : n < T := by
      rw [length_setFilterLimits_offsets, hlen] at h1; exact h1
    rw [← List.getD_eq_getElem _ 0 h1,
      getD_setFilterLimits_offsets fo T iDim oDim factor iMin n hn (by omega)]
    simp

theorem mem_setFilterLimits_offsets (fo : List Int) (T iDim oDim : Nat) (factor : ℚ)
    (iMin : Int) (hlen : fo.length = T) (v : Int) :
    v ∈ (SetFilterLimits fo T iDim oDim factor iMin).filterOffsets
      ↔ ∃ i : Nat, i < T ∧ v = (i : Int) - ((T : Int) - 1) / 2 := by
  rw [setFilterLimits_offsets_map fo T iDim oDim factor iMin hlen, List.mem_map]
  constructor
  · rintro ⟨i, hi, rfl⟩
    exact ⟨i, List.mem_range.mp hi, rfl⟩
  · rintro ⟨i, hi, rfl⟩
    exact ⟨i, List.mem_range.mpr hi, rfl⟩

/-- C20: for every `filterTaps >= 1`, `SetFilterLimits` fills the offset vector with
`filterTaps` consecutive integers, `filterOffsets[i] = i - ((filterTaps - 1) >> 1)`; the
vector contains offset 0, does not depend on the sizes, the factor or the position (it is
one vector of `filterTaps` entries for the axis), and it is symmetric about 0 exactly when
`filterTaps` is odd. -/
theorem C20_filter_offsets (filterOffsets : List Int) (filterTaps iDimension oDimension : Nat)
    (factor : ℚ) (iMin : Int) (hTaps : 1 ≤ filterTaps)
    (hlen : filterOffsets.length = filterTaps) :
    (SetFilterLimits filterOffsets filterTaps iDimension oDimension factor
        iMin).filterOffsets.length = filterTaps ∧
    (∀ i : Nat, i < filterTaps →
      (SetFilterLimits filterOffsets filterTaps iDimension oDimension factor
          iMin).filterOffsets.getD i 0
        = (i : Int) - (((filterTaps : Int) - 1) >>> 1)) ∧
    (0 : Int) ∈ (SetFilterLimits filterOffsets filterTaps iDimension oDimension factor
        iMin).filterOffsets ∧
    (∀ (iDimension2 oDimension2 : Nat) (factor2 : ℚ) (iMin2 : Int),
      (SetFilterLimits filterOffsets filterTaps iDimension2 oDimension2 factor2
          iMin2).filterOffsets
        = (SetFilterLimits filterOffsets filterTaps iDimension oDimension factor
            iMin).filterOffsets) ∧
    ((∀ v : Int,
        v ∈ (SetFilterLimits filterOffsets filterTaps iDimension oDimension factor
            iMin).filterOffsets
          ↔ -v ∈ (SetFilterLimits filterOffsets filterTaps iDimension oDimension factor
            iMin).filterOffsets)
      ↔ filterTaps % 2 = 1) := by
  refine ⟨?_, ?_, ?_, ?_, ?_⟩
  · rw [length_setFilterLimits_offsets, hlen]
  · intro i hi
    rw [getD_setFilterLimits_offsets _ _ _ _ _ _ i hi (by omega), shiftRight_one]
  · rw [mem_setFilterLimits_offsets _ _ _ _ _ _ hlen]
    refine ⟨(filterTaps - 1) / 2, by omega, by omega⟩
  · intro _ _ _ _
    rw [setFilterLimits_offsets_eq, setFilterLimits_offsets_eq]
  · simp only [mem_setFilterLimits_offsets _ _ _ _ _ _ hlen]
    constructor
    · intro h
      obtain ⟨i, hi, hv⟩ := (h ((filterTaps : Int) - 1 - ((filterTaps : Int) - 1) / 2)).mp
        ⟨filterTaps - 1, by omega, by omega⟩
      omega
    · intro hodd v
      constructor
      · rintro ⟨i, hi, rfl⟩
        exact ⟨filterTaps - 1 - i, by omega, by omega⟩
      · rintro ⟨i, hi, hv⟩
        exact ⟨filterTaps - 1 - i, by omega, by omega⟩

/-- Witness of C20: four taps give the offsets -1, 0, 1, 2. -/
theorem C20_filter_offsets_witness :
    (SetFilterLimits [0, 0, 0, 0] 4 8 4 2 0).filterOffsets = [-1, 0, 1, 2] ∧
    (SetFilterLimits [0, 0, 0, 0] 4 8 4 2 0).filterOffsets.length = 4 :=
  ⟨by simp [SetFilterLimits, List.range_succ]; decide,
   (C20_filter_offsets [0, 0, 0, 0] 4 8 4 2 0 (by decide) (by decide)).1⟩

theorem truncToInt_of_nonneg (q : ℚ) (h : 0 ≤ q) : truncToInt q = ⌊q⌋ := by
  unfold truncToInt
  rw [if_pos h]

theorem setFilterLimits_iMax (fo : List Int) (T iDim oDim : Nat) (factor : ℚ) (iMin : Int) :
    (SetFilterLimits fo T iDim oDim factor iMin).iMax = (iDim : Int) - 1 := rfl

theorem setFilterLimits_oMax (fo : List Int) (T iDim oDim : Nat) (factor : ℚ) (iMin : Int) :
    (SetFilterLimits fo T iDim oDim factor iMin).oMax
      = (oDim : Int) - (SetFilterLimits fo T iDim oDim factor iMin).oMin := rfl

theorem setFilterLimits_oMin_eq (fo : List Int) (T iDim oDim : Nat) (factor : ℚ) (iMin : Int)
    (h : factor = 1) : (SetFilterLimits fo T iDim oDim factor iMin).oMin = 0 := by
  unfold SetFilterLimits
  simp only [if_pos h]

theorem setFilterLimits_oMin_lt (fo : List Int) (T iDim oDim : Nat) (factor : ℚ) (iMin : Int)
    (h : factor < 1) :
    (SetFilterLimits fo T iDim oDim factor iMin).oMin
      = truncToInt (((T : ℚ) + 1) / factor + 1) := by
  unfold SetFilterLimits
  simp only [if_neg (ne_of_lt h), if_pos (le_of_lt h)]

theorem setFilterLimits_oMin_gt (fo : List Int) (T iDim oDim : Nat) (factor : ℚ) (iMin : Int)
    (h : 1 < factor) :
    (SetFilterLimits fo T iDim oDim factor iMin).oMin = (T : Int) + 2 := by
  unfold SetFilterLimits
  simp only [if_neg (ne_of_gt h), if_neg (not_le.mpr h)]

/-- Counterexample to C13 as stated: at factor 1 with two taps, output position 3 of 4 lies
inside `[oMin, oMax]` and its second tap reads source coordinate 4, beyond `iMax = 3`. -/
theorem C13_counterexample :
    (SetFilterLimits [0, 0] 2 4 4 ((4 : ℚ) / 4) 0).oMin ≤ 3 ∧
    3 ≤ (SetFilterLimits [0, 0] 2 4 4 ((4 : ℚ) / 4) 0).oMax ∧
    (SetFilterLimits [0, 0] 2 4 4 ((4 : ℚ) / 4) 0).iMax = 3 ∧
    truncToInt ((3 : ℚ) * ((4 : ℚ) / 4))
      + (SetFilterLimits [0, 0] 2 4 4 ((4 : ℚ) / 4) 0).filterOffsets.getD 1 0 = 4 ∧
    ¬ (truncToInt ((3 : ℚ) * ((4 : ℚ) / 4))
        + (SetFilterLimits [0, 0] 2 4 4 ((4 : ℚ) / 4) 0).filterOffsets.getD 1 0
      ≤ (SetFilterLimits [0, 0] 2 4 4 ((4 : ℚ) / 4) 0).iMax) := by
  have h1 : ((4 : ℚ) / 4) = 1 := by norm_num
  have ho : (SetFilterLimits [0, 0] 2 4 4 ((4 : ℚ) / 4) 0).filterOffsets.getD 1 0 = 1 := by
    rw [getD_setFilterLimits_offsets _ _ _ _ _ _ 1 (by decide) (by decide)]
    decide
  have ht : truncToInt ((3 : ℚ) * ((4 : ℚ) / 4)) = 3 := by
    rw [h1, truncToInt_of_nonneg _ (by norm_num)]
    norm_num
  rw [setFilterLimits_oMax, setFilterLimits_oMin_eq _ _ _ _ _ _ h1, setFilterLimits_iMax, ho, ht]
  decide

/-- C13 (amended): for `iDimension, oDimension >= 1`, `factor = iDimension / oDimension`
and `filterTaps >= 1`, with `factor != 1` or a single tap, every output position
`oMin <= x <= oMax`, `x < oDimension` has its whole tap window in bounds:
`0 <= trunc(x * factor) + filterOffsets[t] <= iMax = iDimension - 1`. -/
theorem C13_window_in_bounds (filterOffsets : List Int) (filterTaps iDimension oDimension : Nat)
    (iMin : Int) (x t : Nat)
    (hTaps : 1 ≤ filterTaps) (hi : 1 ≤ iDimension) (ho : 1 ≤ oDimension)
    (hlen : filterOffsets.length = filterTaps)
    (hcase : (iDimension : ℚ) / (oDimension : ℚ) ≠ 1 ∨ filterTaps = 1)
    (hmin : (SetFilterLimits filterOffsets filterTaps iDimension oDimension
        ((iDimension : ℚ) / (oDimension : ℚ)) iMin).oMin ≤ (x : Int))
    (hmax : (x : Int) ≤ (SetFilterLimits filterOffsets filterTaps iDimension oDimension
        ((iDimension : ℚ) / (oDimension : ℚ)) iMin).oMax)
    (hx : x < oDimension) (ht : t < filterTaps) :
    0 ≤ truncToInt ((x : ℚ) * ((iDimension : ℚ) / (oDimension : ℚ)))
        + (SetFilterLimits filterOffsets filterTaps iDimension oDimension
            ((iDimension : ℚ) / (oDimension : ℚ)) iMin).filterOffsets.getD t 0 ∧
    truncToInt ((x : ℚ) * ((iDimension : ℚ) / (oDimension : ℚ)))
        + (SetFilterLimits filterOffsets filterTaps iDimension oDimension
            ((iDimension : ℚ) / (oDimension : ℚ)) iMin).filterOffsets.getD t 0
      ≤ (SetFilterLimits filterOffsets filterTaps iDimension oDimension
            ((iDimension : ℚ) / (oDimension : ℚ)) iMin).iMax ∧
    (SetFilterLimits filterOffsets filterTaps iDimension oDimension
        ((iDimension : ℚ) / (oDimension : ℚ)) iMin).iMax = (iDimension : Int) - 1 := by
  have hoq : (0 : ℚ) < (oDimension : ℚ) := by exact_mod_cast ho
  have hiq : (0 : ℚ) < (iDimension : ℚ) := by exact_mod_cast hi
  have hxq : (0 : ℚ) ≤ (x : ℚ) := Nat.cast_nonneg x
  have hTq : (0 : ℚ) ≤ (filterTaps : ℚ) := Nat.cast_nonneg _
  have hf : (0 : ℚ) < (iDimension : ℚ) / (oDimension : ℚ) := div_pos hiq hoq
  have hfo : (oDimension : ℚ) * ((iDimension : ℚ) / (oDimension : ℚ)) = (iDimension : ℚ) := by
    field_simp
  rw [setFilterLimits_oMax] at hmax
  rw [setFilterLimits_iMax, getD_setFilterLimits_offsets _ _ _ _ _ _ t ht (by omega),
    truncToInt_of_nonneg _ (mul_nonneg hxq (le_of_lt hf))]
  generalize hfd : (iDimension : ℚ) / (oDimension : ℚ) = f at *
  rcases lt_trichotomy f 1 with hlt | heq | hgt
  · rw [setFilterLimits_oMin_lt _ _ _ _ _ _ hlt,
      truncToInt_of_nonneg _ (by positivity)] at hmin hmax
    have hq := Int.lt_floor_add_one (((filterTaps : ℚ) + 1) / f + 1)
    have hlow : ((filterTaps : ℚ) + 1) / f < (x : ℚ) := by
      have : ((⌊((filterTaps : ℚ) + 1) / f + 1⌋ : Int) : ℚ) ≤ ((x : Int) : ℚ) := by
        exact_mod_cast hmin
      push_cast at this
      linarith
    have hlow2 : (filterTaps : ℚ) + 1 < (x : ℚ) * f := (div_lt_iff₀ hf).mp hlow
    have hup : ((filterTaps : ℚ) + 1) / f < (oDimension : ℚ) - (x : ℚ) := by
      have : ((x : Int) : ℚ)
          ≤ (((oDimension : Int) - ⌊((filterTaps : ℚ) + 1) / f + 1⌋ : Int) : ℚ) := by
        exact_mod_cast hmax
      push_cast at this
      linarith
    have hup2 : (filterTaps : ℚ) + 1 < ((oDimension : ℚ) - (x : ℚ)) * f :=
      (div_lt_iff₀ hf).mp hup
    have hn1 : ((filterTaps : Int) + 1) ≤ ⌊(x : ℚ) * f⌋ := by
      rw [Int.le_floor]; push_cast; linarith
    have hn2 : ⌊(x : ℚ) * f⌋ < (iDimension : Int) - (filterTaps : Int) - 1 := by
      rw [Int.floor_lt]; push_cast; nlinarith
    refine ⟨by omega, by omega, rfl⟩
  · rcases hcase with hne | hone
    · exact absurd heq hne
    · subst heq
      have hio : iDimension = oDimension := by
        have : (iDimension : ℚ) = (oDimension : ℚ) := by
          rw [div_eq_one_iff_eq (ne_of_gt hoq)] at hfd; exact hfd
        exact_mod_cast this
      have hfl : ⌊(x : ℚ) * 1⌋ = (x : Int) := by
        rw [mul_one]; exact Int.floor_natCast x
      rw [hfl]
      refine ⟨by omega, by omega, rfl⟩
  · rw [setFilterLimits_oMin_gt _ _ _ _ _ _ hgt] at hmin hmax
    have hxT : ((filterTaps : ℚ) + 2) ≤ (x : ℚ) := by exact_mod_cast hmin
    have hxo : (x : ℚ) ≤ (oDimension : ℚ) - ((filterTaps : ℚ) + 2) := by
      have : ((x : Int) : ℚ) ≤ (((oDimension : Int) - ((filterTaps : Int) + 2) : Int) : ℚ) := by
        exact_mod_cast hmax
      push_cast at this
      linarith
    have hn1 : ((filterTaps : Int) + 2) ≤ ⌊(x : ℚ) * f⌋ := by
      rw [Int.le_floor]; push_cast; nlinarith
    have hn2 : ⌊(x : ℚ) * f⌋ < (iDimension : Int) - (filterTaps : Int) - 2 := by
      rw [Int.floor_lt]; push_cast; nlinarith
    refine ⟨by omega, by omega, rfl⟩

/-- Witness of C13: 40 source samples, 20 output samples, 4 taps, position 10, last tap. -/
theorem C13_window_in_bounds_witness :
    0 ≤ truncToInt (((10 : Nat) : ℚ) * (((40 : Nat) : ℚ) / ((20 : Nat) : ℚ)))
        + (SetFilterLimits [0, 0, 0, 0] 4 40 20 (((40 : Nat) : ℚ) / ((20 : Nat) : ℚ))
            0).filterOffsets.getD 3 0 ∧
    truncToInt (((10 : Nat) : ℚ) * (((40 : Nat) : ℚ) / ((20 : Nat) : ℚ)))
        + (SetFilterLimits [0, 0, 0, 0] 4 40 20 (((40 : Nat) : ℚ) / ((20 : Nat) : ℚ))
            0).filterOffsets.getD 3 0
      ≤ (SetFilterLimits [0, 0, 0, 0] 4 40 20 (((40 : Nat) : ℚ) / ((20 : Nat) : ℚ)) 0).iMax ∧
    (SetFilterLimits [0, 0, 0, 0] 4 40 20 (((40 : Nat) : ℚ) / ((20 : Nat) : ℚ)) 0).iMax
      = ((40 : Nat) : Int) - 1 :=
  C13_window_in_bounds [0, 0, 0, 0] 4 40 20 0 10 3 (by decide) (by decide) (by decide)
    (by decide) (Or.inl (by norm_num))
    (by rw [setFilterLimits_oMin_gt _ _ _ _ _ _ (by norm_num)]; decide)
    (by rw [setFilterLimits_oMax, setFilterLimits_oMin_gt _ _ _ _ _ _ (by norm_num)]; decide)
    (by decide) (by decide)

/-! ## Clamping of the stored samples -/

theorem filterPlane16_getD (s : FrameScale) (input output : List Int) (iSizeX iSizeY : Nat)
    (oSizeX oSizeY : Nat) (vMin vMax : Int)
    (hlen : oSizeX * oSizeY ≤ output.length) (x y : Nat) (hx : x < oSizeX) (hy : y < oSizeY) :
    (s.filterPlane16 input output iSizeX iSizeY oSizeX oSizeY vMin vMax).2.getD
        (oSizeX * y + x) 0
      = FrameScale.filterDouble16
          { s with m_iMaxX := (iSizeX : Int) - 1, m_iMaxY := (iSizeY : Int) - 1 } input
          (s.m_filterCoeffsX.drop (x * s.m_filterTapsX))
          (s.m_filterCoeffsY.drop (y * s.m_filterTapsY))
          (truncToInt ((x : ℚ) * s.m_factorX)) (truncToInt ((y : ℚ) * s.m_factorY)) iSizeX
          vMin vMax :=
  (planeLoop_spec
    (fun cx cy x y =>
      FrameScale.filterDouble16
        { s with m_iMaxX := (iSizeX : Int) - 1, m_iMaxY := (iSizeY : Int) - 1 } input
        (s.m_filterCoeffsX.drop cx) (s.m_filterCoeffsY.drop cy)
        (truncToInt ((x : ℚ) * s.m_factorX)) (truncToInt ((y : ℚ) * s.m_factorY)) iSizeX
        vMin vMax)
    s.m_filterTapsX s.m_filterTapsY oSizeX output oSizeY hlen).2.2 x y hx hy

theorem toImgpel_iClip_mem (x vMin vMax : Int) (h0 : 0 ≤ vMin) (h1 : vMin ≤ vMax)
    (h2 : vMax ≤ 255) :
    vMin ≤ toImgpel (iClip x vMin vMax) ∧ toImgpel (iClip x vMin vMax) ≤ vMax := by
  rw [toImgpel_iClip x vMin vMax h0 h1 h2]
  exact iClip_mem x vMin vMax h1

theorem toUint16_iClip_mem (x vMin vMax : Int) (h0 : 0 ≤ vMin) (h1 : vMin ≤ vMax)
    (h2 : vMax ≤ 65535) :
    vMin ≤ toUint16 (iClip x vMin vMax) ∧ toUint16 (iClip x vMin vMax) ≤ vMax := by
  rw [toUint16_iClip x vMin vMax h0 h1 h2]
  exact iClip_mem x vMin vMax h1

/-- Counterexample to C11 as stated: the per-sample filter on float input with one tap of
weight 1 returns the sample 5 although `[vMin, vMax] = [0, 1]`.  For 8-bit samples the
clamped value is converted to `imgpel`: with `[vMin, vMax] = [-5, -1]` the filter returns
`(imgpel) (-1) = 255`. -/
theorem C11_counterexample :
    (0 : ℚ) ≤ 1 ∧
    FrameScale.filterFloat
        { m_filterTapsX := 1, m_filterTapsY := 1, m_filterOffsetsX := [0],
          m_filterOffsetsY := [0], m_iMaxX := 0, m_iMaxY := 0 }
        [5] [1] [1] 0 0 1 0 1 = 5 ∧
    ¬ (FrameScale.filterFloat
        { m_filterTapsX := 1, m_filterTapsY := 1, m_filterOffsetsX := [0],
          m_filterOffsetsY := [0], m_iMaxX := 0, m_iMaxY := 0 }
        [5] [1] [1] 0 0 1 0 1 ≤ 1) ∧
    FrameScale.filter
        { m_filterTapsX := 1, m_filterTapsY := 1, m_filterOffsetsX := [0],
          m_filterOffsetsY := [0], m_iMaxX := 0, m_iMaxY := 0 }
        [200] [2 ^ 14] [2 ^ 14] 14 0 0 1 (-5) (-1) = 255 ∧
    ¬ (FrameScale.filter
        { m_filterTapsX := 1, m_filterTapsY := 1, m_filterOffsetsX := [0],
          m_filterOffsetsY := [0], m_iMaxX := 0, m_iMaxY := 0 }
        [200] [2 ^ 14] [2 ^ 14] 14 0 0 1 (-5) (-1) ≤ -1) := by
  have h : FrameScale.filterFloat
      { m_filterTapsX := 1, m_filterTapsY := 1, m_filterOffsetsX := [0],
        m_filterOffsetsY := [0], m_iMaxX := 0, m_iMaxY := 0 }
      [5] [1] [1] 0 0 1 0 1 = 5 := by
    simp [FrameScale.filterFloat, FrameScale.readIndex, iClip, List.range_succ]
  rw [h]
  refine ⟨by norm_num, rfl, by norm_num, by decide, by decide⟩

/-- C11 (amended): for `0 <= vMin <= vMax` within the range of the sample type
(`vMax <= 255` for 8-bit samples, `vMax <= 65535` for 16-bit samples), every sample that
one of the seven per-sample filters on `imgpel` or `uint16` input returns, and every sample
that the plane-level filters (8-bit with `iFilter`, 16-bit) store, lies within
`[vMin, vMax]`; the per-sample filter on float input returns the weighted sum without
clamping, whatever `vMin` and `vMax` are. -/
theorem C11_integer_samples_clamped (s : FrameScale) (input output : List Int)
    (filterX filterY : List Int) (dfilterX dfilterY : List ℚ) (p : Nat) (posX posY : Int)
    (iSizeX iSizeY oSizeX oSizeY : Nat) (vMin vMax : Int) (iFilter : Int)
    (finput : List ℚ) (fMin fMax : ℚ) (h : vMin ≤ vMax) (h0 : 0 ≤ vMin)
    (hlen : oSizeX * oSizeY ≤ output.length) :
    (vMax ≤ 255 →
      (vMin ≤ s.filter input filterX filterY p posX posY iSizeX vMin vMax ∧
        s.filter input filterX filterY p posX posY iSizeX vMin vMax ≤ vMax) ∧
      (vMin ≤ s.filterDouble input dfilterX dfilterY posX posY iSizeX vMin vMax ∧
        s.filterDouble input dfilterX dfilterY posX posY iSizeX vMin vMax ≤ vMax) ∧
      (∀ (tapsX tapsY : Nat) (offsetX offsetY : List Int),
        vMin ≤ s.filterTaps8 input filterX filterY tapsX tapsY offsetX offsetY posX posY
            iSizeX vMin vMax ∧
        s.filterTaps8 input filterX filterY tapsX tapsY offsetX offsetY posX posY iSizeX
            vMin vMax ≤ vMax) ∧
      (∀ x y : Nat, x < oSizeX → y < oSizeY →
        vMin ≤ (s.filterPlane input output iSizeX iSizeY oSizeX oSizeY vMin vMax
            iFilter).2.getD (oSizeX * y + x) 0 ∧
        (s.filterPlane input output iSizeX iSizeY oSizeX oSizeY vMin vMax iFilter).2.getD
            (oSizeX * y + x) 0 ≤ vMax)) ∧
    (vMax ≤ 65535 →
      (vMin ≤ s.filter16 input filterX filterY p posX posY iSizeX vMin vMax ∧
        s.filter16 input filterX filterY p posX posY iSizeX vMin vMax ≤ vMax) ∧
      (vMin ≤ s.filterDouble16 input dfilterX dfilterY posX posY iSizeX vMin vMax ∧
        s.filterDouble16 input dfilterX dfilterY posX posY iSizeX vMin vMax ≤ vMax) ∧
      (∀ (tapsX tapsY : Nat) (offsetX offsetY : List Int),
        vMin ≤ s.filterTaps16 input filterX filterY tapsX tapsY offsetX offsetY posX posY
            iSizeX vMin vMax ∧
        s.filterTaps16 input filterX filterY tapsX tapsY offsetX offsetY posX posY iSizeX
            vMin vMax ≤ vMax) ∧
      (∀ (tapsX tapsY : Nat) (offsetX offsetY : List Int) (maxX maxY scale : Int),
        vMin ≤ FrameScale.filterScale16 input dfilterX offsetX tapsX maxX dfilterY offsetY
            tapsY maxY posX posY iSizeX vMin vMax scale ∧
        FrameScale.filterScale16 input dfilterX offsetX tapsX maxX dfilterY offsetY tapsY
            maxY posX posY iSizeX vMin vMax scale ≤ vMax) ∧
      (∀ x y : Nat, x < oSizeX → y < oSizeY →
        vMin ≤ (s.filterPlane16 input output iSizeX iSizeY oSizeX oSizeY vMin vMax).2.getD
            (oSizeX * y + x) 0 ∧
        (s.filterPlane16 input output iSizeX iSizeY oSizeX oSizeY vMin vMax).2.getD
            (oSizeX * y + x) 0 ≤ vMax)) ∧
    (∀ fMin2 fMax2 : ℚ,
      s.filterFloat finput dfilterX dfilterY posX posY iSizeX fMin2 fMax2
        = s.filterFloat finput dfilterX dfilterY posX posY iSizeX fMin fMax) := by
  refine ⟨fun h8 => ⟨toImgpel_iClip_mem _ _ _ h0 h h8, toImgpel_iClip_mem _ _ _ h0 h h8,
      fun _ _ _ _ => toImgpel_iClip_mem _ _ _ h0 h h8, ?_⟩,
    fun h16 => ⟨toUint16_iClip_mem _ _ _ h0 h h16, toUint16_iClip_mem _ _ _ h0 h h16,
      fun _ _ _ _ => toUint16_iClip_mem _ _ _ h0 h h16,
      fun _ _ _ _ _ _ _ => toUint16_iClip_mem _ _ _ h0 h h16, ?_⟩,
    fun _ _ => rfl⟩
  · intro x y hx hy
    rw [filterPlane_getD s input output iSizeX iSizeY oSizeX oSizeY vMin vMax iFilter hlen x y
      hx hy]
    split_ifs
    · exact toImgpel_iClip_mem _ _ _ h0 h h8
    · exact toImgpel_iClip_mem _ _ _ h0 h h8
  · intro x y hx hy
    rw [filterPlane16_getD s input output iSizeX iSizeY oSizeX oSizeY vMin vMax hlen x y hx hy]
    exact toUint16_iClip_mem _ _ _ h0 h h16

/-- Witness of C11: a sample of 200 through one tap of weight 4 at precision 1 is stored
as 100 for `[vMin, vMax] = [0, 100]`. -/
theorem C11_integer_samples_clamped_witness :
    FrameScale.filter
        { m_filterTapsX := 1, m_filterTapsY := 1, m_filterOffsetsX := [0],
          m_filterOffsetsY := [0], m_iMaxX := 0, m_iMaxY := 0 }
        [200] [2] [2] 1 0 0 1 0 100 = 100 ∧
    ((0 : Int) ≤ FrameScale.filter
        { m_filterTapsX := 1, m_filterTapsY := 1, m_filterOffsetsX := [0],
          m_filterOffsetsY := [0], m_iMaxX := 0, m_iMaxY := 0 }
        [200] [2] [2] 1 0 0 1 0 100 ∧
      FrameScale.filter
        { m_filterTapsX := 1, m_filterTapsY := 1, m_filterOffsetsX := [0],
          m_filterOffsetsY := [0], m_iMaxX := 0, m_iMaxY := 0 }
        [200] [2] [2] 1 0 0 1 0 100 ≤ 100) :=
  ⟨by decide,
   ((C11_integer_samples_clamped
      { m_filterTapsX := 1, m_filterTapsY := 1, m_filterOffsetsX := [0],
        m_filterOffsetsY := [0], m_iMaxX := 0, m_iMaxY := 0 }
      [200] [0] [2] [2] [1] [1] 1 0 0 1 1 1 1 0 100 1 [200] 0 100 (by decide) (by decide)
      (by decide)).1 (by decide)).1⟩

/-! ## The state of the scaler across a plane-level call -/

/-- Counterexample to C17 as stated: a plane-level call on a 5x3 input plane changes the
limits `m_iMaxX` and `m_iMaxY` of the scaler from 0 to 4 and 2. -/
theorem C17_counterexample :
    ({ } : FrameScale).m_iMaxX = 0 ∧ ({ } : FrameScale).m_iMaxY = 0 ∧
    (FrameScale.filterPlane { } [] [] 5 3 0 0 0 255 1).1.m_iMaxX = 4 ∧
    (FrameScale.filterPlane { } [] [] 5 3 0 0 0 255 1).1.m_iMaxY = 2 ∧
    (FrameScale.filterPlane { } [] [] 5 3 0 0 0 255 1).1.m_iMaxX ≠ ({ } : FrameScale).m_iMaxX ∧
    (FrameScale.filterPlane16 { } [] [] 5 3 0 0 0 255).1.m_iMaxX ≠ ({ } : FrameScale).m_iMaxX := by
  refine ⟨rfl, rfl, ?_, ?_, ?_, ?_⟩ <;> decide

/-- C17 (amended): a plane-level `FrameScale::filter` call (8-bit with `iFilter`, and
16-bit) leaves the coefficient tables, the tap counts, the tap offsets, the scale factors
and the limits other than `m_iMaxX` and `m_iMaxY` as they were; it assigns
`m_iMaxX = iSizeX - 1` and `m_iMaxY = iSizeY - 1`. -/
theorem C17_plane_filter_state (s : FrameScale) (input output : List Int)
    (iSizeX iSizeY oSizeX oSizeY : Nat) (vMin vMax : Int) (iFilter : Int) :
    (s.filterPlane input output iSizeX iSizeY oSizeX oSizeY vMin vMax iFilter).1
      = { s with m_iMaxX := (iSizeX : Int) - 1, m_iMaxY := (iSizeY : Int) - 1 } ∧
    (s.filterPlane16 input output iSizeX iSizeY oSizeX oSizeY vMin vMax).1
      = { s with m_iMaxX := (iSizeX : Int) - 1, m_iMaxY := (iSizeY : Int) - 1 } ∧
    FrameScale.sameButMax
      (s.filterPlane input output iSizeX iSizeY oSizeX oSizeY vMin vMax iFilter).1 s ∧
    FrameScale.sameButMax
      (s.filterPlane16 input output iSizeX iSizeY oSizeX oSizeY vMin vMax).1 s ∧
    (s.filterPlane input output iSizeX iSizeY oSizeX oSizeY vMin vMax iFilter).1.m_iMaxX
      = (iSizeX : Int) - 1 ∧
    (s.filterPlane input output iSizeX iSizeY oSizeX oSizeY vMin vMax iFilter).1.m_iMaxY
      = (iSizeY : Int) - 1 ∧
    (s.filterPlane16 input output iSizeX iSizeY oSizeX oSizeY vMin vMax).1.m_iMaxX
      = (iSizeX : Int) - 1 ∧
    (s.filterPlane16 input output iSizeX iSizeY oSizeX oSizeY vMin vMax).1.m_iMaxY
      = (iSizeY : Int) - 1 := by
  refine ⟨rfl, rfl, ?_, ?_, rfl, rfl, rfl, rfl⟩ <;>
    exact ⟨rfl, rfl, rfl, rfl, rfl, rfl, rfl, rfl, rfl, rfl, rfl, rfl, rfl, rfl, rfl, rfl, rfl,
      rfl, rfl⟩

/-! ## `FrameScale::create` -/

/-- Counterexample to C14 as stated: with equal input and output dimensions `create`
returns the Null scaler for an unsupported mode, without a fatal error. -/
theorem C14_counterexample :
    FrameScale.create 4 4 4 4 (some { m_mode := ScalingMode.other 99, m_lanczosLobes := 2 })
        0 0 0
      = CreateResult.returns Scaler.FrameScaleNull ∧
    FrameScale.create 4 4 4 4 (some { m_mode := ScalingMode.other 99, m_lanczosLobes := 2 })
        0 0 0
      ≠ CreateResult.exitFailure (ScalingMode.other 99) := by
  decide

/-- C14 (amended): for every params whose scaling mode is not one of the supported modes
and for every input and output dimensions that differ (`iWidth != oWidth` or
`iHeight != oHeight`), `FrameScale::create` ends in a fatal error and returns no scaler;
a fatal error occurs in no other case. -/
theorem C14_unsupported_mode_is_fatal (iWidth iHeight oWidth oHeight : Int)
    (params : Option FrameScaleParams) (filter chromaLocationType useMinMax : Int) :
    (∀ (code lobes : Int), (iWidth ≠ oWidth ∨ iHeight ≠ oHeight) →
      FrameScale.create iWidth iHeight oWidth oHeight
          (some { m_mode := ScalingMode.other code, m_lanczosLobes := lobes }) filter
          chromaLocationType useMinMax
        = CreateResult.exitFailure (ScalingMode.other code)) ∧
    (∀ mode : ScalingMode,
      FrameScale.create iWidth iHeight oWidth oHeight params filter chromaLocationType
          useMinMax = CreateResult.exitFailure mode →
      (iWidth ≠ oWidth ∨ iHeight ≠ oHeight) ∧
      ∃ (code lobes : Int), mode = ScalingMode.other code ∧
        params = some { m_mode := ScalingMode.other code, m_lanczosLobes := lobes }) := by
  constructor
  · intro code lobes hd
    have hn : ¬ (iWidth = oWidth ∧ iHeight = oHeight) := by
      rintro ⟨h1, h2⟩
      rcases hd with h | h
      · exact h h1
      · exact h h2
    simp only [FrameScale.create, if_neg hn]
  · intro mode h
    cases params with
    | none => simp [FrameScale.create] at h
    | some p =>
      obtain ⟨m, l⟩ := p
      by_cases hd : iWidth = oWidth ∧ iHeight = oHeight
      · simp [FrameScale.create, hd] at h
      · have hd2 : iWidth ≠ oWidth ∨ iHeight ≠ oHeight := by
          by_contra hc
          push_neg at hc
          exact hd hc
        refine ⟨hd2, ?_⟩
        cases m with
        | other code =>
          simp only [FrameScale.create, if_neg hd] at h
          refine ⟨code, l, ?_, rfl⟩
          injection h with h1
          exact h1.symm
        | SC_LINEAR =>
          simp only [FrameScale.create, if_neg hd] at h
          split_ifs at h
        | _ =>
          simp only [FrameScale.create, if_neg hd] at h
          exact absurd h (by simp)

/-- Witness of C14: mode 99 for 4x4 -> 2x2. -/
theorem C14_unsupported_mode_is_fatal_witness :
    FrameScale.create 4 4 2 2 (some { m_mode := ScalingMode.other 99, m_lanczosLobes := 2 })
        0 0 0
      = CreateResult.exitFailure (ScalingMode.other 99) :=
  (C14_unsupported_mode_is_fatal 4 4 2 2 none 0 0 0).1 99 2 (Or.inl (by decide))

/-- C15: `FrameScale::create` returns the Null scaler if and only if
(`iWidth = oWidth` and `iHeight = oHeight`) or `params` is NULL; in that case the result
does not depend on the scaling mode, the filter, the chroma location or `useMinMax`. -/
theorem C15_null_scaler_iff (iWidth iHeight oWidth oHeight : Int)
    (params : Option FrameScaleParams) (filter chromaLocationType useMinMax : Int) :
    (FrameScale.create iWidth iHeight oWidth oHeight params filter chromaLocationType
        useMinMax = CreateResult.returns Scaler.FrameScaleNull
      ↔ (iWidth = oWidth ∧ iHeight = oHeight) ∨ params = none) ∧
    ((iWidth = oWidth ∧ iHeight = oHeight) →
      ∀ (params2 : Option FrameScaleParams) (filter2 chromaLocationType2 useMinMax2 : Int),
        FrameScale.create iWidth iHeight oWidth oHeight params2 filter2 chromaLocationType2
          useMinMax2 = CreateResult.returns Scaler.FrameScaleNull) ∧
    (∀ (filter2 chromaLocationType2 useMinMax2 : Int),
      FrameScale.create iWidth iHeight oWidth oHeight none filter2 chromaLocationType2
        useMinMax2 = CreateResult.returns Scaler.FrameScaleNull) := by
  refine ⟨?_, ?_, fun _ _ _ => rfl⟩
  · constructor
    · intro h
      cases params with
      | none => exact Or.inr rfl
      | some p =>
        left
        by_contra hd
        obtain ⟨m, l⟩ := p
        cases m with
        | SC_LINEAR =>
          simp only [FrameScale.create, if_neg hd] at h
          split_ifs at h <;> exact absurd h (by simp)
        | _ =>
          simp only [FrameScale.create, if_neg hd] at h
          exact absurd h (by simp)
    · rintro (hd | rfl)
      · cases params with
        | none => rfl
        | some p => simp only [FrameScale.create, if_pos hd]
      · rfl
  · intro hd params2 _ _ _
    cases params2 with
    | none => rfl
    | some p => simp only [FrameScale.create, if_pos hd]

/-- Witness of C15: equal dimensions give the Null scaler for the Gaussian mode. -/
theorem C15_null_scaler_iff_witness :
    FrameScale.create 4 4 4 4 (some { m_mode := ScalingMode.SC_GAUSSIAN, m_lanczosLobes := 2 })
        1 2 3
      = CreateResult.returns Scaler.FrameScaleNull :=
  (C15_null_scaler_iff 4 4 4 4 none 0 0 0).2.1 ⟨rfl, rfl⟩
    (some { m_mode := ScalingMode.SC_GAUSSIAN, m_lanczosLobes := 2 }) 1 2 3

/-! ## `FrameScaleGaussian::process` -/

theorem foldl_preserves {β α γ : Type} (f : β → α → β) (g : β → γ)
    (h : ∀ b a, g (f b a) = g b) (l : List α) (b : β) : g (l.foldl f b) = g b := by
  induction l generalizing b with
  | nil => rfl
  | cons a l ih => rw [List.foldl_cons, ih, h]

/-- C16: `FrameScaleGaussian::process` ends in a fatal error if and only if
`out.m_isFloat` differs from `inp.m_isFloat`, or `inp` is not floating point and
`out.m_bitDepth` differs from `inp.m_bitDepth`; in every other case it completes and marks
the output frame available. -/
theorem C16_process_fatal_iff (s : FrameScale) (out inp : Frame) :
    (FrameScaleGaussian.process s out inp = none
      ↔ (out.m_isFloat ≠ inp.m_isFloat
          ∨ (inp.m_isFloat = false ∧ out.m_bitDepth ≠ inp.m_bitDepth))) ∧
    (¬ (out.m_isFloat ≠ inp.m_isFloat
          ∨ (inp.m_isFloat = false ∧ out.m_bitDepth ≠ inp.m_bitDepth)) →
      ∃ r : FrameScale × Frame,
        FrameScaleGaussian.process s out inp = some r ∧ r.2.m_isAvailable = true ∧
          r.2.m_frameNo = inp.m_frameNo) := by
  have hsome : ¬ (out.m_isFloat ≠ inp.m_isFloat
        ∨ (inp.m_isFloat = false ∧ out.m_bitDepth ≠ inp.m_bitDepth)) →
      ∃ r : FrameScale × Frame,
        FrameScaleGaussian.process s out inp = some r ∧ r.2.m_isAvailable = true ∧
          r.2.m_frameNo = inp.m_frameNo := by
    intro hc
    unfold FrameScaleGaussian.process
    rw [if_neg hc]
    dsimp only
    split_ifs
    all_goals
      refine ⟨_, rfl, ?_, ?_⟩
      · exact (foldl_preserves _ (fun (st : FrameScale × Frame) => st.2.m_isAvailable)
          (by intro _ _; rfl) _ _).trans
            (foldl_preserves _ (fun (o : Frame) => o.m_isAvailable) (by intro _ _; rfl) _ _)
      · exact (foldl_preserves _ (fun (st : FrameScale × Frame) => st.2.m_frameNo)
          (by intro _ _; rfl) _ _).trans
            (foldl_preserves _ (fun (o : Frame) => o.m_frameNo) (by intro _ _; rfl) _ _)
  refine ⟨⟨?_, ?_⟩, hsome⟩
  · intro h
    by_contra hc
    obtain ⟨r, hr, _⟩ := hsome hc
    rw [h] at hr
    exact Option.noConfusion hr
  · intro hc
    unfold FrameScaleGaussian.process
    rw [if_pos hc]

/-- Witness of C16: an 8-bit 2x2 frame with 1x1 chroma through a unit-scale scaler. -/
theorem C16_process_fatal_iff_witness :
    ∃ r : FrameScale × Frame,
      FrameScaleGaussian.process (FrameScaleGaussian.new (fun t => 1 / (1 - t)) { } 2 2 2 2 2 0)
          { m_width := [2, 1, 1], m_height := [2, 1, 1], m_comp := [[0, 0, 0, 0], [0], [0]] }
          { m_width := [2, 1, 1], m_height := [2, 1, 1], m_comp := [[1, 2, 3, 4], [5], [6]],
            m_maxPelValue := [255, 255, 255], m_frameNo := 7 } = some r ∧
        r.2.m_isAvailable = true ∧ r.2.m_frameNo = 7 :=
  (C16_process_fatal_iff (FrameScaleGaussian.new (fun t => 1 / (1 - t)) { } 2 2 2 2 2 0)
      { m_width := [2, 1, 1], m_height := [2, 1, 1], m_comp := [[0, 0, 0, 0], [0], [0]] }
      { m_width := [2, 1, 1], m_height := [2, 1, 1], m_comp := [[1, 2, 3, 4], [5], [6]],
        m_maxPelValue := [255, 255, 255], m_frameNo := 7 }).2 (by decide)

/-! ## The 8-bit and the 16-bit integer per-sample filters -/

/-- Counterexample to C27 as stated: for the sample 255, the coefficients 4 and 2 at
precision 1 and `[vMin, vMax] = [0, 1023]` the clamped value is 510; the 16-bit filter
returns 510 and the 8-bit filter returns `(imgpel) 510 = 254`. -/
theorem C27_counterexample :
    FrameScale.filter
        { m_filterTapsX := 1, m_filterTapsY := 1, m_filterOffsetsX := [0],
          m_filterOffsetsY := [0], m_iMaxX := 0, m_iMaxY := 0 }
        [255] [4] [2] 1 0 0 1 0 1023 = 254 ∧
    FrameScale.filter16
        { m_filterTapsX := 1, m_filterTapsY := 1, m_filterOffsetsX := [0],
          m_filterOffsetsY := [0], m_iMaxX := 0, m_iMaxY := 0 }
        [255] [4] [2] 1 0 0 1 0 1023 = 510 := by
  decide

/-- C27 (amended): the 8-bit integer-path per-sample filter, which skips every row whose
vertical coefficient is 0, accumulates the same sum as the 16-bit integer-path per-sample
filter, which does not skip, for equal coefficients, offsets, position, limits and sample
values; both return the same number when the clip range lies inside the range of
`imgpel`, `0 <= vMin <= vMax <= 255`. -/
theorem C27_skip_zero_rows_same_value (s : FrameScale) (input : List Int)
    (filterX filterY : List Int) (filterPrecision : Nat) (posX posY : Int) (iSizeX : Nat)
    (vMin vMax : Int) (h0 : 0 ≤ vMin) (h1 : vMin ≤ vMax) (h2 : vMax ≤ 255) :
    (s.filterLoop input filterX filterY posX posY iSizeX).1
      = (s.filterLoop16 input filterX filterY posX posY iSizeX).1 ∧
    s.filter input filterX filterY filterPrecision posX posY iSizeX vMin vMax
      = s.filter16 input filterX filterY filterPrecision posX posY iSizeX vMin vMax := by
  have hsum : (s.filterLoop input filterX filterY posX posY iSizeX).1
      = (s.filterLoop16 input filterX filterY posX posY iSizeX).1 := by
    rw [filterLoop_eq, filterLoop16_eq]
  refine ⟨hsum, ?_⟩
  unfold FrameScale.filter FrameScale.filter16 roundShiftClip
  dsimp only
  rw [hsum, toImgpel_iClip _ _ _ h0 h1 h2, toUint16_iClip _ _ _ h0 h1 (by omega)]

/-- Witness of C27: two rows of which the first has the vertical coefficient 0. -/
theorem C27_skip_zero_rows_same_value_witness :
    FrameScale.filter
        { m_filterTapsX := 1, m_filterTapsY := 2, m_filterOffsetsX := [0],
          m_filterOffsetsY := [0, 1], m_iMaxX := 0, m_iMaxY := 1 }
        [90, 100] [2] [0, 2] 1 0 0 1 0 255
      = FrameScale.filter16
        { m_filterTapsX := 1, m_filterTapsY := 2, m_filterOffsetsX := [0],
          m_filterOffsetsY := [0, 1], m_iMaxX := 0, m_iMaxY := 1 }
        [90, 100] [2] [0, 2] 1 0 0 1 0 255 :=
  (C27_skip_zero_rows_same_value
    { m_filterTapsX := 1, m_filterTapsY := 2, m_filterOffsetsX := [0],
      m_filterOffsetsY := [0, 1], m_iMaxX := 0, m_iMaxY := 1 }
    [90, 100] [2] [0, 2] 1 0 0 1 0 255 (by decide) (by decide) (by decide)).2

/-! ## The tap that receives the rounding correction -/

/-- C25: for every `filterTaps >= 2`, the tap at row index `(filterTaps + 1) >> 1`, which
receives the rounding correction in `PrepareFilterCoefficients`, has the offset `+1` in
the vector written by `SetFilterLimits`; the tap of offset 0 is at row index
`(filterTaps - 1) >> 1`, one before it. -/
theorem C25_corrected_tap_has_offset_one (filterOffsets : List Int)
    (filterTaps iDimension oDimension : Nat) (factor : ℚ) (iMin : Int)
    (hT : 2 ≤ filterTaps) (hlen : filterTaps ≤ filterOffsets.length) :
    (filterTaps + 1) >>> 1 < filterTaps ∧
    (SetFilterLimits filterOffsets filterTaps iDimension oDimension factor iMin).filterOffsets.getD
        ((filterTaps + 1) >>> 1) 0 = 1 ∧
    (SetFilterLimits filterOffsets filterTaps iDimension oDimension factor iMin).filterOffsets.getD
        ((filterTaps - 1) >>> 1) 0 = 0 ∧
    (filterTaps + 1) >>> 1 = (filterTaps - 1) >>> 1 + 1 := by
  have h1 : (filterTaps + 1) >>> 1 = (filterTaps + 1) / 2 := by
    rw [Nat.shiftRight_eq_div_pow]
  have h2 : (filterTaps - 1) >>> 1 = (filterTaps - 1) / 2 := by
    rw [Nat.shiftRight_eq_div_pow]
  rw [h1, h2]
  have hlt1 : (filterTaps + 1) / 2 < filterTaps := by omega
  have hlt2 : (filterTaps - 1) / 2 < filterTaps := by omega
  refine ⟨hlt1, ?_, ?_, by omega⟩
  · rw [getD_setFilterLimits_offsets _ _ _ _ _ _ _ hlt1 hlen]
    omega
  · rw [getD_setFilterLimits_offsets _ _ _ _ _ _ _ hlt2 hlen]
    omega

/-- Witness of C25: with four taps the correction goes to row index 2, of offset 1. -/
theorem C25_corrected_tap_has_offset_one_witness :
    (4 + 1) >>> 1 < 4 ∧
    (SetFilterLimits [0, 0, 0, 0] 4 8 4 2 0).filterOffsets.getD ((4 + 1) >>> 1) 0 = 1 ∧
    (SetFilterLimits [0, 0, 0, 0] 4 8 4 2 0).filterOffsets.getD ((4 - 1) >>> 1) 0 = 0 ∧
    (4 + 1) >>> 1 = (4 - 1) >>> 1 + 1 :=
  C25_corrected_tap_has_offset_one [0, 0, 0, 0] 4 8 4 2 0 (by decide) (by decide)

/-! ## The two distance branches -/

theorem dAbs_neg_add (o off : ℚ) : dAbs (-o + off) = dAbs (o - off) := by
  rw [dAbs_eq_abs, dAbs_eq_abs, ← abs_neg (o - off)]
  congr 1
  ring

theorem tapWeightUniform_eq (FilterTap : ℚ → ℚ → ℚ → Int → ℚ) (filterOffsets : List Int)
    (factor : ℚ) (pi : ℚ) (lobes : Int) (off : ℚ) (t : Nat) :
    tapWeightUniform FilterTap filterOffsets factor pi lobes off t
      = tapWeight FilterTap filterOffsets factor pi lobes off t := by
  unfold tapWeightUniform tapWeight
  dsimp only
  split_ifs <;> first | rfl | rw [dAbs_neg_add]

theorem tapWeightBasicUniform_eq (FilterTap : ℚ → ℚ) (filterOffsets : List Int)
    (factor : ℚ) (off : ℚ) (t : Nat) :
    tapWeightBasicUniform FilterTap filterOffsets factor off t
      = tapWeightBasic FilterTap filterOffsets factor off t := by
  unfold tapWeightBasicUniform tapWeightBasic
  dsimp only
  split_ifs <;> first | rfl | rw [dAbs_neg_add]

theorem tapLoopUniform_eq (FilterTap : ℚ → ℚ → ℚ → Int → ℚ) (filterOffsets : List Int)
    (factor : ℚ) (filterTaps : Nat) (pi : ℚ) (lobes : Int) (off : ℚ) (index : Nat)
    (factorCoeffs : List ℚ) :
    tapLoopUniform FilterTap filterOffsets factor filterTaps pi lobes off index factorCoeffs
      = tapLoop FilterTap filterOffsets factor filterTaps pi lobes off index factorCoeffs := by
  unfold tapLoopUniform tapLoop
  simp only [tapWeightUniform_eq]

theorem tapLoopBasicUniform_eq (FilterTap : ℚ → ℚ) (filterOffsets : List Int)
    (factor : ℚ) (filterTaps : Nat) (off : ℚ) (index : Nat) (factorCoeffs : List ℚ) :
    tapLoopBasicUniform FilterTap filterOffsets factor filterTaps off index factorCoeffs
      = tapLoopBasic FilterTap filterOffsets factor filterTaps off index factorCoeffs := by
  unfold tapLoopBasicUniform tapLoopBasic
  simp only [tapWeightBasicUniform_eq]

theorem floatRowUniform_eq (FilterTap : ℚ → ℚ → ℚ → Int → ℚ) (filterOffsets : List Int)
    (factor : ℚ) (filterTaps : Nat) (offset : ℚ) (pi : ℚ) (lobes : Int) (x : Nat)
    (factorCoeffs : List ℚ) :
    floatRowUniform FilterTap filterOffsets factor filterTaps offset pi lobes x factorCoeffs
      = floatRow FilterTap filterOffsets factor filterTaps offset pi lobes x factorCoeffs := by
  unfold floatRowUniform floatRow
  simp only [tapLoopUniform_eq]

theorem prepareRowUniform_eq (FilterTap : ℚ → ℚ → ℚ → Int → ℚ) (filterOffsets : List Int)
    (factor : ℚ) (filterTaps : Nat) (offset : ℚ) (pi : ℚ) (lobes : Int) (scale : Int) (x : Nat)
    (st : List ℚ × List Int) :
    prepareRowUniform FilterTap filterOffsets factor filterTaps offset pi lobes scale x st
      = prepareRow FilterTap filterOffsets factor filterTaps offset pi lobes scale x st := by
  unfold prepareRowUniform prepareRow
  simp only [floatRowUniform_eq]

/-- C24: the two distance branches of `PrepareFilterCoefficients` are the same function,
`|o - off| = |-o + off|` for every integer tap offset `o` and every phase `off`, so each
of the three overloads produces the tables of the builder that always uses `|o - off|`,
whatever the factor. -/
theorem C24_distance_branches_agree :
    (∀ (o : Int) (off : ℚ), dAbs ((o : ℚ) - off) = dAbs (-(o : ℚ) + off)) ∧
    (∀ (FilterTap : ℚ → ℚ → ℚ → Int → ℚ) (factorCoeffs : List ℚ) (iFactorCoeffs : List Int)
        (filterOffsets : List Int) (factor : ℚ) (filterTaps : Nat) (offset : ℚ) (oSize : Nat)
        (lobes : Int) (precision : Nat),
      PrepareFilterCoefficients FilterTap factorCoeffs iFactorCoeffs filterOffsets factor
          filterTaps offset oSize lobes precision
        = PrepareFilterCoefficientsUniform FilterTap factorCoeffs iFactorCoeffs filterOffsets
            factor filterTaps offset oSize lobes precision) ∧
    (∀ (FilterTap : ℚ → ℚ → ℚ → Int → ℚ) (factorCoeffs : List ℚ)
        (filterOffsets : List Int) (factor : ℚ) (filterTaps : Nat) (offset : ℚ) (oSize : Nat)
        (lobes : Int),
      PrepareFilterCoefficientsLobes FilterTap factorCoeffs filterOffsets factor filterTaps
          offset oSize lobes
        = PrepareFilterCoefficientsLobesUniform FilterTap factorCoeffs filterOffsets factor
            filterTaps offset oSize lobes) ∧
    (∀ (FilterTap : ℚ → ℚ) (factorCoeffs : List ℚ) (filterOffsets : List Int) (factor : ℚ)
        (filterTaps : Nat) (offset : ℚ) (oSize : Nat),
      PrepareFilterCoefficientsBasic FilterTap factorCoeffs filterOffsets factor filterTaps
          offset oSize
        = PrepareFilterCoefficientsBasicUniform FilterTap factorCoeffs filterOffsets factor
            filterTaps offset oSize) := by
  refine ⟨fun o off => (dAbs_neg_add _ _).symm, ?_, ?_, ?_⟩
  · intros
    unfold PrepareFilterCoefficients PrepareFilterCoefficientsUniform
    simp only [prepareRowUniform_eq]
  · intros
    unfold PrepareFilterCoefficientsLobes PrepareFilterCoefficientsLobesUniform
    simp only [floatRowUniform_eq]
  · intros
    unfold PrepareFilterCoefficientsBasic PrepareFilterCoefficientsBasicUniform
    simp only [tapLoopBasicUniform_eq]

/-! ## The source coordinate of an output position -/

/-- C21: for `iSize, oSize >= 1` and `0 <= x < oSize`, the source coordinate of the
plane-level integer filters, `trunc(x * factor)` with the factor `iSize / oSize` that the
constructor stores, equals `floor(x * iSize / oSize)`, lies in `[0, iSize - 1]`, and is
the integer part `floor(posOrig)` of `posOrig = 0 + x * factor`, from which
`PrepareFilterCoefficients` takes the phase `posOrig - floor(posOrig)` of the row. -/
theorem C21_source_coordinate (exp : ℚ → ℚ) (self : FrameScale) (iSize oSize : Nat)
    (iHeight oHeight : Nat) (lobes : Int) (chromaLocationType : Int) (x : Nat)
    (hi : 1 ≤ iSize) (ho : 1 ≤ oSize) (hx : x < oSize) :
    (FrameScaleGaussian.new exp self iSize iHeight oSize oHeight lobes
        chromaLocationType).m_factorX = (iSize : ℚ) / (oSize : ℚ) ∧
    truncToInt ((x : ℚ) * ((iSize : ℚ) / (oSize : ℚ))) = ((x * iSize / oSize : Nat) : Int) ∧
    0 ≤ truncToInt ((x : ℚ) * ((iSize : ℚ) / (oSize : ℚ))) ∧
    truncToInt ((x : ℚ) * ((iSize : ℚ) / (oSize : ℚ))) ≤ (iSize : Int) - 1 ∧
    truncToInt ((x : ℚ) * ((iSize : ℚ) / (oSize : ℚ)))
      = ⌊(0 : ℚ) + (x : ℚ) * ((iSize : ℚ) / (oSize : ℚ))⌋ ∧
    phase ((iSize : ℚ) / (oSize : ℚ)) 0 x
      = (0 : ℚ) + (x : ℚ) * ((iSize : ℚ) / (oSize : ℚ))
        - ((truncToInt ((x : ℚ) * ((iSize : ℚ) / (oSize : ℚ))) : Int) : ℚ) := by
  have hnn : (0 : ℚ) ≤ (x : ℚ) * ((iSize : ℚ) / (oSize : ℚ)) := by positivity
  have ht : truncToInt ((x : ℚ) * ((iSize : ℚ) / (oSize : ℚ)))
      = ((x * iSize / oSize : Nat) : Int) := by
    rw [truncToInt_of_nonneg _ hnn]
    have : (x : ℚ) * ((iSize : ℚ) / (oSize : ℚ)) = ((x * iSize : Nat) : ℚ) / ((oSize : Nat) : ℚ) := by
      push_cast; ring
    rw [this, Rat.floor_natCast_div_natCast]
    norm_cast
  have hlt : x * iSize / oSize < iSize := by
    rw [Nat.div_lt_iff_lt_mul (by omega)]
    exact Nat.mul_lt_mul_of_lt_of_le hx (le_refl _) (by omega) |>.trans_eq (Nat.mul_comm _ _)
  refine ⟨rfl, ht, ?_, ?_, ?_, ?_⟩
  · rw [ht]; exact Int.natCast_nonneg _
  · rw [ht]; omega
  · rw [zero_add, truncToInt_of_nonneg _ hnn]
  · unfold phase
    simp only [zero_add]
    rw [truncToInt_of_nonneg _ hnn]

/-- Witness of C21: 5 source samples, 3 output samples, position 2. -/
theorem C21_source_coordinate_witness :
    (FrameScaleGaussian.new (fun _ => 1) { } 5 5 3 3 2 0).m_factorX = ((5 : Nat) : ℚ) / ((3 : Nat) : ℚ) ∧
    truncToInt (((2 : Nat) : ℚ) * (((5 : Nat) : ℚ) / ((3 : Nat) : ℚ))) = ((2 * 5 / 3 : Nat) : Int) ∧
    0 ≤ truncToInt (((2 : Nat) : ℚ) * (((5 : Nat) : ℚ) / ((3 : Nat) : ℚ))) ∧
    truncToInt (((2 : Nat) : ℚ) * (((5 : Nat) : ℚ) / ((3 : Nat) : ℚ))) ≤ ((5 : Nat) : Int) - 1 ∧
    truncToInt (((2 : Nat) : ℚ) * (((5 : Nat) : ℚ) / ((3 : Nat) : ℚ)))
      = ⌊(0 : ℚ) + ((2 : Nat) : ℚ) * (((5 : Nat) : ℚ) / ((3 : Nat) : ℚ))⌋ ∧
    phase (((5 : Nat) : ℚ) / ((3 : Nat) : ℚ)) 0 2
      = (0 : ℚ) + ((2 : Nat) : ℚ) * (((5 : Nat) : ℚ) / ((3 : Nat) : ℚ))
        - ((truncToInt (((2 : Nat) : ℚ) * (((5 : Nat) : ℚ) / ((3 : Nat) : ℚ))) : Int) : ℚ) :=
  C21_source_coordinate (fun _ => 1) { } 5 3 5 3 2 0 2 (by decide) (by decide) (by decide)

/-! ## The indices of the tables -/

theorem mem_foldl_append {α : Type} (f : Nat → List α) (n : Nat) (k : α) :
    k ∈ (List.range n).foldl (fun (acc : List α) (x : Nat) => acc ++ f x) []
      ↔ ∃ x, x < n ∧ k ∈ f x := by
  induction n with
  | zero => simp
  | succ n ih =>
    rw [List.range_succ, List.foldl_append]
    simp only [List.foldl_cons, List.foldl_nil, List.mem_append, ih]
    constructor
    · rintro (⟨x, hx, hk⟩ | hk)
      · exact ⟨x, by omega, hk⟩
      · exact ⟨n, by omega, hk⟩
    · rintro ⟨x, hx, hk⟩
      by_cases hxn : x = n
      · subst hxn; exact Or.inr hk
      · exact Or.inl ⟨x, by omega, hk⟩

/-- The floating table is touched inside `[0, oSize * filterTaps)` only, and so is the
integer table when `filterTaps >= 2`. -/
theorem table_accesses_in_bounds (filterTaps oSize : Nat) :
    (∀ k ∈ floatTableAccesses filterTaps oSize, k < oSize * filterTaps) ∧
    (2 ≤ filterTaps → ∀ k ∈ intTableAccesses filterTaps oSize, k < oSize * filterTaps) := by
  have hrow : ∀ x t, x < oSize → t < filterTaps → x * filterTaps + t < oSize * filterTaps := by
    intro x t hx ht
    have : (x + 1) * filterTaps ≤ oSize * filterTaps := Nat.mul_le_mul_right _ (by omega)
    rw [Nat.add_mul, Nat.one_mul] at this
    omega
  constructor
  · intro k hk
    unfold floatTableAccesses at hk
    rw [mem_foldl_append] at hk
    obtain ⟨x, hx, hk⟩ := hk
    unfold floatRowAccesses at hk
    simp only [List.mem_append, List.mem_map, List.mem_range] at hk
    rcases hk with (⟨t, ht, rfl⟩ | ⟨t, ht, rfl⟩) | ⟨t, ht, rfl⟩ <;> exact hrow x t hx ht
  · intro hT k hk
    unfold intTableAccesses at hk
    rw [mem_foldl_append] at hk
    obtain ⟨x, hx, hk⟩ := hk
    unfold intRowAccesses at hk
    simp only [List.mem_append, List.mem_map, List.mem_range, List.mem_singleton] at hk
    rcases hk with ⟨t, ht, rfl⟩ | rfl
    · exact hrow x t hx ht
    · refine hrow x _ hx ?_
      rw [Nat.shiftRight_eq_div_pow]
      omega

/-- C26, the code at the failing input: with one tap and four rows (an axis of factor 1
in `FrameScaleGaussian`, which allocates `4 * 1` entries), `PrepareFilterCoefficients`
reads and writes `iFactorCoeffs[4]`, one past the table. -/
theorem C26_correction_past_the_table :
    FrameScaleGaussian.filterTaps ((4 : ℚ) / 4) 2 = 1 ∧
    intTableAccesses 1 4 = [0, 1, 1, 2, 2, 3, 3, 4] ∧
    4 * 1 ∈ intTableAccesses 1 4 ∧
    ¬ (∀ k ∈ intTableAccesses 1 4, k < 4 * 1) := by
  refine ⟨?_, by decide, by decide, by decide⟩
  exact filterTaps_of_eq _ _ (by norm_num)

/-! ## The support of the Gaussian kernel and the tap window -/

theorem phase_nonneg (factor offset : ℚ) (x : Nat) : 0 ≤ phase factor offset x := by
  unfold phase
  dsimp only
  linarith [Int.floor_le (offset + (x : ℚ) * factor)]

theorem phase_lt_one (factor offset : ℚ) (x : Nat) : phase factor offset x < 1 := by
  unfold phase
  dsimp only
  linarith [Int.lt_floor_add_one (offset + (x : ℚ) * factor)]

theorem filterTap_nonneg (exp : ℚ → ℚ) (hexp : ∀ t, 0 ≤ exp t) (dist piScaled factor : ℚ)
    (lobes : Int) : 0 ≤ FrameScaleGaussian.FilterTap exp dist piScaled factor lobes := by
  unfold FrameScaleGaussian.FilterTap
  dsimp only
  split_ifs
  · exact le_refl _
  · exact hexp _

theorem filterTap_pos (exp : ℚ → ℚ) (hexp : ∀ t, -(1 / 2) ≤ t → t ≤ 0 → 0 < exp t)
    (dist piScaled factor : ℚ) (lobes : Int) (hf : 1 ≤ factor) (hl : 1 ≤ lobes)
    (h : |dist| ≤ 1 / 2) :
    0 < FrameScaleGaussian.FilterTap exp dist piScaled factor lobes := by
  have hl1 : (1 : ℚ) ≤ (lobes : ℚ) := by exact_mod_cast hl
  have hL : |dist| ≤ (lobes : ℚ) * (factor * (1 / 2)) := by nlinarith
  have hSD : 0 < factor * (1 / 2) := by linarith
  have hy0 : 0 ≤ |dist| / (factor * (1 / 2)) := div_nonneg (abs_nonneg _) (le_of_lt hSD)
  have hy1 : |dist| / (factor * (1 / 2)) ≤ 1 := by
    rw [div_le_one hSD]
    linarith
  unfold FrameScaleGaussian.FilterTap
  dsimp only
  rw [dAbs_eq_abs, if_neg (not_lt.mpr hL)]
  apply hexp
  · nlinarith
  · nlinarith

theorem filterTap_support (exp : ℚ → ℚ) (dist piScaled factor : ℚ) (lobes : Int)
    (h : FrameScaleGaussian.FilterTap exp dist piScaled factor lobes ≠ 0) :
    |dist| ≤ (lobes : ℚ) * (factor * (1 / 2)) := by
  unfold FrameScaleGaussian.FilterTap at h
  dsimp only at h
  rw [dAbs_eq_abs] at h
  by_contra hc
  rw [if_pos (not_le.mp hc)] at h
  exact h rfl

theorem filterTaps_toNat_lt (factor : ℚ) (lobes : Int) (hl : 1 ≤ lobes) (h : factor < 1) :
    (((FrameScaleGaussian.filterTaps factor lobes).toNat : Nat) : Int) = 2 * lobes := by
  rw [filterTaps_of_lt factor lobes h]
  exact Int.toNat_of_nonneg (by omega)

theorem filterTaps_toNat_gt (factor : ℚ) (lobes : Int) (hl : 1 ≤ lobes) (h : 1 < factor) :
    (((FrameScaleGaussian.filterTaps factor lobes).toNat : Nat) : Int)
        = ⌈factor * 2 * (lobes : ℚ)⌉ ∧
      3 ≤ ⌈factor * 2 * (lobes : ℚ)⌉ := by
  rw [filterTaps_of_gt factor lobes h]
  have hl1 : (1 : ℚ) ≤ (lobes : ℚ) := by exact_mod_cast hl
  have h3 : 3 ≤ ⌈factor * 2 * (lobes : ℚ)⌉ := by
    have : (2 : Int) < ⌈factor * 2 * (lobes : ℚ)⌉ := by
      rw [Int.lt_ceil]
      push_cast
      nlinarith
    omega
  exact ⟨Int.toNat_of_nonneg (by omega), h3⟩

/-- C23: the tap window chosen by `FrameScaleGaussian` contains the kernel support: for
every scale factor other than 1, `lobes >= 1` and fractional phase `off` in `[0, 1)`, every
integer offset `o` at which `FilterTap(|o - off|, ., max(factor, 1), lobes)` is non-zero
belongs to the offset vector written by `SetFilterLimits` for the tap count
`ceil(factor * 2 * lobes)` (`factor > 1`) or `2 * lobes` (`factor < 1`). -/
theorem C23_window_covers_support (exp : ℚ → ℚ) (filterOffsets : List Int)
    (iDimension oDimension : Nat) (factor : ℚ) (lobes : Int) (iMin : Int) (off piScaled : ℚ)
    (o : Int) (hf : factor ≠ 1) (hl : 1 ≤ lobes) (hoff0 : 0 ≤ off) (hoff1 : off < 1)
    (hlen : filterOffsets.length = (FrameScaleGaussian.filterTaps factor lobes).toNat)
    (hw : FrameScaleGaussian.FilterTap exp (dAbs ((o : ℚ) - off)) piScaled
            (if factor > 1 then factor else 1) lobes ≠ 0) :
    o ∈ (SetFilterLimits filterOffsets (FrameScaleGaussian.filterTaps factor lobes).toNat
          iDimension oDimension factor iMin).filterOffsets := by
  have hs := filterTap_support exp _ _ _ _ hw
  rw [dAbs_eq_abs, abs_abs, abs_le] at hs
  obtain ⟨hlo, hhi⟩ := hs
  rw [mem_setFilterLimits_offsets _ _ _ _ _ _ hlen]
  have hl1 : (1 : ℚ) ≤ (lobes : ℚ) := by exact_mod_cast hl
  rcases lt_or_gt_of_ne hf with hlt | hgt
  · have hT := filterTaps_toNat_lt factor lobes hl hlt
    rw [if_neg (not_lt.mpr (le_of_lt hlt))] at hlo hhi
    have h1 : -lobes ≤ 2 * o := by
      have : ((-lobes : Int) : ℚ) ≤ ((2 * o : Int) : ℚ) := by push_cast; linarith
      exact_mod_cast this
    have h2 : 2 * o < 2 + lobes := by
      have : ((2 * o : Int) : ℚ) < ((2 + lobes : Int) : ℚ) := by push_cast; linarith
      exact_mod_cast this
    generalize (FrameScaleGaussian.filterTaps factor lobes).toNat = T at hT
    refine ⟨(o + ((T : Int) - 1) / 2).toNat, ?_, ?_⟩ <;> omega
  · obtain ⟨hT, h3⟩ := filterTaps_toNat_gt factor lobes hl hgt
    rw [if_pos hgt] at hlo hhi
    have hc : factor * 2 * (lobes : ℚ) ≤ (⌈factor * 2 * (lobes : ℚ)⌉ : ℚ) := Int.le_ceil _
    have h1 : -⌈factor * 2 * (lobes : ℚ)⌉ ≤ 4 * o := by
      have : ((-⌈factor * 2 * (lobes : ℚ)⌉ : Int) : ℚ) ≤ ((4 * o : Int) : ℚ) := by
        push_cast; linarith
      exact_mod_cast this
    have h2 : 4 * o < 4 + ⌈factor * 2 * (lobes : ℚ)⌉ := by
      have : ((4 * o : Int) : ℚ) < ((4 + ⌈factor * 2 * (lobes : ℚ)⌉ : Int) : ℚ) := by
        push_cast; linarith
      exact_mod_cast this
    generalize ⌈factor * 2 * (lobes : ℚ)⌉ = C at hT h3 h1 h2
    generalize (FrameScaleGaussian.filterTaps factor lobes).toNat = T at hT
    refine ⟨(o + ((T : Int) - 1) / 2).toNat, ?_, ?_⟩ <;> omega

/-- Witness of C23: factor 2, two lobes (8 taps, offsets -3 .. 4), phase 1/2, offset -1. -/
theorem C23_window_covers_support_witness :
    (-1 : Int) ∈ (SetFilterLimits (List.replicate 8 0)
        (FrameScaleGaussian.filterTaps 2 2).toNat 8 4 2 0).filterOffsets :=
  C23_window_covers_support (fun _ => 1) (List.replicate 8 0) 8 4 2 2 0 (1 / 2) 0 (-1)
    (by norm_num) (by decide) (by norm_num) (by norm_num)
    (by
      have h : FrameScaleGaussian.filterTaps 2 2 = 8 := by
        rw [filterTaps_of_gt 2 2 (by norm_num)]
        norm_num
      rw [h]
      rfl)
    (by
      norm_num [FrameScaleGaussian.FilterTap, dAbs])

/-! ## The weight sum of a row of the Gaussian scaler -/

theorem rowCoeffSum_gaussian_pos (exp : ℚ → ℚ) (hexp0 : ∀ t, 0 ≤ exp t)
    (hexp : ∀ t, -(1 / 2) ≤ t → t ≤ 0 → 0 < exp t) (iDimension oDimension : Nat)
    (factor : ℚ) (lobes : Int) (iMin : Int) (x : Nat) (hl : 1 ≤ lobes)
    (h1 : factor = 1 → phase factor 0 x = 0) :
    0 < rowCoeffSum (FrameScaleGaussian.FilterTap exp)
          (SetFilterLimits
              (List.replicate (FrameScaleGaussian.filterTaps factor lobes).toNat 0)
              (FrameScaleGaussian.filterTaps factor lobes).toNat iDimension oDimension factor
              iMin).filterOffsets
          factor (FrameScaleGaussian.filterTaps factor lobes).toNat 0 lobes x := by
  have hl1 : (1 : ℚ) ≤ (lobes : ℚ) := by exact_mod_cast hl
  have hp0 := phase_nonneg factor 0 x
  have hp1 := phase_lt_one factor 0 x
  -- the tap count: at least 1, and at least 2 away from factor 1
  have hT1 : 1 ≤ (FrameScaleGaussian.filterTaps factor lobes).toNat ∧
      (factor ≠ 1 → 2 ≤ (FrameScaleGaussian.filterTaps factor lobes).toNat) := by
    rcases lt_trichotomy factor 1 with hlt | heq | hgt
    · have := filterTaps_toNat_lt factor lobes hl hlt
      constructor
      · omega
      · intro _; omega
    · rw [filterTaps_of_eq factor lobes heq]
      exact ⟨by decide, fun h => absurd heq h⟩
    · have := filterTaps_toNat_gt factor lobes hl hgt
      constructor
      · omega
      · intro _; omega
  have hm : (1 : ℚ) ≤ (if factor > 1 then factor else 1) := by
    split_ifs with hg
    · exact le_of_lt hg
    · exact le_refl _
  generalize hTdef : (FrameScaleGaussian.filterTaps factor lobes).toNat = T at hT1 ⊢
  obtain ⟨hT1, hT2⟩ := hT1
  have hoffs : ∀ t, t < T →
      (SetFilterLimits (List.replicate T 0) T iDimension oDimension factor iMin).filterOffsets.getD
        t 0 = (t : Int) - ((T : Int) - 1) / 2 := by
    intro t ht
    exact getD_setFilterLimits_offsets _ _ _ _ _ _ t ht (by simp)
  unfold rowCoeffSum
  apply Finset.sum_pos'
  · intro j _
    unfold tapWeight
    exact filterTap_nonneg exp hexp0 _ _ _ _
  · by_cases hhalf : phase factor 0 x ≤ 1 / 2
    · refine ⟨(T - 1) / 2, Finset.mem_range.mpr (by omega), ?_⟩
      have ho : (SetFilterLimits (List.replicate T 0) T iDimension oDimension factor
          iMin).filterOffsets.getD ((T - 1) / 2) 0 = 0 := by
        rw [hoffs _ (by omega)]
        omega
      unfold tapWeight
      dsimp only
      rw [ho]
      apply filterTap_pos exp hexp _ _ _ _ hm hl
      split_ifs
      · rw [dAbs_eq_abs, abs_abs, abs_le]; push_cast; constructor <;> linarith
      · rw [dAbs_eq_abs, abs_abs, abs_le]; push_cast; constructor <;> linarith
    · have hne : factor ≠ 1 := by
        intro h
        rw [h1 h] at hhalf
        exact hhalf (by norm_num)
      have hT2 := hT2 hne
      refine ⟨(T - 1) / 2 + 1, Finset.mem_range.mpr (by omega), ?_⟩
      have ho : (SetFilterLimits (List.replicate T 0) T iDimension oDimension factor
          iMin).filterOffsets.getD ((T - 1) / 2 + 1) 0 = 1 := by
        rw [hoffs _ (by omega)]
        omega
      unfold tapWeight
      dsimp only
      rw [ho]
      apply filterTap_pos exp hexp _ _ _ _ hm hl
      have hh : (1 : ℚ) / 2 < phase factor 0 x := not_le.mp hhalf
      split_ifs
      · rw [dAbs_eq_abs, abs_abs, abs_le]; push_cast; constructor <;> linarith
      · rw [dAbs_eq_abs, abs_abs, abs_le]; push_cast; constructor <;> linarith

/-- C22: for the Gaussian scaler, with the tap count and the offsets that the constructor
and `SetFilterLimits` choose and offset 0, the pre-normalisation weight sum of every row
of `PrepareFilterCoefficients` is strictly positive, on both axes, for positive input and
output sizes and `lobes >= 1`.  Of the C library's exponential the proof uses that it is
never negative and that it is positive on `[-1/2, 0]`. -/
theorem C22_weight_sum_positive (exp : ℚ → ℚ) (self : FrameScale)
    (iWidth iHeight oWidth oHeight : Nat) (lobes : Int) (chromaLocationType : Int)
    (hexp0 : ∀ t, 0 ≤ exp t) (hexp : ∀ t, -(1 / 2) ≤ t → t ≤ 0 → 0 < exp t) (hiw : 0 < iWidth) (hih : 0 < iHeight) (how : 0 < oWidth)
    (hoh : 0 < oHeight) (hl : 1 ≤ lobes) (x : Nat) :
    0 < rowCoeffSum (FrameScaleGaussian.FilterTap exp)
          (FrameScaleGaussian.new exp self iWidth iHeight oWidth oHeight lobes
            chromaLocationType).m_filterOffsetsX
          (FrameScaleGaussian.new exp self iWidth iHeight oWidth oHeight lobes
            chromaLocationType).m_factorX
          (FrameScaleGaussian.new exp self iWidth iHeight oWidth oHeight lobes
            chromaLocationType).m_filterTapsX
          (FrameScaleGaussian.new exp self iWidth iHeight oWidth oHeight lobes
            chromaLocationType).m_offsetX
          (FrameScaleGaussian.new exp self iWidth iHeight oWidth oHeight lobes
            chromaLocationType).m_lobesX x ∧
    0 < rowCoeffSum (FrameScaleGaussian.FilterTap exp)
          (FrameScaleGaussian.new exp self iWidth iHeight oWidth oHeight lobes
            chromaLocationType).m_filterOffsetsY
          (FrameScaleGaussian.new exp self iWidth iHeight oWidth oHeight lobes
            chromaLocationType).m_factorY
          (FrameScaleGaussian.new exp self iWidth iHeight oWidth oHeight lobes
            chromaLocationType).m_filterTapsY
          (FrameScaleGaussian.new exp self iWidth iHeight oWidth oHeight lobes
            chromaLocationType).m_offsetY
          (FrameScaleGaussian.new exp self iWidth iHeight oWidth oHeight lobes
            chromaLocationType).m_lobesY x := by
  have hunit : ∀ f : ℚ, f = 1 → phase f 0 x = 0 := by
    intro f hf
    rw [hf]
    exact phase_unit x
  exact ⟨rowCoeffSum_gaussian_pos exp hexp0 hexp iWidth oWidth _ lobes self.m_iMinX x hl (hunit _),
    rowCoeffSum_gaussian_pos exp hexp0 hexp iHeight oHeight _ lobes self.m_iMinY x hl (hunit _)⟩

/-- Witness of C22: 4x4 to 2x2 with two lobes, row 1, for a positive stand-in of `exp`. -/
theorem C22_weight_sum_positive_witness :
    0 < rowCoeffSum (FrameScaleGaussian.FilterTap (fun _ => 1))
          (FrameScaleGaussian.new (fun _ => 1) { } 4 4 2 2 2 0).m_filterOffsetsX
          (FrameScaleGaussian.new (fun _ => 1) { } 4 4 2 2 2 0).m_factorX
          (FrameScaleGaussian.new (fun _ => 1) { } 4 4 2 2 2 0).m_filterTapsX
          (FrameScaleGaussian.new (fun _ => 1) { } 4 4 2 2 2 0).m_offsetX
          (FrameScaleGaussian.new (fun _ => 1) { } 4 4 2 2 2 0).m_lobesX 1 ∧
    0 < rowCoeffSum (FrameScaleGaussian.FilterTap (fun _ => 1))
          (FrameScaleGaussian.new (fun _ => 1) { } 4 4 2 2 2 0).m_filterOffsetsY
          (FrameScaleGaussian.new (fun _ => 1) { } 4 4 2 2 2 0).m_factorY
          (FrameScaleGaussian.new (fun _ => 1) { } 4 4 2 2 2 0).m_filterTapsY
          (FrameScaleGaussian.new (fun _ => 1) { } 4 4 2 2 2 0).m_offsetY
          (FrameScaleGaussian.new (fun _ => 1) { } 4 4 2 2 2 0).m_lobesY 1 :=
  C22_weight_sum_positive (fun _ => 1) { } 4 4 2 2 2 0 (fun _ => zero_le_one)
    (fun _ _ _ => one_pos) (by decide)
    (by decide) (by decide) (by decide) (by decide) 1

/-! ## The byte order of a 16-bit PGM -/

/-- The setter that `allocateMemory` selects for the host. -/
theorem callSetU16_selected (machineLittleEndian : Bool) (t : PGraphics) (v : Nat)
    (hsel : t.setU16 =
      if (1 : Int) = (if machineLittleEndian then 1 else 0) then U16Setter.setSwappedU16
      else U16Setter.setU16) :
    t.callSetU16 machineLittleEndian v
      = ({ t with
            fileInMemory := (t.fileInMemory.set t.mp (v / 256 % 256)).set (t.mp + 1) (v % 256),
            mp := t.mp + 1 + 1 }, 2) := by
  cases machineLittleEndian
  · simp only [Bool.false_eq_true, if_false] at hsel
    rw [if_neg (by decide)] at hsel
    simp [PGraphics.callSetU16, hsel, setU16, objectBytes16]
  · simp only [if_true] at hsel
    simp [PGraphics.callSetU16, hsel, setSwappedU16, objectBytes16]

/-- The state of the loop of `writeImageData` (case 16) after `k` samples. -/
theorem setterLoop_spec (machineLittleEndian : Bool) (t : PGraphics)
    (hsel : t.setU16 =
      if (1 : Int) = (if machineLittleEndian then 1 else 0) then U16Setter.setSwappedU16
      else U16Setter.setU16) (k : Nat)
    (hroom : t.mp + 2 * k ≤ t.fileInMemory.length) :
    ((List.range k).foldl
        (fun (st : PGraphics × Nat) (i : Nat) =>
          let c := st.1.callSetU16 machineLittleEndian (st.1.img.getD i 0)
          (c.1, st.2 + c.2))
        (t, 0)).2 = 2 * k ∧
    ((List.range k).foldl
        (fun (st : PGraphics × Nat) (i : Nat) =>
          let c := st.1.callSetU16 machineLittleEndian (st.1.img.getD i 0)
          (c.1, st.2 + c.2))
        (t, 0)).1.mp = t.mp + 2 * k ∧
    ((List.range k).foldl
        (fun (st : PGraphics × Nat) (i : Nat) =>
          let c := st.1.callSetU16 machineLittleEndian (st.1.img.getD i 0)
          (c.1, st.2 + c.2))
        (t, 0)).1.img = t.img ∧
    ((List.range k).foldl
        (fun (st : PGraphics × Nat) (i : Nat) =>
          let c := st.1.callSetU16 machineLittleEndian (st.1.img.getD i 0)
          (c.1, st.2 + c.2))
        (t, 0)).1.setU16 = t.setU16 ∧
    ((List.range k).foldl
        (fun (st : PGraphics × Nat) (i : Nat) =>
          let c := st.1.callSetU16 machineLittleEndian (st.1.img.getD i 0)
          (c.1, st.2 + c.2))
        (t, 0)).1.fileInMemory.length = t.fileInMemory.length ∧
    ∀ i, i < k →
      ((List.range k).foldl
          (fun (st : PGraphics × Nat) (i : Nat) =>
            let c := st.1.callSetU16 machineLittleEndian (st.1.img.getD i 0)
            (c.1, st.2 + c.2))
          (t, 0)).1.fileInMemory.getD (t.mp + 2 * i) 0 = t.img.getD i 0 / 256 % 256 ∧
      ((List.range k).foldl
          (fun (st : PGraphics × Nat) (i : Nat) =>
            let c := st.1.callSetU16 machineLittleEndian (st.1.img.getD i 0)
            (c.1, st.2 + c.2))
          (t, 0)).1.fileInMemory.getD (t.mp + 2 * i + 1) 0 = t.img.getD i 0 % 256 := by
  induction k with
  | zero =>
    refine ⟨rfl, rfl, rfl, rfl, rfl, ?_⟩
    intro i hi
    omega
  | succ k ih =>
    obtain ⟨h1, h2, h3, h4, h5, h6⟩ := ih (by omega)
    rw [List.range_succ, List.foldl_append]
    simp only [List.foldl_cons, List.foldl_nil]
    generalize (List.range k).foldl
        (fun (st : PGraphics × Nat) (i : Nat) =>
          let c := st.1.callSetU16 machineLittleEndian (st.1.img.getD i 0)
          (c.1, st.2 + c.2))
        (t, 0) = r at h1 h2 h3 h4 h5 h6 ⊢
    rw [callSetU16_selected machineLittleEndian r.1 _ (h4.trans hsel)]
    dsimp only
    refine ⟨by omega, by omega, h3, h4, ?_, ?_⟩
    · rw [List.length_set, List.length_set, h5]
    · intro i hi
      by_cases hik : i = k
      · subst hik
        rw [h2, h3]
        constructor
        · rw [getD_set_ne _ _ _ _ _ (by omega), getD_set_eq _ _ _ _ (by omega)]
        · rw [getD_set_eq _ _ _ _ (by rw [List.length_set]; omega)]
      · have hlt : i < k := by omega
        obtain ⟨ha, hb⟩ := h6 i hlt
        rw [h2]
        constructor
        · rw [getD_set_ne _ _ _ _ _ (by omega), getD_set_ne _ _ _ _ _ (by omega), ha]
        · rw [getD_set_ne _ _ _ _ _ (by omega), getD_set_ne _ _ _ _ _ (by omega), hb]

theorem length_vectorResize (l : List Nat) (n : Nat) : (vectorResize l n).length = n := by
  unfold vectorResize
  rw [List.length_append, List.length_take, List.length_replicate]
  omega

theorem u16_high_byte (v : Nat) (h : v < 65536) : v / 256 % 256 = v >>> 8 := by
  rw [Nat.shiftRight_eq_div_pow]
  omega

theorem u16_low_byte (v : Nat) : v % 256 = v &&& 0xFF := by
  have h := Nat.and_pow_two_sub_one_eq_mod v 8
  simpa using h.symm

theorem writeImageData_16 (machineLittleEndian : Bool) (p : OutputPGM)
    (hb : p.m_pgm.BitsPerSample.getD 0 0 = 16)
    (hsel : p.m_pgm.setU16 =
      if (1 : Int) = (if machineLittleEndian then 1 else 0) then U16Setter.setSwappedU16
      else U16Setter.setU16)
    (hroom : p.m_pgm.mp + 2 * (p.m_pgm.m_height * p.m_pgm.m_width)
      ≤ p.m_pgm.fileInMemory.length) :
    (OutputPGM.writeImageData machineLittleEndian p).2
        = 2 * (p.m_pgm.m_height * p.m_pgm.m_width) ∧
    ∀ i, i < p.m_pgm.m_height * p.m_pgm.m_width →
      (OutputPGM.writeImageData machineLittleEndian p).1.m_pgm.fileInMemory.getD
          (p.m_pgm.mp + 2 * i) 0 = p.m_pgm.img.getD i 0 / 256 % 256 ∧
      (OutputPGM.writeImageData machineLittleEndian p).1.m_pgm.fileInMemory.getD
          (p.m_pgm.mp + 2 * i + 1) 0 = p.m_pgm.img.getD i 0 % 256 := by
  have hspec := setterLoop_spec machineLittleEndian p.m_pgm hsel
    (p.m_pgm.m_height * p.m_pgm.m_width) hroom
  obtain ⟨h1, _, _, _, _, h6⟩ := hspec
  unfold OutputPGM.writeImageData
  dsimp only
  rw [if_neg (by rw [hb]; decide), if_pos hb]
  exact ⟨h1, h6⟩

theorem allocateMemory_16 (machineLittleEndian : Bool) (CF_400 SR_SDI_SCALED : Int)
    (self : OutputPGM) (format : FrameFormat)
    (hfmt : format.m_chromaFormat = CF_400) (hbits : 8 < format.m_bitDepthComp.getD 0 0) :
    ∃ o : OutputPGM,
      OutputPGM.allocateMemory machineLittleEndian CF_400 SR_SDI_SCALED self format = some o ∧
      o.m_pgm.BitsPerSample.getD 0 0 = 16 ∧
      (o.m_pgm.setU16 =
        if (1 : Int) = (if machineLittleEndian then 1 else 0) then U16Setter.setSwappedU16
        else U16Setter.setU16) ∧
      o.m_pgm.mp = 0 ∧
      o.m_pgm.m_height = format.m_height.getD 0 0 ∧
      o.m_pgm.m_width = format.m_width.getD 0 0 ∧
      o.m_pgm.fileInMemory.length
        = (format.m_height.getD 0 0 * format.m_width.getD 0 0 + 0 * 0 + 0 * 0 + 0 * 0) * 4 := by
  have hb16 : (if (if format.m_sampleRange = SR_SDI_SCALED ∧ format.m_bitDepthComp.getD 0 0 > 8
        then 16 else format.m_bitDepthComp.getD 0 0) > 8 then 16 else 8) = 16 := by
    split_ifs <;> first | rfl | omega
  refine ⟨_, by unfold OutputPGM.allocateMemory; rw [if_neg (not_not.mpr hfmt)], ?_, rfl, rfl,
    rfl, rfl, ?_⟩
  · simp only [List.getD_cons_zero]
    exact hb16
  · exact length_vectorResize _ _

/-- C28: for a 16-bit PGM (bit depth of the luma above 8), with the 16-bit setter that
`OutputPGM::allocateMemory` selects on a little-endian or on a big-endian host,
`OutputPGM::writeImageData` emits for the sample `v` at position `i` the two bytes
`v >> 8`, `v & 0xFF` in that order, at `2 i` and `2 i + 1`, and counts 2 bytes per
sample. -/
theorem C28_pgm16_most_significant_byte_first (machineLittleEndian : Bool)
    (CF_400 SR_SDI_SCALED : Int) (self : OutputPGM) (format : FrameFormat)
    (samples : List Nat)
    (hfmt : format.m_chromaFormat = CF_400) (hbits : 8 < format.m_bitDepthComp.getD 0 0)
    (hlen : samples.length = format.m_height.getD 0 0 * format.m_width.getD 0 0)
    (hs : ∀ v ∈ samples, v < 65536) :
    ∃ o : OutputPGM,
      OutputPGM.allocateMemory machineLittleEndian CF_400 SR_SDI_SCALED self format = some o ∧
      o.m_pgm.BitsPerSample.getD 0 0 = 16 ∧
      (OutputPGM.writeImageData machineLittleEndian
          { o with m_pgm := { o.m_pgm with img := samples } }).2 = 2 * samples.length ∧
      ∀ i, i < samples.length →
        (OutputPGM.writeImageData machineLittleEndian
            { o with m_pgm := { o.m_pgm with img := samples } }).1.m_pgm.fileInMemory.getD
              (2 * i) 0 = samples.getD i 0 >>> 8 ∧
        (OutputPGM.writeImageData machineLittleEndian
            { o with m_pgm := { o.m_pgm with img := samples } }).1.m_pgm.fileInMemory.getD
              (2 * i + 1) 0 = samples.getD i 0 &&& 0xFF := by
  obtain ⟨o, ho, hb, hsel, hmp, hh, hw, hfl⟩ :=
    allocateMemory_16 machineLittleEndian CF_400 SR_SDI_SCALED self format hfmt hbits
  refine ⟨o, ho, hb, ?_⟩
  have hsize : o.m_pgm.m_height * o.m_pgm.m_width = samples.length := by
    rw [hh, hw, hlen]
  have hw16 := writeImageData_16 machineLittleEndian
    { o with m_pgm := { o.m_pgm with img := samples } } hb hsel
    (by
      show o.m_pgm.mp + 2 * (o.m_pgm.m_height * o.m_pgm.m_width) ≤ o.m_pgm.fileInMemory.length
      rw [hmp, hfl, hh, hw]
      omega)
  obtain ⟨h1, h6⟩ := hw16
  refine ⟨?_, ?_⟩
  · rw [h1]
    show 2 * (o.m_pgm.m_height * o.m_pgm.m_width) = 2 * samples.length
    rw [hsize]
  · intro i hi
    have hv : samples.getD i 0 < 65536 := by
      apply hs
      rw [List.getD_eq_getElem?_getD, List.getElem?_eq_getElem hi]
      exact List.getElem_mem _
    obtain ⟨ha, hb2⟩ := h6 i (by
      show i < o.m_pgm.m_height * o.m_pgm.m_width
      rw [hsize]; exact hi)
    have hmp2 : ({ o with m_pgm := { o.m_pgm with img := samples } } : OutputPGM).m_pgm.mp = 0 :=
      hmp
    rw [hmp2, Nat.zero_add] at ha hb2
    exact ⟨by rw [← u16_high_byte _ hv]; exact ha, by rw [← u16_low_byte]; exact hb2⟩

/-- Witness of C28: a 2x1 frame of bit depth 10 with the samples 0x0123 and 0x03FF on a
little-endian host. -/
theorem C28_pgm16_most_significant_byte_first_witness :
    ∃ o : OutputPGM,
      OutputPGM.allocateMemory true 0 3 { }
          { m_height := [1, 0, 0, 0], m_width := [2, 0, 0, 0],
            m_bitDepthComp := [10, 10, 10, 0] } = some o ∧
      o.m_pgm.BitsPerSample.getD 0 0 = 16 ∧
      (OutputPGM.writeImageData true
          { o with m_pgm := { o.m_pgm with img := [0x0123, 0x03FF] } }).2
        = 2 * [0x0123, 0x03FF].length ∧
      ∀ i, i < [0x0123, 0x03FF].length →
        (OutputPGM.writeImageData true
            { o with m_pgm := { o.m_pgm with img := [0x0123, 0x03FF] } }).1.m_pgm.fileInMemory.getD
              (2 * i) 0 = [0x0123, 0x03FF].getD i 0 >>> 8 ∧
        (OutputPGM.writeImageData true
            { o with m_pgm := { o.m_pgm with img := [0x0123, 0x03FF] } }).1.m_pgm.fileInMemory.getD
              (2 * i + 1) 0 = [0x0123, 0x03FF].getD i 0 &&& 0xFF :=
  C28_pgm16_most_significant_byte_first true 0 3 { }
    { m_height := [1, 0, 0, 0], m_width := [2, 0, 0, 0], m_bitDepthComp := [10, 10, 10, 0] }
    [0x0123, 0x03FF] rfl (by decide) (by decide) (by decide)

/-! ## The name of a frame file -/

set_option maxRecDepth 100000

/-- C29, the code at the failing input: for the head "img", five zero-padded digits,
frame 7 and the tail ".pgm", `OutputPGM::openFrameFile` leaves the name "img00.pgm" in a
buffer of 255 characters, whereas `InputJPEG::openFrameFile` builds "img00007.pgm". -/
theorem C29_openFrameFile_truncates_number :
    cString (OutputPGM.openFrameFile
        { m_fHead := "img".toList, m_fTail := ".pgm".toList, m_zeroPad := true,
          m_numDigits := 5 }
        (List.replicate 255 '?') 7 255).1 = "img00.pgm".toList ∧
    cString (InputJPEG.openFrameFile 255
        { m_fHead := "img".toList, m_fTail := ".pgm".toList, m_zeroPad := true,
          m_numDigits := 5 }
        (List.replicate 255 '?') 7) = "img00007.pgm".toList := by
  constructor <;> decide

/-! ## C12: the integer and the floating path of the Gaussian scaler -/

theorem iClip_lipschitz (u v lo hi : Int) : |iClip u lo hi - iClip v lo hi| ≤ |u - v| := by
  unfold iClip
  rw [abs_le]
  have := abs_le.mp (le_refl |u - v|)
  constructor <;> omega

theorem floor_half_near (a b : ℚ) (h : |a - b| < 1) :
    |⌊a + 1 / 2⌋ - ⌊b + 1 / 2⌋| ≤ 1 := by
  rw [abs_lt] at h
  rw [abs_le]
  have ha1 := Int.floor_le (a + 1 / 2)
  have ha2 := Int.lt_floor_add_one (a + 1 / 2)
  have hb1 := Int.floor_le (b + 1 / 2)
  have hb2 := Int.lt_floor_add_one (b + 1 / 2)
  constructor
  · have : ((⌊b + 1 / 2⌋ : Int) : ℚ) < ((⌊a + 1 / 2⌋ + 2 : Int) : ℚ) := by
      push_cast; linarith
    have := Int.cast_lt.mp this
    omega
  · have : ((⌊a + 1 / 2⌋ : Int) : ℚ) < ((⌊b + 1 / 2⌋ + 2 : Int) : ℚ) := by
      push_cast; linarith
    have := Int.cast_lt.mp this
    omega

theorem foldl_nested_sum (f : Nat → Nat → ℚ) (m n : Nat) :
    (List.range n).foldl
        (fun (acc : ℚ) (j : Nat) =>
          (List.range m).foldl (fun (acc : ℚ) (i : Nat) => acc + f i j) acc)
        0
      = ∑ j ∈ Finset.range n, ∑ i ∈ Finset.range m, f i j := by
  have inner : ∀ (j : Nat) (a : ℚ) (m : Nat),
      (List.range m).foldl (fun (acc : ℚ) (i : Nat) => acc + f i j) a
        = a + ∑ i ∈ Finset.range m, f i j := by
    intro j a m
    induction m with
    | zero => simp
    | succ m ih =>
      rw [List.range_succ, List.foldl_append, ih, Finset.sum_range_succ]
      simp only [List.foldl_cons, List.foldl_nil]
      ring
  induction n with
  | zero => simp
  | succ n ih =>
    rw [List.range_succ, List.foldl_append, ih, Finset.sum_range_succ]
    simp only [List.foldl_cons, List.foldl_nil]
    rw [inner]

/-- The difference of two separable sums whose rows are close. -/
theorem separable_sum_close (TX TY : Nat) (wX cX wY cY : Nat → ℚ) (v : Nat → Nat → ℚ)
    (a : ℚ) (ha : 0 ≤ a)
    (hv : ∀ i j, 0 ≤ v i j ∧ v i j ≤ 255)
    (hwX : ∀ i, i < TX → 0 ≤ wX i) (hwY : ∀ j, j < TY → 0 ≤ wY j)
    (hsX : ∑ i ∈ Finset.range TX, wX i = 1) (hsY : ∑ j ∈ Finset.range TY, wY j = 1)
    (heX : ∑ i ∈ Finset.range TX, |cX i - wX i| ≤ a)
    (heY : ∑ j ∈ Finset.range TY, |cY j - wY j| ≤ a) :
    |(∑ j ∈ Finset.range TY, ∑ i ∈ Finset.range TX, cY j * cX i * v i j)
      - (∑ j ∈ Finset.range TY, ∑ i ∈ Finset.range TX, wY j * wX i * v i j)|
      ≤ 255 * (a + a + a * a) := by
  rw [← Finset.sum_sub_distrib]
  simp only [← Finset.sum_sub_distrib]
  have hterm : ∀ i j, j < TY → |cY j * cX i * v i j - wY j * wX i * v i j|
      ≤ 255 * (|cY j - wY j| * |cX i| + wY j * |cX i - wX i|) := by
    intro i j hj
    have h1 : cY j * cX i * v i j - wY j * wX i * v i j
        = ((cY j - wY j) * cX i + wY j * (cX i - wX i)) * v i j := by ring
    rw [h1, abs_mul, abs_of_nonneg (hv i j).1]
    have h2 : |(cY j - wY j) * cX i + wY j * (cX i - wX i)|
        ≤ |cY j - wY j| * |cX i| + wY j * |cX i - wX i| := by
      refine (abs_add _ _).trans ?_
      rw [abs_mul, abs_mul, abs_of_nonneg (hwY j hj)]
    have h3 : 0 ≤ |cY j - wY j| * |cX i| + wY j * |cX i - wX i| := by
      have := hwY j hj
      positivity
    calc |(cY j - wY j) * cX i + wY j * (cX i - wX i)| * v i j
        ≤ (|cY j - wY j| * |cX i| + wY j * |cX i - wX i|) * v i j :=
          mul_le_mul_of_nonneg_right h2 (hv i j).1
      _ ≤ (|cY j - wY j| * |cX i| + wY j * |cX i - wX i|) * 255 :=
          mul_le_mul_of_nonneg_left (hv i j).2 h3
      _ = 255 * (|cY j - wY j| * |cX i| + wY j * |cX i - wX i|) := by ring
  have hcX : ∑ i ∈ Finset.range TX, |cX i| ≤ 1 + a := by
    calc ∑ i ∈ Finset.range TX, |cX i|
        ≤ ∑ i ∈ Finset.range TX, (|cX i - wX i| + wX i) := by
          apply Finset.sum_le_sum
          intro i hi
          have : cX i = (cX i - wX i) + wX i := by ring
          calc |cX i| = |(cX i - wX i) + wX i| := by rw [← this]
            _ ≤ |cX i - wX i| + |wX i| := abs_add _ _
            _ = |cX i - wX i| + wX i := by
                rw [abs_of_nonneg (hwX i (Finset.mem_range.mp hi))]
      _ = (∑ i ∈ Finset.range TX, |cX i - wX i|) + ∑ i ∈ Finset.range TX, wX i :=
          Finset.sum_add_distrib
      _ ≤ a + 1 := by rw [hsX]; linarith
      _ = 1 + a := by ring
  calc |∑ j ∈ Finset.range TY, ∑ i ∈ Finset.range TX,
          (cY j * cX i * v i j - wY j * wX i * v i j)|
      ≤ ∑ j ∈ Finset.range TY, |∑ i ∈ Finset.range TX,
          (cY j * cX i * v i j - wY j * wX i * v i j)| := Finset.abs_sum_le_sum_abs _ _
    _ ≤ ∑ j ∈ Finset.range TY, ∑ i ∈ Finset.range TX,
          |cY j * cX i * v i j - wY j * wX i * v i j| :=
        Finset.sum_le_sum (fun j _ => Finset.abs_sum_le_sum_abs _ _)
    _ ≤ ∑ j ∈ Finset.range TY, ∑ i ∈ Finset.range TX,
          255 * (|cY j - wY j| * |cX i| + wY j * |cX i - wX i|) :=
        Finset.sum_le_sum (fun j hj => Finset.sum_le_sum
          (fun i _ => hterm i j (Finset.mem_range.mp hj)))
    _ = 255 * ((∑ j ∈ Finset.range TY, |cY j - wY j|) * (∑ i ∈ Finset.range TX, |cX i|)
          + (∑ j ∈ Finset.range TY, wY j) * (∑ i ∈ Finset.range TX, |cX i - wX i|)) := by
        rw [Finset.sum_mul_sum, Finset.sum_mul_sum, ← Finset.sum_add_distrib, Finset.mul_sum]
        apply Finset.sum_congr rfl
        intro j _
        rw [← Finset.sum_add_distrib, Finset.mul_sum]
    _ ≤ 255 * (a * (1 + a) + 1 * a) := by
        rw [hsY]
        have hAy : 0 ≤ ∑ j ∈ Finset.range TY, |cY j - wY j| :=
          Finset.sum_nonneg (fun _ _ => abs_nonneg _)
        have hAx : 0 ≤ ∑ i ∈ Finset.range TX, |cX i| :=
          Finset.sum_nonneg (fun _ _ => abs_nonneg _)
        have h1 : (∑ j ∈ Finset.range TY, |cY j - wY j|) * (∑ i ∈ Finset.range TX, |cX i|)
            ≤ a * (1 + a) := mul_le_mul heY hcX hAx ha
        linarith
    _ = 255 * (a + a + a * a) := by ring

/-- A separable weighted mean of samples in `[0, 255]` lies in `[0, 255]`. -/
theorem separable_mean_bounds (TX TY : Nat) (wX wY : Nat → ℚ) (v : Nat → Nat → ℚ)
    (hv : ∀ i j, 0 ≤ v i j ∧ v i j ≤ 255)
    (hwX : ∀ i, i < TX → 0 ≤ wX i) (hwY : ∀ j, j < TY → 0 ≤ wY j)
    (hsX : ∑ i ∈ Finset.range TX, wX i = 1) (hsY : ∑ j ∈ Finset.range TY, wY j = 1) :
    0 ≤ ∑ j ∈ Finset.range TY, ∑ i ∈ Finset.range TX, wY j * wX i * v i j ∧
    ∑ j ∈ Finset.range TY, ∑ i ∈ Finset.range TX, wY j * wX i * v i j ≤ 255 := by
  constructor
  · apply Finset.sum_nonneg
    intro j hj
    apply Finset.sum_nonneg
    intro i hi
    have h1 := hwY j (Finset.mem_range.mp hj)
    have h2 := hwX i (Finset.mem_range.mp hi)
    have h3 := (hv i j).1
    positivity
  · calc ∑ j ∈ Finset.range TY, ∑ i ∈ Finset.range TX, wY j * wX i * v i j
        ≤ ∑ j ∈ Finset.range TY, ∑ i ∈ Finset.range TX, wY j * wX i * 255 := by
          apply Finset.sum_le_sum
          intro j hj
          apply Finset.sum_le_sum
          intro i hi
          have h1 := hwY j (Finset.mem_range.mp hj)
          have h2 := hwX i (Finset.mem_range.mp hi)
          exact mul_le_mul_of_nonneg_left (hv i j).2 (mul_nonneg h1 h2)
      _ = (∑ j ∈ Finset.range TY, wY j) * (∑ i ∈ Finset.range TX, wX i) * 255 := by
          rw [Finset.sum_mul_sum, Finset.sum_mul]
          apply Finset.sum_congr rfl
          intro j _
          rw [Finset.sum_mul]
      _ = 255 := by rw [hsX, hsY]; norm_num

theorem roundingMajorant_nonneg (k : Nat) : 0 ≤ roundingMajorant k := by
  unfold roundingMajorant
  split_ifs with h
  · norm_num
  · have hk : (15 : ℚ) ≤ (k : ℚ) := by exact_mod_cast (not_lt.mp h)
    apply div_nonneg (by norm_num)
    apply mul_nonneg <;> linarith

theorem roundingMajorant_sum (n : Nat) :
    ∑ k ∈ Finset.range n, roundingMajorant k ≤ 15 / 2 + 3 / 65 := by
  have key : ∀ n : Nat, ∑ k ∈ Finset.range n, roundingMajorant k
      + (if n < 15 then (15 - (n : ℚ)) / 2 + 3 / 65 else (3 / 5) / ((n : ℚ) - 2))
      ≤ 15 / 2 + 3 / 65 := by
    intro n
    induction n with
    | zero => simp
    | succ n ih =>
      rw [Finset.sum_range_succ]
      by_cases h : n < 15
      · have hr : roundingMajorant n = 1 / 2 := by unfold roundingMajorant; rw [if_pos h]
        rw [if_pos h] at ih
        rw [hr]
        by_cases h2 : n + 1 < 15
        · rw [if_pos h2]; push_cast; linarith
        · rw [if_neg h2]
          have hn : n = 14 := by omega
          subst hn
          push_cast
          norm_num at ih ⊢
          linarith
      · have hk : (15 : ℚ) ≤ (n : ℚ) := by exact_mod_cast (not_lt.mp h)
        have hr : roundingMajorant n = (3 / 5) / (((n : ℚ) - 1) * ((n : ℚ) - 2)) := by
          unfold roundingMajorant; rw [if_neg h]
        rw [if_neg h] at ih
        rw [hr, if_neg (by omega)]
        push_cast
        have e : (3 / 5 : ℚ) / (((n : ℚ) - 1) * ((n : ℚ) - 2)) + (3 / 5) / ((n : ℚ) + 1 - 2)
            = (3 / 5) / ((n : ℚ) - 2) := by
          have h1 : (n : ℚ) - 1 ≠ 0 := by linarith
          have h2 : (n : ℚ) - 2 ≠ 0 := by linarith
          have h3 : (n : ℚ) + 1 - 2 ≠ 0 := by linarith
          field_simp
          ring
        linarith
  have h := key n
  have hpos : (0 : ℚ) ≤ (if n < 15 then (15 - (n : ℚ)) / 2 + 3 / 65 else (3 / 5) / ((n : ℚ) - 2)) := by
    split_ifs with h
    · have : (n : ℚ) ≤ 15 := by exact_mod_cast (le_of_lt h)
      linarith
    · have hk : (15 : ℚ) ≤ (n : ℚ) := by exact_mod_cast (not_lt.mp h)
      apply div_nonneg (by norm_num); linarith
  linarith

/-- The majorant summed over the `T` consecutive offsets `t - m`, `t = 0 .. T-1`. -/
theorem roundingMajorant_window (T m : Nat) :
    ∑ t ∈ Finset.range T, roundingMajorant (((t : Int) - (m : Int)).natAbs)
      ≤ 15 + 6 / 65 := by
  -- the taps left of the centre and those from the centre on
  have hleft : ∀ n : Nat, n ≤ m →
      ∑ t ∈ Finset.range n, roundingMajorant (((t : Int) - (m : Int)).natAbs)
        ≤ 15 / 2 + 3 / 65 := by
    intro n hn
    have h1 : ∑ t ∈ Finset.range n, roundingMajorant (((t : Int) - (m : Int)).natAbs)
        = ∑ t ∈ Finset.range n, roundingMajorant (m - t) := by
      apply Finset.sum_congr rfl
      intro t ht
      have := Finset.mem_range.mp ht
      congr 1
      omega
    have h2 : ∑ t ∈ Finset.range n, roundingMajorant (m - t)
        ≤ ∑ t ∈ Finset.range m, roundingMajorant (m - t) :=
      Finset.sum_le_sum_of_subset_of_nonneg (Finset.range_subset.mpr hn)
        (fun _ _ _ => roundingMajorant_nonneg _)
    have h3 : ∑ t ∈ Finset.range m, roundingMajorant (m - t)
        = ∑ t ∈ Finset.range m, roundingMajorant (t + 1) := by
      rw [← Finset.sum_range_reflect]
      apply Finset.sum_congr rfl
      intro t ht
      have := Finset.mem_range.mp ht
      congr 1
      omega
    have h4 : ∑ t ∈ Finset.range m, roundingMajorant (t + 1)
        ≤ ∑ t ∈ Finset.range (m + 1), roundingMajorant t := by
      rw [Finset.sum_range_succ']
      have := roundingMajorant_nonneg 0
      linarith
    have h5 := roundingMajorant_sum (m + 1)
    linarith
  by_cases hTm : T ≤ m
  · have := hleft T hTm
    linarith
  · have hmT : m ≤ T := by omega
    rw [← Finset.sum_range_add_sum_Ico _ hmT, Finset.sum_Ico_eq_sum_range]
    have hright : ∑ k ∈ Finset.range (T - m),
        roundingMajorant ((((m + k : Nat) : Int) - (m : Int)).natAbs)
        = ∑ k ∈ Finset.range (T - m), roundingMajorant k := by
      apply Finset.sum_congr rfl
      intro k _
      congr 1
      omega
    rw [hright]
    have h1 := hleft m (le_refl m)
    have h2 := roundingMajorant_sum (T - m)
    linarith

theorem double2int_small (x : ℚ) (h0 : 0 ≤ x) (h1 : x < 1 / 2) : double2int x = 0 := by
  unfold double2int truncToInt
  rw [if_neg (not_lt.mpr h0), if_pos (by linarith)]
  rw [Int.floor_eq_zero_iff]
  constructor <;> linarith

theorem filterTap_ge (exp : ℚ → ℚ) (hexp : ∀ t, -(1 / 2) ≤ t → t ≤ 0 → 3 / 5 ≤ exp t)
    (dist piScaled factor : ℚ) (lobes : Int) (hf : 1 ≤ factor) (hl : 1 ≤ lobes)
    (h : |dist| ≤ 1 / 2) :
    3 / 5 ≤ FrameScaleGaussian.FilterTap exp dist piScaled factor lobes := by
  have hl1 : (1 : ℚ) ≤ (lobes : ℚ) := by exact_mod_cast hl
  have hL : |dist| ≤ (lobes : ℚ) * (factor * (1 / 2)) := by nlinarith
  have hSD : 0 < factor * (1 / 2) := by linarith
  have hy0 : 0 ≤ |dist| / (factor * (1 / 2)) := div_nonneg (abs_nonneg _) (le_of_lt hSD)
  have hy1 : |dist| / (factor * (1 / 2)) ≤ 1 := by
    rw [div_le_one hSD]
    linarith
  unfold FrameScaleGaussian.FilterTap
  dsimp only
  rw [dAbs_eq_abs, if_neg (not_lt.mpr hL)]
  apply hexp
  · nlinarith
  · nlinarith

/-- Far from the centre a Gaussian weight is small: `exp t <= 720 / t^6` for `t < 0`. -/
theorem filterTap_far (exp : ℚ → ℚ) (hexp0 : ∀ t, 0 ≤ exp t)
    (hexp2 : ∀ t, t < 0 → exp t * t ^ 6 ≤ 720)
    (dist piScaled factor : ℚ) (lobes : Int) (hf1 : 1 ≤ factor) (hf3 : factor ≤ 3)
    (hd : 14 ≤ |dist|) :
    FrameScaleGaussian.FilterTap exp dist piScaled factor lobes * |dist| ^ 2
      ≤ 9 / 409600 := by
  unfold FrameScaleGaussian.FilterTap
  dsimp only
  rw [dAbs_eq_abs]
  split_ifs with hL
  · rw [zero_mul]; norm_num
  · generalize |dist| = d at hd hL ⊢
    have hd0 : (0 : ℚ) < d := by linarith
    have hm0 : (0 : ℚ) < factor := by linarith
    have hτ : -(d / (factor * (1 / 2))) * (d / (factor * (1 / 2))) / 2 < 0 := by
      have : 0 < d / (factor * (1 / 2)) := div_pos hd0 (by linarith)
      nlinarith
    have h2 := hexp2 _ hτ
    have he := hexp0 (-(d / (factor * (1 / 2))) * (d / (factor * (1 / 2))) / 2)
    generalize exp (-(d / (factor * (1 / 2))) * (d / (factor * (1 / 2))) / 2) = e at h2 he ⊢
    have hτ6 : (-(d / (factor * (1 / 2))) * (d / (factor * (1 / 2))) / 2) ^ 6
        = 64 * d ^ 12 / factor ^ 12 := by
      field_simp
      ring
    rw [hτ6] at h2
    have hf12 : (0 : ℚ) < factor ^ 12 := by positivity
    have h3 : e * (64 * d ^ 12) ≤ 720 * factor ^ 12 := by
      have e1 : e * (64 * d ^ 12) = e * (64 * d ^ 12 / factor ^ 12) * factor ^ 12 := by
        field_simp
      rw [e1]
      exact mul_le_mul_of_nonneg_right h2 (le_of_lt hf12)
    have h4 : factor ^ 12 ≤ 3 ^ 12 := pow_le_pow_left₀ (le_of_lt hm0) hf3 12
    have h5 : (14 : ℚ) ^ 10 ≤ d ^ 10 := pow_le_pow_left₀ (by norm_num) hd 10
    have h6 : 0 ≤ e * d ^ 2 := by positivity
    have h7 : e * d ^ 2 * 14 ^ 10 ≤ e * d ^ 2 * d ^ 10 := mul_le_mul_of_nonneg_left h5 h6
    have h8 : e * d ^ 2 * d ^ 10 = e * d ^ 12 := by ring
    norm_num at h4 h7 ⊢
    nlinarith

/-- A row of rounded coefficients whose sum is corrected at one tap: the distance from the
exact coefficients is at most twice the sum of the rounding errors. -/
theorem corrected_row_error (T : Nat) (w : Nat → ℚ) (r : Nat → Int) (B : Nat → ℚ) (tc : Nat)
    (scale : Int) (hscale : 0 < scale)
    (hsum : ∑ t ∈ Finset.range T, w t = 1)
    (hB : ∀ t, t < T → |(r t : ℚ) - w t * (scale : ℚ)| ≤ B t) :
    ∑ t ∈ Finset.range T,
        |((r t + (if t = tc then scale - ∑ j ∈ Finset.range T, r j else 0) : Int) : ℚ)
            / (scale : ℚ) - w t|
      ≤ 2 * (∑ t ∈ Finset.range T, B t) / (scale : ℚ) := by
  have hs : (0 : ℚ) < (scale : ℚ) := by exact_mod_cast hscale
  have hδ : ∑ t ∈ Finset.range T, |(r t : ℚ) - w t * (scale : ℚ)|
      ≤ ∑ t ∈ Finset.range T, B t :=
    Finset.sum_le_sum (fun t ht => hB t (Finset.mem_range.mp ht))
  have hcorr : |((scale - ∑ j ∈ Finset.range T, r j : Int) : ℚ)|
      ≤ ∑ t ∈ Finset.range T, B t := by
    have e : ((scale - ∑ j ∈ Finset.range T, r j : Int) : ℚ)
        = - ∑ t ∈ Finset.range T, ((r t : ℚ) - w t * (scale : ℚ)) := by
      push_cast
      rw [Finset.sum_sub_distrib, ← Finset.sum_mul, hsum]
      ring
    rw [e, abs_neg]
    exact (Finset.abs_sum_le_sum_abs _ _).trans hδ
  have hterm : ∀ t,
      |((r t + (if t = tc then scale - ∑ j ∈ Finset.range T, r j else 0) : Int) : ℚ)
            / (scale : ℚ) - w t|
        ≤ (|(r t : ℚ) - w t * (scale : ℚ)|
            + (if t = tc then |((scale - ∑ j ∈ Finset.range T, r j : Int) : ℚ)| else 0))
          / (scale : ℚ) := by
    intro t
    have e : ((r t + (if t = tc then scale - ∑ j ∈ Finset.range T, r j else 0) : Int) : ℚ)
            / (scale : ℚ) - w t
        = (((r t : ℚ) - w t * (scale : ℚ))
            + (((if t = tc then scale - ∑ j ∈ Finset.range T, r j else 0 : Int)) : ℚ))
          / (scale : ℚ) := by
      push_cast
      field_simp
      ring
    rw [e, abs_div, abs_of_pos hs]
    apply div_le_div_of_nonneg_right _ (le_of_lt hs)
    refine (abs_add _ _).trans ?_
    apply add_le_add (le_refl _)
    split_ifs
    · exact le_refl _
    · simp
  calc ∑ t ∈ Finset.range T,
        |((r t + (if t = tc then scale - ∑ j ∈ Finset.range T, r j else 0) : Int) : ℚ)
            / (scale : ℚ) - w t|
      ≤ ∑ t ∈ Finset.range T, (|(r t : ℚ) - w t * (scale : ℚ)|
            + (if t = tc then |((scale - ∑ j ∈ Finset.range T, r j : Int) : ℚ)| else 0))
          / (scale : ℚ) := Finset.sum_le_sum (fun t _ => hterm t)
    _ = ((∑ t ∈ Finset.range T, |(r t : ℚ) - w t * (scale : ℚ)|)
          + ∑ t ∈ Finset.range T,
              (if t = tc then |((scale - ∑ j ∈ Finset.range T, r j : Int) : ℚ)| else 0))
          / (scale : ℚ) := by
        rw [← Finset.sum_div, Finset.sum_add_distrib]
    _ ≤ ((∑ t ∈ Finset.range T, B t) + ∑ t ∈ Finset.range T, B t) / (scale : ℚ) := by
        apply div_le_div_of_nonneg_right _ (le_of_lt hs)
        apply add_le_add hδ
        rw [Finset.sum_ite_eq']
        split_ifs
        · exact hcorr
        · exact (abs_nonneg _).trans hcorr
    _ = 2 * (∑ t ∈ Finset.range T, B t) / (scale : ℚ) := by ring

theorem tapWeight_dist (FilterTap : ℚ → ℚ → ℚ → Int → ℚ) (filterOffsets : List Int)
    (factor pi : ℚ) (lobes : Int) (off : ℚ) (t : Nat) :
    tapWeight FilterTap filterOffsets factor pi lobes off t
      = FilterTap (dAbs ((filterOffsets.getD t 0 : Int) - off)) pi
          (if factor > 1 then factor else 1) lobes := by
  rw [← tapWeightUniform_eq]
  rfl

/-- The coefficients of one row of the Gaussian scaler: the weights are not negative, their
sum is at least 3/5, and the integer coefficients divided by `2^14` are within `1/512` of
the normalised weights, summed over the row. -/
theorem gaussian_axis_error (exp : ℚ → ℚ) (hexp0 : ∀ t, 0 ≤ exp t)
    (hexp1 : ∀ t, -(1 / 2) ≤ t → t ≤ 0 → 3 / 5 ≤ exp t)
    (hexp2 : ∀ t, t < 0 → exp t * t ^ 6 ≤ 720)
    (iDimension oDimension : Nat) (factor : ℚ) (lobes : Int) (iMin : Int) (pi : ℚ) (x : Nat)
    (hl : 1 ≤ lobes) (hf3 : factor ≤ 3) (h1 : factor = 1 → phase factor 0 x = 0) :
    (∀ t, 0 ≤ tapWeight (FrameScaleGaussian.FilterTap exp)
        (SetFilterLimits
          (List.replicate (FrameScaleGaussian.filterTaps factor lobes).toNat 0)
          (FrameScaleGaussian.filterTaps factor lobes).toNat iDimension oDimension factor
          iMin).filterOffsets factor pi lobes (phase factor 0 x) t) ∧
    3 / 5 ≤ ∑ j ∈ Finset.range (FrameScaleGaussian.filterTaps factor lobes).toNat,
        tapWeight (FrameScaleGaussian.FilterTap exp)
          (SetFilterLimits
            (List.replicate (FrameScaleGaussian.filterTaps factor lobes).toNat 0)
            (FrameScaleGaussian.filterTaps factor lobes).toNat iDimension oDimension factor
            iMin).filterOffsets factor pi lobes (phase factor 0 x) j ∧
    ∑ t ∈ Finset.range (FrameScaleGaussian.filterTaps factor lobes).toNat,
      |((roundedTap (FrameScaleGaussian.FilterTap exp)
            (SetFilterLimits
              (List.replicate (FrameScaleGaussian.filterTaps factor lobes).toNat 0)
              (FrameScaleGaussian.filterTaps factor lobes).toNat iDimension oDimension factor
              iMin).filterOffsets factor (FrameScaleGaussian.filterTaps factor lobes).toNat 0
            pi lobes (2 ^ 14) x t
          + (if t = ((FrameScaleGaussian.filterTaps factor lobes).toNat + 1) >>> 1 then
              (2 ^ 14 : Int) - ∑ j ∈ Finset.range (FrameScaleGaussian.filterTaps factor lobes).toNat,
                roundedTap (FrameScaleGaussian.FilterTap exp)
                  (SetFilterLimits
                    (List.replicate (FrameScaleGaussian.filterTaps factor lobes).toNat 0)
                    (FrameScaleGaussian.filterTaps factor lobes).toNat iDimension oDimension
                    factor iMin).filterOffsets factor
                  (FrameScaleGaussian.filterTaps factor lobes).toNat 0 pi lobes (2 ^ 14) x j
             else 0) : Int) : ℚ) / ((2 ^ 14 : Int) : ℚ)
        - tapWeight (FrameScaleGaussian.FilterTap exp)
            (SetFilterLimits
              (List.replicate (FrameScaleGaussian.filterTaps factor lobes).toNat 0)
              (FrameScaleGaussian.filterTaps factor lobes).toNat iDimension oDimension factor
              iMin).filterOffsets factor pi lobes (phase factor 0 x) t
          / ∑ j ∈ Finset.range (FrameScaleGaussian.filterTaps factor lobes).toNat,
              tapWeight (FrameScaleGaussian.FilterTap exp)
                (SetFilterLimits
                  (List.replicate (FrameScaleGaussian.filterTaps factor lobes).toNat 0)
                  (FrameScaleGaussian.filterTaps factor lobes).toNat iDimension oDimension
                  factor iMin).filterOffsets factor pi lobes (phase factor 0 x) j|
      ≤ 1 / 512 := by
  have hl1 : (1 : ℚ) ≤ (lobes : ℚ) := by exact_mod_cast hl
  have hp0 := phase_nonneg factor 0 x
  have hp1 := phase_lt_one factor 0 x
  have hT1 : 1 ≤ (FrameScaleGaussian.filterTaps factor lobes).toNat ∧
      (factor ≠ 1 → 2 ≤ (FrameScaleGaussian.filterTaps factor lobes).toNat) := by
    rcases lt_trichotomy factor 1 with hlt | heq | hgt
    · have := filterTaps_toNat_lt factor lobes hl hlt
      constructor
      · omega
      · intro _; omega
    · rw [filterTaps_of_eq factor lobes heq]
      exact ⟨by decide, fun h => absurd heq h⟩
    · have := filterTaps_toNat_gt factor lobes hl hgt
      constructor
      · omega
      · intro _; omega
  have hm : (1 : ℚ) ≤ (if factor > 1 then factor else 1) := by
    split_ifs with hg
    · exact le_of_lt hg
    · exact le_refl _
  have hm3 : (if factor > 1 then factor else 1) ≤ (3 : ℚ) := by
    split_ifs with hg
    · exact hf3
    · norm_num
  generalize hTdef : (FrameScaleGaussian.filterTaps factor lobes).toNat = T at hT1 ⊢
  obtain ⟨hT1, hT2⟩ := hT1
  have hoffs : ∀ t, t < T →
      (SetFilterLimits (List.replicate T 0) T iDimension oDimension factor iMin).filterOffsets.getD
        t 0 = (t : Int) - ((T : Int) - 1) / 2 := by
    intro t ht
    exact getD_setFilterLimits_offsets _ _ _ _ _ _ t ht (by simp)
  generalize (SetFilterLimits (List.replicate T 0) T iDimension oDimension factor
    iMin).filterOffsets = fo at hoffs ⊢
  simp only [roundedTap]
  generalize phase factor 0 x = off at hp0 hp1 h1 ⊢
  -- the weights
  have hg0 : ∀ t, 0 ≤ tapWeight (FrameScaleGaussian.FilterTap exp) fo factor pi lobes off t := by
    intro t
    rw [tapWeight_dist]
    exact filterTap_nonneg exp hexp0 _ _ _ _
  have hnear : ∃ t0, t0 < T ∧
      3 / 5 ≤ tapWeight (FrameScaleGaussian.FilterTap exp) fo factor pi lobes off t0 := by
    by_cases hhalf : off ≤ 1 / 2
    · refine ⟨(T - 1) / 2, by omega, ?_⟩
      have ho : fo.getD ((T - 1) / 2) 0 = 0 := by
        rw [hoffs _ (by omega)]
        omega
      rw [tapWeight_dist, ho]
      apply filterTap_ge exp hexp1 _ _ _ _ hm hl
      rw [dAbs_eq_abs, abs_abs, abs_le]; push_cast; constructor <;> linarith
    · have hne : factor ≠ 1 := by
        intro h
        rw [h1 h] at hhalf
        exact hhalf (by norm_num)
      have hT2 := hT2 hne
      refine ⟨(T - 1) / 2 + 1, by omega, ?_⟩
      have ho : fo.getD ((T - 1) / 2 + 1) 0 = 1 := by
        rw [hoffs _ (by omega)]
        omega
      rw [tapWeight_dist, ho]
      apply filterTap_ge exp hexp1 _ _ _ _ hm hl
      have hh : (1 : ℚ) / 2 < off := not_le.mp hhalf
      rw [dAbs_eq_abs, abs_abs, abs_le]; push_cast; constructor <;> linarith
  have hG : 3 / 5 ≤ ∑ j ∈ Finset.range T,
      tapWeight (FrameScaleGaussian.FilterTap exp) fo factor pi lobes off j := by
    obtain ⟨t0, ht0, hge⟩ := hnear
    exact hge.trans (Finset.single_le_sum (fun j _ => hg0 j) (Finset.mem_range.mpr ht0))
  refine ⟨hg0, hG, ?_⟩
  have hGpos : 0 < ∑ j ∈ Finset.range T,
      tapWeight (FrameScaleGaussian.FilterTap exp) fo factor pi lobes off j := by linarith
  -- the rounding error of each tap
  have hcast : (((2 : Int) ^ 14 : Int) : ℚ) = 16384 := by norm_num
  have hB : ∀ t, t < T →
      |((double2int
            (tapWeight (FrameScaleGaussian.FilterTap exp) fo factor pi lobes off t
              / (∑ j ∈ Finset.range T,
                  tapWeight (FrameScaleGaussian.FilterTap exp) fo factor pi lobes off j)
              * (((2 : Int) ^ 14 : Int) : ℚ)) : Int) : ℚ)
          - tapWeight (FrameScaleGaussian.FilterTap exp) fo factor pi lobes off t
              / (∑ j ∈ Finset.range T,
                  tapWeight (FrameScaleGaussian.FilterTap exp) fo factor pi lobes off j)
            * (((2 : Int) ^ 14 : Int) : ℚ)|
        ≤ roundingMajorant (((t : Int) - (((T - 1) / 2 : Nat) : Int)).natAbs) := by
    intro t ht
    by_cases hk : ((t : Int) - (((T - 1) / 2 : Nat) : Int)).natAbs < 15
    · have hr : roundingMajorant (((t : Int) - (((T - 1) / 2 : Nat) : Int)).natAbs) = 1 / 2 := by
        unfold roundingMajorant; rw [if_pos hk]
      rw [hr]
      exact double2int_near _
    · have hr : roundingMajorant (((t : Int) - (((T - 1) / 2 : Nat) : Int)).natAbs)
          = (3 / 5) / ((((((t : Int) - (((T - 1) / 2 : Nat) : Int)).natAbs : Nat) : ℚ) - 1)
              * (((((t : Int) - (((T - 1) / 2 : Nat) : Int)).natAbs : Nat) : ℚ) - 2)) := by
        unfold roundingMajorant; rw [if_neg hk]
      rw [hr]
      have ho : fo.getD t 0 = (t : Int) - (((T - 1) / 2 : Nat) : Int) := by
        rw [hoffs t ht]
        omega
      generalize hkdef : ((t : Int) - (((T - 1) / 2 : Nat) : Int)).natAbs = k at hk ⊢
      have hk15 : (15 : ℚ) ≤ (k : ℚ) := by exact_mod_cast (not_lt.mp hk)
      have hz : ((k : Nat) : Int) = |fo.getD t 0| := by
        rw [← hkdef, ho]
        exact Int.natCast_natAbs _
      have habs : ((k : Nat) : ℚ) = |((fo.getD t 0 : Int) : ℚ)| := by
        have := congrArg (Int.cast : Int → ℚ) hz
        push_cast at this
        exact this
      have hD : 14 ≤ |dAbs (((fo.getD t 0 : Int) : ℚ) - off)| := by
        rw [dAbs_eq_abs, abs_abs]
        have h1 := abs_sub_abs_le_abs_sub ((fo.getD t 0 : Int) : ℚ) off
        rw [abs_of_nonneg hp0] at h1
        linarith
      have hDk : (k : ℚ) - 1 ≤ |dAbs (((fo.getD t 0 : Int) : ℚ) - off)| := by
        rw [dAbs_eq_abs, abs_abs]
        have h1 := abs_sub_abs_le_abs_sub ((fo.getD t 0 : Int) : ℚ) off
        rw [abs_of_nonneg hp0] at h1
        linarith
      have hfar := filterTap_far exp hexp0 hexp2 (dAbs (((fo.getD t 0 : Int) : ℚ) - off)) pi
        (if factor > 1 then factor else 1) lobes hm hm3 hD
      rw [← tapWeight_dist (FrameScaleGaussian.FilterTap exp) fo factor pi lobes off t] at hfar
      have hgt := hg0 t
      generalize tapWeight (FrameScaleGaussian.FilterTap exp) fo factor pi lobes off t = g
        at hfar hgt ⊢
      generalize (∑ j ∈ Finset.range T,
        tapWeight (FrameScaleGaussian.FilterTap exp) fo factor pi lobes off j) = G
        at hG hGpos ⊢
      generalize |dAbs (((fo.getD t 0 : Int) : ℚ) - off)| = D at hD hDk hfar
      rw [hcast]
      have hP : (0 : ℚ) < ((k : ℚ) - 1) * ((k : ℚ) - 2) := by
        apply mul_pos <;> linarith
      have hPD : ((k : ℚ) - 1) * ((k : ℚ) - 2) ≤ D ^ 2 := by nlinarith
      have hgP : g * (((k : ℚ) - 1) * ((k : ℚ) - 2)) ≤ 9 / 409600 :=
        (mul_le_mul_of_nonneg_left hPD hgt).trans hfar
      have hx0 : 0 ≤ g / G * 16384 := by positivity
      have hxle : g / G * 16384 ≤ (3 / 5) / (((k : ℚ) - 1) * ((k : ℚ) - 2)) := by
        rw [le_div_iff₀ hP]
        have e : g / G * 16384 * (((k : ℚ) - 1) * ((k : ℚ) - 2))
            = g * (((k : ℚ) - 1) * ((k : ℚ) - 2)) * 16384 / G := by
          field_simp
          ring
        rw [e, div_le_iff₀ hGpos]
        nlinarith
      have hxlt : g / G * 16384 < 1 / 2 := by
        have hP2 : (182 : ℚ) ≤ ((k : ℚ) - 1) * ((k : ℚ) - 2) := by nlinarith
        have : (3 / 5 : ℚ) / (((k : ℚ) - 1) * ((k : ℚ) - 2)) ≤ (3 / 5) / 182 :=
          div_le_div_of_nonneg_left (by norm_num) (by norm_num) hP2
        have h2 : (3 / 5 : ℚ) / 182 < 1 / 2 := by norm_num
        linarith
      rw [double2int_small _ hx0 hxlt]
      rw [Int.cast_zero, zero_sub, abs_neg, abs_of_nonneg hx0]
      exact hxle
  have hsum : ∑ t ∈ Finset.range T,
      tapWeight (FrameScaleGaussian.FilterTap exp) fo factor pi lobes off t
        / (∑ j ∈ Finset.range T,
            tapWeight (FrameScaleGaussian.FilterTap exp) fo factor pi lobes off j) = 1 := by
    rw [← Finset.sum_div]
    exact div_self (ne_of_gt hGpos)
  have hmain := corrected_row_error T
    (fun t => tapWeight (FrameScaleGaussian.FilterTap exp) fo factor pi lobes off t
        / (∑ j ∈ Finset.range T,
            tapWeight (FrameScaleGaussian.FilterTap exp) fo factor pi lobes off j))
    (fun t => double2int
        (tapWeight (FrameScaleGaussian.FilterTap exp) fo factor pi lobes off t
          / (∑ j ∈ Finset.range T,
              tapWeight (FrameScaleGaussian.FilterTap exp) fo factor pi lobes off j)
          * (((2 : Int) ^ 14 : Int) : ℚ)))
    (fun t => roundingMajorant (((t : Int) - (((T - 1) / 2 : Nat) : Int)).natAbs))
    ((T + 1) >>> 1) (2 ^ 14) (by norm_num) hsum hB
  have hwin := roundingMajorant_window T ((T - 1) / 2)
  refine le_trans hmain ?_
  rw [hcast, div_le_iff₀ (by norm_num)]
  linarith

theorem getD_drop_add {α : Type} (l : List α) (n i : Nat) (d : α) :
    (l.drop n).getD i d = l.getD (n + i) d := by
  simp [List.getD_eq_getElem?_getD, List.getElem?_drop]

theorem filterDouble_eq (s : FrameScale) (input : List Int) (filterX filterY : List ℚ)
    (posX posY : Int) (iSizeX : Nat) (vMin vMax : Int) :
    s.filterDouble input filterX filterY posX posY iSizeX vMin vMax
      = toImgpel (iClip (truncToInt
          ((∑ j ∈ Finset.range s.m_filterTapsY, ∑ i ∈ Finset.range s.m_filterTapsX,
              filterY.getD j 0 * filterX.getD i 0
                * ((input.getD (s.readIndex posX posY iSizeX i j).toNat 0 : Int) : ℚ))
            + 1 / 2)) vMin vMax) := by
  unfold FrameScale.filterDouble
  dsimp only
  rw [foldl_nested_sum
    (fun i j => filterY.getD j 0 * filterX.getD i 0
      * ((input.getD (s.readIndex posX posY iSizeX i j).toNat 0 : Int) : ℚ))]

/-- One row of the two Gaussian tables of an axis: the floating coefficients are non-negative
and sum to one, and the integer coefficients divided by `2 ^ 14` are within `1 / 512` of them
in total. -/
theorem gaussian_axis_rows (exp : ℚ → ℚ) (hexp0 : ∀ t, 0 ≤ exp t)
    (hexp1 : ∀ t, -(1 / 2) ≤ t → t ≤ 0 → 3 / 5 ≤ exp t)
    (hexp2 : ∀ t, t < 0 → exp t * t ^ 6 ≤ 720)
    (iDimension oDimension : Nat) (lobes iMin : Int) (x : Nat)
    (hl : 1 ≤ lobes) (hf : iDimension ≤ 3 * oDimension) (hx : x < oDimension) :
    (∀ i, i < (FrameScaleGaussian.filterTaps ((iDimension : ℚ) / (oDimension : ℚ)) lobes).toNat →
      0 ≤ (List.drop
        (x * (FrameScaleGaussian.filterTaps ((iDimension : ℚ) / (oDimension : ℚ)) lobes).toNat)
        (PrepareFilterCoefficients (FrameScaleGaussian.FilterTap exp)
          (List.replicate (oDimension *
            (FrameScaleGaussian.filterTaps ((iDimension : ℚ) / (oDimension : ℚ)) lobes).toNat) 0)
          (List.replicate (oDimension *
            (FrameScaleGaussian.filterTaps ((iDimension : ℚ) / (oDimension : ℚ)) lobes).toNat) 0)
          (SetFilterLimits
            (List.replicate
              (FrameScaleGaussian.filterTaps ((iDimension : ℚ) / (oDimension : ℚ)) lobes).toNat 0)
            (FrameScaleGaussian.filterTaps ((iDimension : ℚ) / (oDimension : ℚ)) lobes).toNat
            iDimension oDimension ((iDimension : ℚ) / (oDimension : ℚ)) iMin).filterOffsets
          ((iDimension : ℚ) / (oDimension : ℚ))
          (FrameScaleGaussian.filterTaps ((iDimension : ℚ) / (oDimension : ℚ)) lobes).toNat 0
          oDimension lobes 14).1).getD i 0) ∧
    ∑ i ∈ Finset.range
        (FrameScaleGaussian.filterTaps ((iDimension : ℚ) / (oDimension : ℚ)) lobes).toNat,
      (List.drop
        (x * (FrameScaleGaussian.filterTaps ((iDimension : ℚ) / (oDimension : ℚ)) lobes).toNat)
        (PrepareFilterCoefficients (FrameScaleGaussian.FilterTap exp)
          (List.replicate (oDimension *
            (FrameScaleGaussian.filterTaps ((iDimension : ℚ) / (oDimension : ℚ)) lobes).toNat) 0)
          (List.replicate (oDimension *
            (FrameScaleGaussian.filterTaps ((iDimension : ℚ) / (oDimension : ℚ)) lobes).toNat) 0)
          (SetFilterLimits
            (List.replicate
              (FrameScaleGaussian.filterTaps ((iDimension : ℚ) / (oDimension : ℚ)) lobes).toNat 0)
            (FrameScaleGaussian.filterTaps ((iDimension : ℚ) / (oDimension : ℚ)) lobes).toNat
            iDimension oDimension ((iDimension : ℚ) / (oDimension : ℚ)) iMin).filterOffsets
          ((iDimension : ℚ) / (oDimension : ℚ))
          (FrameScaleGaussian.filterTaps ((iDimension : ℚ) / (oDimension : ℚ)) lobes).toNat 0
          oDimension lobes 14).1).getD i 0 = 1 ∧
    ∑ i ∈ Finset.range
        (FrameScaleGaussian.filterTaps ((iDimension : ℚ) / (oDimension : ℚ)) lobes).toNat,
      |(((List.drop
        (x * (FrameScaleGaussian.filterTaps ((iDimension : ℚ) / (oDimension : ℚ)) lobes).toNat)
        (PrepareFilterCoefficients (FrameScaleGaussian.FilterTap exp)
          (List.replicate (oDimension *
            (FrameScaleGaussian.filterTaps ((iDimension : ℚ) / (oDimension : ℚ)) lobes).toNat) 0)
          (List.replicate (oDimension *
            (FrameScaleGaussian.filterTaps ((iDimension : ℚ) / (oDimension : ℚ)) lobes).toNat) 0)
          (SetFilterLimits
            (List.replicate
              (FrameScaleGaussian.filterTaps ((iDimension : ℚ) / (oDimension : ℚ)) lobes).toNat 0)
            (FrameScaleGaussian.filterTaps ((iDimension : ℚ) / (oDimension : ℚ)) lobes).toNat
            iDimension oDimension ((iDimension : ℚ) / (oDimension : ℚ)) iMin).filterOffsets
          ((iDimension : ℚ) / (oDimension : ℚ))
          (FrameScaleGaussian.filterTaps ((iDimension : ℚ) / (oDimension : ℚ)) lobes).toNat 0
          oDimension lobes 14).2).getD i 0 : Int) : ℚ) / (((2 : Int) ^ 14 : Int) : ℚ)
        - (List.drop
        (x * (FrameScaleGaussian.filterTaps ((iDimension : ℚ) / (oDimension : ℚ)) lobes).toNat)
        (PrepareFilterCoefficients (FrameScaleGaussian.FilterTap exp)
          (List.replicate (oDimension *
            (FrameScaleGaussian.filterTaps ((iDimension : ℚ) / (oDimension : ℚ)) lobes).toNat) 0)
          (List.replicate (oDimension *
            (FrameScaleGaussian.filterTaps ((iDimension : ℚ) / (oDimension : ℚ)) lobes).toNat) 0)
          (SetFilterLimits
            (List.replicate
              (FrameScaleGaussian.filterTaps ((iDimension : ℚ) / (oDimension : ℚ)) lobes).toNat 0)
            (FrameScaleGaussian.filterTaps ((iDimension : ℚ) / (oDimension : ℚ)) lobes).toNat
            iDimension oDimension ((iDimension : ℚ) / (oDimension : ℚ)) iMin).filterOffsets
          ((iDimension : ℚ) / (oDimension : ℚ))
          (FrameScaleGaussian.filterTaps ((iDimension : ℚ) / (oDimension : ℚ)) lobes).toNat 0
          oDimension lobes 14).1).getD i 0| ≤ 1 / 512 := by
  have ho : (0 : ℚ) < (oDimension : ℚ) := by
    have : 0 < oDimension := by omega
    exact_mod_cast this
  have hf3 : (iDimension : ℚ) / (oDimension : ℚ) ≤ 3 := by
    rw [div_le_iff₀ ho]
    exact_mod_cast hf
  have h1 : (iDimension : ℚ) / (oDimension : ℚ) = 1 →
      phase ((iDimension : ℚ) / (oDimension : ℚ)) 0 x = 0 := by
    intro h
    rw [h]
    exact phase_unit x
  obtain ⟨hnn, hsum, herr⟩ := gaussian_axis_error exp hexp0 hexp1 hexp2 iDimension oDimension
    ((iDimension : ℚ) / (oDimension : ℚ)) lobes iMin (HDR_PI / (lobes : ℚ)) x hl hf3 h1
  rw [prepare_eq_fold]
  generalize hT : (FrameScaleGaussian.filterTaps ((iDimension : ℚ) / (oDimension : ℚ))
    lobes).toNat = T at hnn hsum herr ⊢
  generalize hO : (SetFilterLimits (List.replicate T 0) T iDimension oDimension
    ((iDimension : ℚ) / (oDimension : ℚ)) iMin).filterOffsets = offs at hnn hsum herr ⊢
  generalize hF : (iDimension : ℚ) / (oDimension : ℚ) = factor at hnn hsum herr ⊢
  have key := getD_prepareFold (FrameScaleGaussian.FilterTap exp) offs factor T 0
    (HDR_PI / (lobes : ℚ)) lobes (2 ^ 14) oDimension
    (List.replicate (oDimension * T) 0, List.replicate (oDimension * T) 0)
    (by simp) (by simp) x
  have hG : (0 : ℚ) < ∑ j ∈ Finset.range T,
      tapWeight (FrameScaleGaussian.FilterTap exp) offs factor (HDR_PI / (lobes : ℚ)) lobes
        (phase factor 0 x) j := by linarith
  refine ⟨?_, ?_, ?_⟩
  · intro i hi
    rw [getD_drop_add, (key i hx hi).1]
    exact div_nonneg (hnn i) hG.le
  · rw [Finset.sum_congr rfl (fun i hi => by
      rw [getD_drop_add, (key i hx (Finset.mem_range.mp hi)).1])]
    rw [← Finset.sum_div]
    exact div_self hG.ne'
  · refine le_trans (le_of_eq ?_) herr
    refine Finset.sum_congr rfl (fun i hi => ?_)
    rw [getD_drop_add, getD_drop_add, (key i hx (Finset.mem_range.mp hi)).1,
      (key i hx (Finset.mem_range.mp hi)).2]

theorem getD_imgpel (input : List Int) (hin : ∀ v ∈ input, 0 ≤ v ∧ v ≤ 255) (k : Nat) :
    0 ≤ input.getD k 0 ∧ input.getD k 0 ≤ 255 := by
  by_cases hk : k < input.length
  · rw [List.getD_eq_getElem _ _ hk]
    exact hin _ (List.getElem_mem hk)
  · rw [List.getD_eq_default _ _ (by omega)]
    omega

/-- The per-sample core of the comparison of the two paths: with non-negative floating rows of
sum one and integer rows within `1 / 512` of them, the 8-bit results differ by at most one. -/
theorem filter_paths_close (s : FrameScale) (input : List Int) (cX cY : List Int)
    (fX fY : List ℚ) (posX posY : Int) (iSizeX : Nat) (vMin vMax : Int)
    (hin : ∀ v ∈ input, 0 ≤ v ∧ v ≤ 255)
    (h0 : 0 ≤ vMin) (h1 : vMin ≤ vMax) (h2 : vMax ≤ 255)
    (hfX : ∀ i, i < s.m_filterTapsX → 0 ≤ fX.getD i 0)
    (hfY : ∀ j, j < s.m_filterTapsY → 0 ≤ fY.getD j 0)
    (hsX : ∑ i ∈ Finset.range s.m_filterTapsX, fX.getD i 0 = 1)
    (hsY : ∑ j ∈ Finset.range s.m_filterTapsY, fY.getD j 0 = 1)
    (heX : ∑ i ∈ Finset.range s.m_filterTapsX,
      |((cX.getD i 0 : Int) : ℚ) / (((2 : Int) ^ 14 : Int) : ℚ) - fX.getD i 0| ≤ 1 / 512)
    (heY : ∑ j ∈ Finset.range s.m_filterTapsY,
      |((cY.getD j 0 : Int) : ℚ) / (((2 : Int) ^ 14 : Int) : ℚ) - fY.getD j 0| ≤ 1 / 512) :
    |s.filter input cX cY 14 posX posY iSizeX vMin vMax
      - s.filterDouble input fX fY posX posY iSizeX vMin vMax| ≤ 1 := by
  rw [filter_eq_tapSum s input cX cY 14 posX posY iSizeX vMin vMax (by norm_num),
    filterDouble_eq]
  have hv : ∀ i j : Nat,
      (0 : ℚ) ≤ ((input.getD (s.readIndex posX posY iSizeX i j).toNat 0 : Int) : ℚ) ∧
      ((input.getD (s.readIndex posX posY iSizeX i j).toNat 0 : Int) : ℚ) ≤ 255 := by
    intro i j
    obtain ⟨ha, hb⟩ := getD_imgpel input hin (s.readIndex posX posY iSizeX i j).toNat
    exact ⟨by exact_mod_cast ha, by exact_mod_cast hb⟩
  have hAB := separable_sum_close s.m_filterTapsX s.m_filterTapsY
    (fun i => fX.getD i 0) (fun i => ((cX.getD i 0 : Int) : ℚ) / (((2 : Int) ^ 14 : Int) : ℚ))
    (fun j => fY.getD j 0) (fun j => ((cY.getD j 0 : Int) : ℚ) / (((2 : Int) ^ 14 : Int) : ℚ))
    (fun i j => ((input.getD (s.readIndex posX posY iSizeX i j).toNat 0 : Int) : ℚ))
    (1 / 512) (by norm_num) hv hfX hfY hsX hsY heX heY
  have hB := separable_mean_bounds s.m_filterTapsX s.m_filterTapsY
    (fun i => fX.getD i 0) (fun j => fY.getD j 0)
    (fun i j => ((input.getD (s.readIndex posX posY iSizeX i j).toNat 0 : Int) : ℚ))
    hv hfX hfY hsX hsY
  dsimp only at hAB hB
  have hS : roundedShift (s.tapSum input cX cY posX posY iSizeX) 14
      = ⌊(∑ j ∈ Finset.range s.m_filterTapsY, ∑ i ∈ Finset.range s.m_filterTapsX,
          ((cY.getD j 0 : Int) : ℚ) / (((2 : Int) ^ 14 : Int) : ℚ)
            * (((cX.getD i 0 : Int) : ℚ) / (((2 : Int) ^ 14 : Int) : ℚ))
            * ((input.getD (s.readIndex posX posY iSizeX i j).toNat 0 : Int) : ℚ)) + 1 / 2⌋ := by
    unfold roundedShift
    congr 1
    have e : ((s.tapSum input cX cY posX posY iSizeX : Int) : ℚ)
        = ∑ j ∈ Finset.range s.m_filterTapsY, ∑ i ∈ Finset.range s.m_filterTapsX,
          ((cY.getD j 0 : Int) : ℚ) * ((cX.getD i 0 : Int) : ℚ)
            * ((input.getD (s.readIndex posX posY iSizeX i j).toNat 0 : Int) : ℚ) := by
      unfold FrameScale.tapSum FrameScale.readIndex
      push_cast
      rfl
    rw [e, add_div, Finset.sum_div]
    congr 1
    · refine Finset.sum_congr rfl (fun j _ => ?_)
      rw [Finset.sum_div]
      refine Finset.sum_congr rfl (fun i _ => ?_)
      push_cast
      ring
    · norm_num
  rw [hS]
  generalize (∑ j ∈ Finset.range s.m_filterTapsY, ∑ i ∈ Finset.range s.m_filterTapsX,
          ((cY.getD j 0 : Int) : ℚ) / (((2 : Int) ^ 14 : Int) : ℚ)
            * (((cX.getD i 0 : Int) : ℚ) / (((2 : Int) ^ 14 : Int) : ℚ))
            * ((input.getD (s.readIndex posX posY iSizeX i j).toNat 0 : Int) : ℚ)) = A
    at hAB ⊢
  generalize (∑ j ∈ Finset.range s.m_filterTapsY, ∑ i ∈ Finset.range s.m_filterTapsX,
          fY.getD j 0 * fX.getD i 0
            * ((input.getD (s.readIndex posX posY iSizeX i j).toNat 0 : Int) : ℚ)) = B
    at hAB hB ⊢
  have hlt : |A - B| < 1 := lt_of_le_of_lt hAB (by norm_num)
  have hnear := floor_half_near A B hlt
  have hb0 : 0 ≤ ⌊B + 1 / 2⌋ := Int.floor_nonneg.mpr (by linarith [hB.1])
  have hb1 : ⌊B + 1 / 2⌋ ≤ 255 := by
    have : ⌊B + 1 / 2⌋ < 256 := by
      rw [Int.floor_lt]
      push_cast
      linarith [hB.2]
    omega
  have htr : truncToInt (B + 1 / 2) = ⌊B + 1 / 2⌋ := by
    unfold truncToInt
    rw [if_pos (by linarith [hB.1])]
  rw [htr]
  have hab := abs_le.mp hnear
  rw [toInt32_of_mem _ (by omega) (by omega),
    toImgpel_iClip _ _ _ h0 h1 h2, toImgpel_iClip _ _ _ h0 h1 h2]
  exact le_trans (iClip_lipschitz _ _ _ _) hnear

/-- Claim C12: for a Gaussian scaler whose input is at most three times the output in each
direction (which covers the scale factors 0.5x, 1.5x, 2x and 1/3x), with at least one lobe,
every plane of 8-bit samples, every clip range inside the 8-bit sample range and every output
position, the sample of the integer path (`iFilter != 0`, precision 14) and the sample of the
floating path (`iFilter = 0`) of the plane filter differ by at most 1.  The C library
exponential enters through three facts: it is non-negative, it is at least `3 / 5` on
`[-1/2, 0]`, and `exp t * t ^ 6 <= 720` for negative `t`. -/
theorem C12_integer_and_floating_paths_agree (exp : ℚ → ℚ) (self : FrameScale)
    (iWidth iHeight oWidth oHeight : Nat) (lobes chromaLocationType : Int)
    (input output : List Int) (vMin vMax iFilter : Int) (x y : Nat)
    (hexp0 : ∀ t, 0 ≤ exp t)
    (hexp1 : ∀ t, -(1 / 2) ≤ t → t ≤ 0 → 3 / 5 ≤ exp t)
    (hexp2 : ∀ t, t < 0 → exp t * t ^ 6 ≤ 720)
    (hl : 1 ≤ lobes)
    (hfx : iWidth ≤ 3 * oWidth) (hfy : iHeight ≤ 3 * oHeight)
    (hin : ∀ v ∈ input, 0 ≤ v ∧ v ≤ 255)
    (hout : oWidth * oHeight ≤ output.length)
    (h0 : 0 ≤ vMin) (h1 : vMin ≤ vMax) (h2 : vMax ≤ 255)
    (hif : iFilter ≠ 0) (hx : x < oWidth) (hy : y < oHeight) :
    |((FrameScaleGaussian.new exp self iWidth iHeight oWidth oHeight lobes
          chromaLocationType).filterPlane input output iWidth iHeight oWidth oHeight
          vMin vMax iFilter).2.getD (oWidth * y + x) 0
      - ((FrameScaleGaussian.new exp self iWidth iHeight oWidth oHeight lobes
          chromaLocationType).filterPlane input output iWidth iHeight oWidth oHeight
          vMin vMax 0).2.getD (oWidth * y + x) 0| ≤ 1 := by
  rw [filterPlane_getD _ input output iWidth iHeight oWidth oHeight vMin vMax iFilter hout x y
      hx hy,
    filterPlane_getD _ input output iWidth iHeight oWidth oHeight vMin vMax 0 hout x y hx hy,
    if_neg hif, if_pos rfl]
  obtain ⟨hX1, hX2, hX3⟩ := gaussian_axis_rows exp hexp0 hexp1 hexp2 iWidth oWidth lobes
    self.m_iMinX x hl hfx hx
  obtain ⟨hY1, hY2, hY3⟩ := gaussian_axis_rows exp hexp0 hexp1 hexp2 iHeight oHeight lobes
    self.m_iMinY y hl hfy hy
  exact filter_paths_close _ input _ _ _ _ _ _ iWidth vMin vMax hin h0 h1 h2
    hX1 hY1 hX2 hY2 hX3 hY3

/-- Witness for C12: a 2 x 2 plane reduced to 1 x 1 (scale factor 0.5x), one lobe. -/
theorem C12_integer_and_floating_paths_agree_witness :
    |((FrameScaleGaussian.new (fun t => if -(1 / 2) ≤ t then 1 else 0) { } 2 2 1 1 1
          0).filterPlane [10, 200, 30, 255] [0] 2 2 1 1 0 255 1).2.getD (1 * 0 + 0) 0
      - ((FrameScaleGaussian.new (fun t => if -(1 / 2) ≤ t then 1 else 0) { } 2 2 1 1 1
          0).filterPlane [10, 200, 30, 255] [0] 2 2 1 1 0 255 0).2.getD (1 * 0 + 0) 0| ≤ 1 :=
  C12_integer_and_floating_paths_agree (fun t => if -(1 / 2) ≤ t then 1 else 0) { } 2 2 1 1 1 0
    [10, 200, 30, 255] [0] 0 255 1 0 0
    (fun t => by dsimp only; split <;> norm_num)
    (fun t ht _ => by dsimp only; rw [if_pos ht]; norm_num)
    (fun t ht => by
      dsimp only
      split
      · rename_i h
        have h6 : t ^ 6 = (t ^ 2) ^ 3 := by ring
        have h2 : t ^ 2 ≤ 1 := by nlinarith
        have h3 : (t ^ 2) ^ 3 ≤ 1 := pow_le_one₀ (sq_nonneg t) h2
        rw [one_mul, h6]
        linarith
      · norm_num)
    (by decide) (by decide) (by decide) (by decide) (by decide) (by decide) (by decide)
    (by decide) (by decide) (by decide) (by decide)

end hdrtoolslib

namespace filmgrain

/-! ## The edge detector on a flat plane -/

theorem at_const (w h : Nat) (v : Int) (x y : Int) (hw : 0 < w) (hh : 0 < h) :
    (PelPlane.const w h v).at x y = v := by
  unfold PelPlane.at PelPlane.const
  dsimp only
  have hx1 : 0 ≤ min (max x 0) ((w : Int) - 1) := le_min (le_max_right _ _) (by omega)
  have hx2 : min (max x 0) ((w : Int) - 1) ≤ (w : Int) - 1 := min_le_right _ _
  have hy1 : 0 ≤ min (max y 0) ((h : Int) - 1) := le_min (le_max_right _ _) (by omega)
  have hy2 : min (max y 0) ((h : Int) - 1) ≤ (h : Int) - 1 := min_le_right _ _
  generalize min (max x 0) ((w : Int) - 1) = cx at hx1 hx2
  generalize min (max y 0) ((h : Int) - 1) = cy at hy1 hy2
  have hcx : cx.toNat < w := by omega
  have hcy : cy.toNat + 1 ≤ h := by omega
  have hidx : cy.toNat * w + cx.toNat < w * h := by
    have : (cy.toNat + 1) * w ≤ h * w := Nat.mul_le_mul_right _ hcy
    rw [Nat.succ_mul, Nat.mul_comm h w] at this
    omega
  simp [List.getD_eq_getElem?_getD, List.getElem?_replicate, hidx]

theorem build_eq_const (w h : Nat) (f : Nat → Nat → Int) (v : Int)
    (hf : 0 < w → 0 < h → ∀ x y, f x y = v) :
    PelPlane.build w h f = PelPlane.const w h v := by
  unfold PelPlane.build PelPlane.const
  congr 1
  have hmap : (List.range (w * h)).map (fun k => f (k % w) (k / w))
      = (List.range (w * h)).map (fun _ => v) := by
    apply List.map_congr_left
    intro k hk
    have hk2 : k < w * h := List.mem_range.mp hk
    have hw : 0 < w := by
      rcases Nat.eq_zero_or_pos w with h0 | h0
      · rw [h0, Nat.zero_mul] at hk2; omega
      · exact h0
    have hh : 0 < h := by
      rcases Nat.eq_zero_or_pos h with h0 | h0
      · rw [h0, Nat.mul_zero] at hk2; omega
      · exact h0
    exact hf hw hh _ _
  rw [hmap, List.map_const', List.length_range]

theorem convolve_const (kernel : List (List Int)) (w h : Nat) (v : Int) (x y : Nat)
    (hw : 0 < w) (hh : 0 < h) :
    convolve kernel (PelPlane.const w h v) x y = kernelSum kernel * v := by
  unfold convolve kernelSum
  simp only [at_const w h v _ _ hw hh]
  rw [← List.sum_map_mul_right]
  congr 1
  apply List.map_congr_left
  intro j _
  rw [← List.sum_map_mul_right]

theorem smooth_const (gauss : List (List Int)) (norm : Int) (w h : Nat) (v : Int) :
    Canny.smooth gauss norm (PelPlane.const w h v)
      = PelPlane.const w h (kernelSum gauss * v / norm) := by
  unfold Canny.smooth
  exact build_eq_const w h _ _ (fun hw hh x y => by
    show convolve gauss (PelPlane.const w h v) x y / norm = _
    rw [convolve_const gauss w h v x y hw hh])

theorem kernelSum_gx : kernelSum Canny.m_gx = 0 := by decide

theorem kernelSum_gy : kernelSum Canny.m_gy = 0 := by decide

theorem gradient_const (quantDir : Int → Int → Int) (w h : Nat) (v : Int) :
    Canny.gradient quantDir (PelPlane.const w h v)
      = (PelPlane.const w h 0, PelPlane.const w h (quantDir 0 0)) := by
  unfold Canny.gradient
  congr 1
  · exact build_eq_const w h _ _ (fun hw hh x y => by
      show ((Nat.sqrt (convolve Canny.m_gx (PelPlane.const w h v) x y
          * convolve Canny.m_gx (PelPlane.const w h v) x y
          + convolve Canny.m_gy (PelPlane.const w h v) x y
            * convolve Canny.m_gy (PelPlane.const w h v) x y).toNat : Nat) : Int) = 0
      rw [convolve_const _ w h v x y hw hh, convolve_const _ w h v x y hw hh, kernelSum_gx,
        kernelSum_gy]
      simp)
  · exact build_eq_const w h _ _ (fun hw hh x y => by
      show quantDir (convolve Canny.m_gx (PelPlane.const w h v) x y)
          (convolve Canny.m_gy (PelPlane.const w h v) x y) = quantDir 0 0
      rw [convolve_const _ w h v x y hw hh, convolve_const _ w h v x y hw hh, kernelSum_gx,
        kernelSum_gy, zero_mul])

theorem suppressNonMax_const (w h : Nat) (d : Int) :
    Canny.suppressNonMax (PelPlane.const w h 0) (PelPlane.const w h d)
      = PelPlane.const w h 0 := by
  unfold Canny.suppressNonMax
  exact build_eq_const w h _ _ (fun hw hh x y => by
    show (if (PelPlane.const w h 0).at _ _ ≤ (PelPlane.const w h 0).at x y
        ∧ (PelPlane.const w h 0).at _ _ ≤ (PelPlane.const w h 0).at x y
      then (PelPlane.const w h 0).at x y else 0) = 0
    simp only [at_const w h 0 _ _ hw hh, ite_self])

theorem foldl_max_replicate_zero (n : Nat) :
    (List.replicate n (0 : Int)).foldl max 0 = 0 := by
  induction n with
  | zero => rfl
  | succ n ih => rw [List.replicate_succ, List.foldl_cons, max_self, ih]

theorem doubleThreshold_const (c : Canny) (w h : Nat) (bitDepth : Nat) :
    c.doubleThreshold (PelPlane.const w h 0) bitDepth = PelPlane.const w h 0 := by
  unfold Canny.doubleThreshold
  have hmax : (PelPlane.const w h 0).data.foldl max 0 = 0 := foldl_max_replicate_zero _
  rw [hmax]
  exact build_eq_const w h _ _ (fun hw hh x y => by
    simp [at_const w h 0 _ _ hw hh])

theorem edgeTracking_const (w h ww wh : Nat) (bitDepth : Nat) :
    Canny.edgeTracking (PelPlane.const w h 0) ww wh bitDepth = PelPlane.const w h 0 := by
  unfold Canny.edgeTracking
  exact build_eq_const w h _ _ (fun hw hh x y => by
    simp only [at_const w h 0 _ _ hw hh]
    by_cases hs : (0 : Int) = Canny.strongPel bitDepth
    · rw [if_pos hs, ← hs]
    · rw [if_neg hs]
      have hany : ((List.range wh).any (fun _ =>
          (List.range ww).any (fun _ => decide ((0 : Int) = Canny.strongPel bitDepth))))
          = false := by
        simp [hs]
      rw [hany]
      simp)

theorem detect_edges_const (c : Canny) (m_gauss5x5 : List (List Int)) (norm : Int)
    (quantDir : Int → Int → Int) (w h : Nat) (v : Int) (uiBitDepth : Nat) :
    c.detect_edges m_gauss5x5 norm quantDir (PelPlane.const w h v) uiBitDepth
      = PelPlane.const w h 0 := by
  unfold Canny.detect_edges
  dsimp only
  rw [smooth_const, gradient_const]
  dsimp only
  rw [suppressNonMax_const, doubleThreshold_const, edgeTracking_const]

/-- C18: for every picture plane whose samples are all equal, `Canny::detect_edges`
produces a mask plane of the same dimensions in which every sample is 0. -/
theorem C18_flat_plane_has_no_edges (c : Canny) (m_gauss5x5 : List (List Int)) (norm : Int)
    (quantDir : Int → Int → Int) (orig : PelPlane) (v : Int) (uiBitDepth : Nat)
    (hflat : orig.data = List.replicate (orig.width * orig.height) v) :
    (c.detect_edges m_gauss5x5 norm quantDir orig uiBitDepth).width = orig.width ∧
    (c.detect_edges m_gauss5x5 norm quantDir orig uiBitDepth).height = orig.height ∧
    (c.detect_edges m_gauss5x5 norm quantDir orig uiBitDepth).data.length
      = orig.width * orig.height ∧
    ∀ m ∈ (c.detect_edges m_gauss5x5 norm quantDir orig uiBitDepth).data, m = 0 := by
  obtain ⟨w, h, d⟩ := orig
  simp only at hflat
  subst hflat
  have hres : c.detect_edges m_gauss5x5 norm quantDir
      { width := w, height := h, data := List.replicate (w * h) v } uiBitDepth
      = PelPlane.const w h 0 :=
    detect_edges_const c m_gauss5x5 norm quantDir w h v uiBitDepth
  rw [hres]
  refine ⟨rfl, rfl, ?_, ?_⟩
  · simp [PelPlane.const]
  · intro m hm
    exact List.eq_of_mem_replicate hm

/-- Witness of C18: a flat 3x2 plane of value 77 at bit depth 8. -/
theorem C18_flat_plane_has_no_edges_witness :
    (Canny.detect_edges { }
        [[2, 4, 5, 4, 2], [4, 9, 12, 9, 4], [5, 12, 15, 12, 5], [4, 9, 12, 9, 4],
          [2, 4, 5, 4, 2]] 159 (fun _ _ => 0)
        { width := 3, height := 2, data := [77, 77, 77, 77, 77, 77] } 8).data.length = 3 * 2 ∧
    ∀ m ∈ (Canny.detect_edges { }
        [[2, 4, 5, 4, 2], [4, 9, 12, 9, 4], [5, 12, 15, 12, 5], [4, 9, 12, 9, 4],
          [2, 4, 5, 4, 2]] 159 (fun _ _ => 0)
        { width := 3, height := 2, data := [77, 77, 77, 77, 77, 77] } 8).data, m = 0 :=
  (C18_flat_plane_has_no_edges { }
      [[2, 4, 5, 4, 2], [4, 9, 12, 9, 4], [5, 12, 15, 12, 5], [4, 9, 12, 9, 4],
        [2, 4, 5, 4, 2]] 159 (fun _ _ => 0)
      { width := 3, height := 2, data := [77, 77, 77, 77, 77, 77] } 77 8 (by decide)).2.2

/-- C30: the configuration of the curve fit: `ORDER` is 4 and does not exceed
`MAXORDER`, which is 8; `NUM_PASSES` is 2; `QUANT_LEVELS` is 4. -/
theorem C30_curve_fit_configuration :
    ORDER = 4 ∧ ORDER ≤ MAXORDER ∧ MAXORDER = 8 ∧ NUM_PASSES = 2 ∧ QUANT_LEVELS = 4 := by
  decide

end filmgrain
